import Mathlib

/-! # game-square: a breakout-style arcade engine

A shallow embedding of the simulation core of the repository
(`constants.js`, `utils.js`, `gameObjects.js`, `physics.js`,
`levelGenerator.js`, `game.js`) together with the properties its
specification states about it.

Modelling conventions.

* A JavaScript number that holds a coordinate, a length, a speed or an angle
  is an element of a linearly ordered field `α` with a floor function; the
  arithmetic is exact (no rounding, no NaN, no infinities).  The definitions
  are computable and can be run at `α := ℚ`; the theorems that need
  `Math.sqrt`, `Math.sin`, `Math.cos` are stated at `α := ℝ`.
* Where a property depends on rounding, the function is given a second time
  with the result of each arithmetic operation passed through a rounding
  function `fl` (`checkCircleRectCollisionFl`); `roundDouble` is the rounding
  of IEEE 754 doubles, and `fl := id` gives the exact function back.
* Integer counters (hit points, score, level, balls remaining) are `Int`.
* `Math.sqrt`, `Math.sin`, `Math.cos`, `Math.atan2` and `Math.PI` come from
  the host; they are the fields of a `JSMath` record passed to the code that
  calls them.
* `Math.random()` reads the next element of a stream of draws (`Rng`).
* Drawing, sound and UI calls do not touch the simulation state and are left
  out (`playSound` and `updateUI` have empty bodies in the source).
* A `TypeError` raised by dereferencing `null` is the result `none`.
-/

set_option autoImplicit false
set_option linter.unusedSectionVars false
set_option linter.unusedVariables false

namespace GameSquare

/-! ## constants.js -/

section Constants

variable (α : Type) [LinearOrderedField α]

/-- Playfield width, `CANVAS_WIDTH`. -/
def CANVAS_WIDTH : α := 480

/-- Playfield height, `CANVAS_HEIGHT`. -/
def CANVAS_HEIGHT : α := 640

/-- Ball radius, `BALL_RADIUS`. -/
def BALL_RADIUS : α := 10

/-- Block width, `BLOCK_WIDTH`. -/
def BLOCK_WIDTH : α := 50

/-- Block height, `BLOCK_HEIGHT`. -/
def BLOCK_HEIGHT : α := 20

/-- Paddle width, `PADDLE_WIDTH`. -/
def PADDLE_WIDTH : α := 100

/-- Paddle height, `PADDLE_HEIGHT`. -/
def PADDLE_HEIGHT : α := 15

/-- Paddle speed, `PADDLE_SPEED`. -/
def PADDLE_SPEED : α := 8

end Constants

/-- The three block types, `BLOCK_TYPES`. -/
inductive BlockType where
  | normal
  | hard
  | bonus
  deriving DecidableEq, Repr

/-- The five game states, `GAME_STATES`. -/
inductive GameStatus where
  | menu
  | ready
  | playing
  | levelComplete
  | gameOver
  deriving DecidableEq, Repr

/-- The five power-ups, `BONUS_TYPES`, in declaration order. -/
inductive BonusType where
  | extraBall
  | enlargePaddle
  | shrinkPaddle
  | speedUp
  | speedDown
  deriving DecidableEq, Repr

/-- The colour pool of a block type, `BLOCK_COLORS`. -/
def BLOCK_COLORS : BlockType → List String
  | .normal => ["#3498db", "#2ecc71", "#9b59b6", "#e74c3c", "#f1c40f", "#1abc9c",
      "#d35400", "#c0392b"]
  | .hard => ["#34495e", "#8e44ad", "#c0392b", "#16a085", "#27ae60"]
  | .bonus => ["#f39c12", "#f1c40f", "#e67e22"]

/-- The list `Object.values(BONUS_TYPES)`. -/
def BONUS_TYPE_VALUES : List BonusType :=
  [.extraBall, .enlargePaddle, .shrinkPaddle, .speedUp, .speedDown]

/-- Grid rows, `LEVEL_CONFIG.ROWS`. -/
def ROWS : Nat := 6

/-- Grid columns, `LEVEL_CONFIG.COLS`. -/
def COLS : Nat := 10

/-- Last level, `LEVEL_CONFIG.MAX_LEVELS`. -/
def MAX_LEVELS : Int := 10

/-- Balls at the start of a game, `LEVEL_CONFIG.INITIAL_BALLS`. -/
def INITIAL_BALLS : Int := 1

/-- Cap on the number of balls, `LEVEL_CONFIG.MAX_BALLS`. -/
def MAX_BALLS : Int := 10

/-! ## The host: `Math` and `Math.random` -/

/-- The functions and the constant of the host `Math` object that the engine
calls and that an ordered field does not already provide. -/
structure JSMath (α : Type) where
  sqrt : α → α
  sin : α → α
  cos : α → α
  atan2 : α → α → α
  PI : α

/-- The source of `Math.random()`: a stream of draws and a read position. -/
structure Rng (α : Type) where
  draws : Nat → α
  pos : Nat

/-- One call of `Math.random()`: the draw at the read position, which then
advances. -/
def Rng.random {α : Type} (g : Rng α) : α × Rng α :=
  (g.draws g.pos, { g with pos := g.pos + 1 })

/-- The array read `xs[Math.floor(v)]`; `none` is `undefined`. -/
def floorIndex {α β : Type} [LinearOrderedField α] [FloorRing α] (xs : List β) (v : α) :
    Option β :=
  if 0 ≤ ⌊v⌋ then xs.get? ⌊v⌋.toNat else none

/-! ## utils.js -/

/-- An axis-aligned rectangle: the `x, y, width, height` of a block or paddle. -/
structure Rect (α : Type) where
  x : α
  y : α
  width : α
  height : α

/-- A circle: the `x, y, radius` of a ball. -/
structure Circle (α : Type) where
  x : α
  y : α
  radius : α

/-- The side reported by `checkCircleRectCollision`. -/
inductive Direction where
  | top
  | bottom
  | left
  | right
  deriving DecidableEq, Repr

section Utils

variable {α : Type} [LinearOrderedField α]

/-- Rectangle overlap test, `checkCollision`. -/
def checkCollision (obj1 obj2 : Rect α) : Bool :=
  decide (obj1.x < obj2.x + obj2.width) &&
  decide (obj1.x + obj1.width > obj2.x) &&
  decide (obj1.y < obj2.y + obj2.height) &&
  decide (obj1.y + obj1.height > obj2.y)

/-- The value `closestX` of `checkCircleRectCollision`: the circle centre's
x clamped to the rectangle. -/
def closestX (circle : Circle α) (rect : Rect α) : α :=
  max rect.x (min circle.x (rect.x + rect.width))

/-- The value `closestY` of `checkCircleRectCollision`. -/
def closestY (circle : Circle α) (rect : Rect α) : α :=
  max rect.y (min circle.y (rect.y + rect.height))

/-- The value `distanceX` of `checkCircleRectCollision`: the horizontal
offset from the closest point to the centre. -/
def distanceX (circle : Circle α) (rect : Rect α) : α :=
  circle.x - closestX circle rect

/-- The value `distanceY` of `checkCircleRectCollision`: the vertical offset
from the closest point to the centre. -/
def distanceY (circle : Circle α) (rect : Rect α) : α :=
  circle.y - closestY circle rect

/-- The value `distanceSquared` of `checkCircleRectCollision`. -/
def distanceSquared (circle : Circle α) (rect : Rect α) : α :=
  distanceX circle rect * distanceX circle rect + distanceY circle rect * distanceY circle rect

/-- Circle against rectangle, `checkCircleRectCollision`: `none` is the
source's `null`, `some d` is the object carrying direction `d`. -/
def checkCircleRectCollision (circle : Circle α) (rect : Rect α) : Option Direction :=
  if distanceSquared circle rect ≤ circle.radius * circle.radius then
    if |distanceY circle rect| > |distanceX circle rect| then
      some (if distanceY circle rect < 0 then Direction.top else Direction.bottom)
    else
      some (if distanceX circle rect < 0 then Direction.left else Direction.right)
  else
    none

end Utils

/-! ## gameObjects.js: Ball -/

/-- The fields of a `Ball` object. -/
structure Ball (α : Type) where
  x : α
  y : α
  radius : α
  velocityX : α
  velocityY : α
  isActive : Bool
  speed : α
  trail : List (α × α)
  trailLength : Nat
  glowSize : α
  isLaunched : Bool

section BallOps

variable {α : Type} [LinearOrderedField α]

/-- The constructor `new Ball(x, y, radius)`. -/
def Ball.new (x y radius : α) : Ball α :=
  { x := x, y := y, radius := radius, velocityX := 0, velocityY := 0, isActive := true,
    speed := 6, trail := [], trailLength := 5, glowSize := 5, isLaunched := false }

/-- The ball read as the circle argument of `checkCircleRectCollision`. -/
def Ball.toCircle (b : Ball α) : Circle α :=
  { x := b.x, y := b.y, radius := b.radius }

/-- The method `Ball.normalizeVelocity`: rescale the velocity to length
`speed` unless its length is not positive. -/
def Ball.normalizeVelocity (m : JSMath α) (b : Ball α) : Ball α :=
  let currentSpeed := m.sqrt (b.velocityX * b.velocityX + b.velocityY * b.velocityY)
  if currentSpeed > 0 then
    { b with velocityX := (b.velocityX / currentSpeed) * b.speed,
             velocityY := (b.velocityY / currentSpeed) * b.speed }
  else b

/-- The method `Ball.updateTrail`: append the position, drop the oldest
point when the trail is longer than `trailLength`. -/
def Ball.updateTrail (b : Ball α) : Ball α :=
  let trail := b.trail ++ [(b.x, b.y)]
  { b with trail := if trail.length > b.trailLength then trail.tail else trail }

/-- The method `Ball.checkBoundaries`: left or right wall, then the top wall;
the bottom edge is not handled. -/
def Ball.checkBoundaries (b : Ball α) : Ball α :=
  let b1 : Ball α :=
    if b.x - b.radius < 0 then
      { b with x := b.radius, velocityX := -b.velocityX }
    else if b.x + b.radius > CANVAS_WIDTH α then
      { b with x := CANVAS_WIDTH α - b.radius, velocityX := -b.velocityX }
    else b
  if b1.y - b1.radius < 0 then
    { b1 with y := b1.radius, velocityY := -b1.velocityY }
  else b1

/-- The method `Ball.update`. -/
def Ball.update (m : JSMath α) (b : Ball α) : Ball α :=
  if !b.isLaunched then b
  else
    let b1 := b.updateTrail
    let b2 := { b1 with x := b1.x + b1.velocityX }
    let b3 := { b2 with y := b2.y + b2.velocityY }
    let b4 := b3.checkBoundaries
    b4.normalizeVelocity m

/-- The method `Ball.launch(angle)`. -/
def Ball.launch (m : JSMath α) (b : Ball α) (angle : α) : Ball α :=
  { b with velocityX := m.cos angle * b.speed,
           velocityY := -m.sin angle * b.speed,
           isLaunched := true }

end BallOps

/-! ## gameObjects.js: Block -/

/-- One particle of a block's break effect. -/
structure Particle (α : Type) where
  x : α
  y : α
  vx : α
  vy : α
  size : α
  life : α
  color : Option String

/-- The fields of a `Block` object; `color` is `none` when the pool read is
`undefined`, `bonusType` is `none` for `null`. -/
structure Block (α : Type) where
  x : α
  y : α
  width : α
  height : α
  type : BlockType
  hitPoints : Int
  isActive : Bool
  hitAnimation : Int
  particles : List (Particle α)
  scoreValue : Int
  bonusType : Option BonusType
  color : Option String

section BlockOps

variable {α : Type} [LinearOrderedField α] [FloorRing α]

/-- The constructor `new Block(x, y, width, height, type, hitPoints)`: one
draw picks the colour, and a bonus block takes a second draw for its
power-up. -/
def Block.new (g : Rng α) (x y width height : α) (type : BlockType) (hitPoints : Int) :
    Block α × Rng α :=
  let colorPool := BLOCK_COLORS type
  let (r, g1) := g.random
  let color := floorIndex colorPool (r * (colorPool.length : α))
  let base : Block α :=
    { x := x, y := y, width := width, height := height, type := type,
      hitPoints := hitPoints, isActive := true, hitAnimation := 0, particles := [],
      scoreValue := if type = BlockType.bonus then 30 else 10,
      bonusType := none, color := color }
  if type = BlockType.bonus then
    let (r2, g2) := g1.random
    ({ base with
        bonusType := floorIndex BONUS_TYPE_VALUES (r2 * (BONUS_TYPE_VALUES.length : α)) },
      g2)
  else (base, g1)

/-- The block read as the rectangle argument of `checkCircleRectCollision`. -/
def Block.toRect (b : Block α) : Rect α :=
  { x := b.x, y := b.y, width := b.width, height := b.height }

/-- One aging step of a particle in `Block.update`; `none` when the particle
is spliced out. -/
def Particle.age (p : Particle α) : Option (Particle α) :=
  let p1 := { p with life := p.life - 1 }
  let p2 := { p1 with x := p1.x + p1.vx }
  let p3 := { p2 with y := p2.y + p2.vy }
  let p4 := { p3 with vy := p3.vy + 0.1 }
  if p4.life ≤ 0 then none else some p4

/-- The method `Block.update`: count the flash timer down and age the
particles of an inactive block. -/
def Block.update (b : Block α) : Block α :=
  let b1 := if b.hitAnimation > 0 then { b with hitAnimation := b.hitAnimation - 1 } else b
  if !b1.isActive && decide (b1.particles.length > 0) then
    { b1 with particles := b1.particles.filterMap Particle.age }
  else b1

/-- One iteration of the loop of `Block.createBreakEffect`: four draws, one
particle pushed. -/
def Block.pushParticle (b : Block α) (g : Rng α) : Block α × Rng α :=
  let (r1, g1) := g.random
  let (r2, g2) := g1.random
  let (r3, g3) := g2.random
  let (r4, g4) := g3.random
  let p : Particle α :=
    { x := b.x + b.width / 2, y := b.y + b.height / 2,
      vx := (r1 - 0.5) * 5, vy := (r2 - 0.5) * 5,
      size := r3 * 5 + 2, life := r4 * 30 + 10, color := b.color }
  ({ b with particles := b.particles ++ [p] }, g4)

/-- The method `Block.createBreakEffect`: `particleCount = 15` iterations. -/
def Block.createBreakEffect (b : Block α) (g : Rng α) : Block α × Rng α :=
  (List.range 15).foldl (fun (s : Block α × Rng α) _ => s.1.pushParticle s.2) (b, g)

/-- The method `Block.hit`: the returned flag says whether this hit destroyed
the block. -/
def Block.hit (b : Block α) (g : Rng α) : Bool × Block α × Rng α :=
  let b1 := { b with hitAnimation := 10 }
  let b2 := { b1 with hitPoints := b1.hitPoints - 1 }
  if b2.hitPoints ≤ 0 then
    let b3 := { b2 with isActive := false }
    let (b4, g1) := b3.createBreakEffect g
    (true, b4, g1)
  else
    (false, b2, g)

end BlockOps

/-! ## gameObjects.js: Paddle -/

/-- The fields of a `Paddle` object. -/
structure Paddle (α : Type) where
  x : α
  y : α
  width : α
  height : α
  speed : α
  targetX : α
  normalWidth : α

section PaddleOps

variable {α : Type} [LinearOrderedField α]

/-- The constructor `new Paddle(x, y, width, height)`. -/
def Paddle.new (x y width height : α) : Paddle α :=
  { x := x, y := y, width := width, height := height, speed := PADDLE_SPEED α,
    targetX := x, normalWidth := width }

/-- The method `Paddle.update`: ease towards the target, then clamp. -/
def Paddle.update (p : Paddle α) : Paddle α :=
  let dx := p.targetX - p.x
  let p1 := { p with x := p.x + dx * 0.2 }
  { p1 with x := max 0 (min (CANVAS_WIDTH α - p1.width) p1.x) }

/-- The method `Paddle.setTargetX`. -/
def Paddle.setTargetX (p : Paddle α) (x : α) : Paddle α :=
  { p with targetX := x - p.width / 2 }

/-- The method `Paddle.move(direction)`. -/
def Paddle.move (p : Paddle α) (direction : α) : Paddle α :=
  let p1 := { p with targetX := p.targetX + direction * p.speed }
  { p1 with targetX := max 0 (min (CANVAS_WIDTH α - p1.width) p1.targetX) }

/-- The method `Paddle.resize(factor)`. -/
def Paddle.resize (p : Paddle α) (factor : α) : Paddle α :=
  let newWidth := p.normalWidth * factor
  let centerX := p.x + p.width / 2
  let p1 := { p with width := newWidth }
  let p2 := { p1 with x := centerX - p1.width / 2 }
  let p3 := { p2 with x := max 0 (min (CANVAS_WIDTH α - p2.width) p2.x) }
  { p3 with targetX := p3.x }

/-- The method `Paddle.resetSize`. -/
def Paddle.resetSize (p : Paddle α) : Paddle α :=
  let centerX := p.x + p.width / 2
  let p1 := { p with width := p.normalWidth }
  let p2 := { p1 with x := centerX - p1.width / 2 }
  let p3 := { p2 with x := max 0 (min (CANVAS_WIDTH α - p2.width) p2.x) }
  { p3 with targetX := p3.x }

end PaddleOps

/-! ## The aggregate mutated by the bonus system and owned by `Game` -/

/-- The object `Game.input`; `mouseX` is `none` when the property is
`undefined`. -/
structure Input (α : Type) where
  left : Bool
  right : Bool
  mouseX : Option α
  mouseY : α
  mouseDown : Bool

/-- The simulation fields of a `Game` object (canvas and drawing context
left out), with the stream behind `Math.random()`. -/
structure Game (α : Type) where
  state : GameStatus
  score : Int
  level : Int
  ballsRemaining : Int
  aimAngle : α
  ball : Option (Ball α)
  blocks : List (Block α)
  paddle : Option (Paddle α)
  input : Input α
  rng : Rng α

/-! ## physics.js -/

/-- What one call of `handleBallBlockCollision` did: its return value, the
ball and block after the call, the random stream, and whether the block was
destroyed, which is when the `onBlockHit` callback runs (on `block`). -/
structure BlockHit (α : Type) where
  collided : Bool
  ball : Ball α
  block : Block α
  rng : Rng α
  destroyed : Bool

section Physics

variable {α : Type} [LinearOrderedField α] [FloorRing α]

/-- The function `handleBallRebound`: flip the velocity component of the
impact axis. -/
def handleBallRebound (ball : Ball α) (direction : Direction) : Ball α :=
  match direction with
  | .top | .bottom => { ball with velocityY := -ball.velocityY }
  | .left | .right => { ball with velocityX := -ball.velocityX }

/-- The function `handleBallBlockCollision`.  The callback is the last
action of the source that touches the state, so the caller runs its body
when `destroyed` is set. -/
def handleBallBlockCollision (ball : Ball α) (block : Block α) (g : Rng α) : BlockHit α :=
  if !block.isActive || !ball.isLaunched then
    { collided := false, ball := ball, block := block, rng := g, destroyed := false }
  else
    match checkCircleRectCollision ball.toCircle block.toRect with
    | some direction =>
      let ball1 := handleBallRebound ball direction
      let (destroyed, block1, g1) := block.hit g
      { collided := true, ball := ball1, block := block1, rng := g1, destroyed := destroyed }
    | none =>
      { collided := false, ball := ball, block := block, rng := g, destroyed := false }

/-- The overlap test of `handleBallPaddleCollision`: the ball's bounding
square against the paddle rectangle, borders included. -/
def ballPaddleOverlap (ball : Ball α) (paddle : Paddle α) : Bool :=
  decide (ball.y + ball.radius ≥ paddle.y) &&
  decide (ball.y - ball.radius ≤ paddle.y + paddle.height) &&
  decide (ball.x + ball.radius ≥ paddle.x) &&
  decide (ball.x - ball.radius ≤ paddle.x + paddle.width)

/-- The value `hitPosition` of `handleBallPaddleCollision`. -/
def hitPosition (ball : Ball α) (paddle : Paddle α) : α :=
  (ball.x - (paddle.x + paddle.width / 2)) / (paddle.width / 2)

/-- The value `angle` of `handleBallPaddleCollision`. -/
def reboundAngle (m : JSMath α) (ball : Ball α) (paddle : Paddle α) : α :=
  hitPosition ball paddle * m.PI / 3

/-- The function `handleBallPaddleCollision`: the returned flag and the ball
after the call. -/
def handleBallPaddleCollision (m : JSMath α) (ball : Ball α) (paddle : Paddle α) :
    Bool × Ball α :=
  if !ball.isLaunched then (false, ball)
  else if ballPaddleOverlap ball paddle then
    let angle := reboundAngle m ball paddle
    let b1 := { ball with velocityX := m.sin angle * ball.speed }
    let b2 := { b1 with velocityY := -|m.cos angle * b1.speed| }
    let b3 := { b2 with y := paddle.y - b2.radius }
    (true, b3)
  else (false, ball)

/-- The function `applyBonus`; `none` when the paddle or ball it needs is
`null`. -/
def applyBonus (m : JSMath α) (bonusType : BonusType) (gameState : Game α) :
    Option (Game α) :=
  match bonusType with
  | .extraBall =>
    if gameState.ballsRemaining < MAX_BALLS then
      some { gameState with ballsRemaining := gameState.ballsRemaining + 1 }
    else some gameState
  | .enlargePaddle =>
    gameState.paddle.map fun p => { gameState with paddle := some (p.resize 1.5) }
  | .shrinkPaddle =>
    gameState.paddle.map fun p => { gameState with paddle := some (p.resize 0.75) }
  | .speedUp =>
    gameState.ball.map fun b =>
      { gameState with ball := some (Ball.normalizeVelocity m { b with speed := b.speed * 1.2 }) }
  | .speedDown =>
    gameState.ball.map fun b =>
      { gameState with ball := some (Ball.normalizeVelocity m { b with speed := b.speed * 0.8 }) }

/-- The function `handlePaddleControl`. -/
def handlePaddleControl (paddle : Paddle α) (input : Input α) : Paddle α :=
  let p1 := if input.left then paddle.move (-1) else paddle
  let p2 := if input.right then p1.move 1 else p1
  match input.mouseX with
  | some mouseX => p2.setTargetX mouseX
  | none => p2

end Physics

/-! ## levelGenerator.js -/

section LevelGenerator

variable {α : Type} [LinearOrderedField α] [FloorRing α]

/-- The body of the inner loop of `generateLevel` for the cell `(row, col)`:
position, the two type rolls, and the block constructor. -/
def generateCell (level : Int) (row col : Nat) (g : Rng α) : Block α × Rng α :=
  let hardBlockProbability : α := 0.1 + (level : α) * 0.05
  let bonusBlockProbability : α := 0.1
  let cols : α := (COLS : α)
  let blockWidth := BLOCK_WIDTH α
  let blockHeight := BLOCK_HEIGHT α
  let startY : α := 50
  let totalBlockWidth := cols * blockWidth
  let horizontalSpacing := (CANVAS_WIDTH α - totalBlockWidth) / (cols + 1)
  let verticalSpacing : α := 10
  let x := horizontalSpacing + (col : α) * (blockWidth + horizontalSpacing / cols)
  let y := startY + (row : α) * (blockHeight + verticalSpacing)
  let (r1, g1) := g.random
  if r1 < bonusBlockProbability then
    Block.new g1 x y blockWidth blockHeight BlockType.bonus 1
  else
    let (r2, g2) := g1.random
    if r2 < hardBlockProbability then
      Block.new g2 x y blockWidth blockHeight BlockType.hard (min 3 (1 + ⌊(level : α) / 3⌋))
    else
      Block.new g2 x y blockWidth blockHeight BlockType.normal 1

/-- The two nested loops of `generateLevel`, rows outermost, pushing one
block per cell. -/
def generateBlocks (level : Int) (g : Rng α) : List (Block α) × Rng α :=
  (List.range ROWS).foldl
    (fun (acc : List (Block α) × Rng α) row =>
      (List.range COLS).foldl
        (fun (acc : List (Block α) × Rng α) col =>
          let (b, g1) := generateCell level row col acc.2
          (acc.1 ++ [b], g1))
        acc)
    ([], g)

/-- The function `generateLevel`: the blocks, the paddle, and the random
stream after the draws. -/
def generateLevel (level : Int) (g : Rng α) : List (Block α) × Paddle α × Rng α :=
  let (blocks, g1) := generateBlocks level g
  let paddle := Paddle.new ((CANVAS_WIDTH α - PADDLE_WIDTH α) / 2) (CANVAS_HEIGHT α - 50)
    (PADDLE_WIDTH α) (PADDLE_HEIGHT α)
  (blocks, paddle, g1)

/-- The function `isLevelComplete`. -/
def isLevelComplete (blocks : List (Block α)) : Bool :=
  !blocks.any fun block =>
    (decide (block.type = BlockType.normal) || decide (block.type = BlockType.bonus)) &&
      block.isActive

/-- The function `createBall`. -/
def createBall (paddle : Paddle α) : Ball α :=
  Ball.new (paddle.x + paddle.width / 2) (paddle.y - BALL_RADIUS α) (BALL_RADIUS α)

end LevelGenerator

/-! ## game.js -/

section GameOps

variable {α : Type} [LinearOrderedField α] [FloorRing α]

/-- The simulation part of the constructor `new Game(canvas)`. -/
def Game.new (m : JSMath α) (g : Rng α) : Game α :=
  { state := GameStatus.menu, score := 0, level := 1, ballsRemaining := INITIAL_BALLS,
    aimAngle := m.PI / 2, ball := none, blocks := [], paddle := none,
    input := { left := false, right := false, mouseX := some 0, mouseY := 0,
               mouseDown := false },
    rng := g }

/-- The method `Game.updateAimAngle`; an `undefined` pointer x is read as is,
which the engine never produces, so it is taken as `0` here. -/
def Game.updateAimAngle (m : JSMath α) (gm : Game α) : Game α :=
  match gm.ball with
  | none => gm
  | some ball =>
    let dx := gm.input.mouseX.getD 0 - ball.x
    let dy := ball.y - gm.input.mouseY
    let g1 := { gm with aimAngle := m.atan2 dy dx }
    { g1 with aimAngle := max 0 (min m.PI g1.aimAngle) }

/-- The method `Game.launchBall`. -/
def Game.launchBall (m : JSMath α) (gm : Game α) : Game α :=
  match gm.ball with
  | none => gm
  | some ball =>
    if gm.state ≠ GameStatus.ready then gm
    else { gm with ball := some (ball.launch m gm.aimAngle), state := GameStatus.playing }

/-- The method `Game.loadLevel(level)`. -/
def Game.loadLevel (gm : Game α) (level : Int) : Game α :=
  let (blocks, paddle, g1) := generateLevel level gm.rng
  { gm with blocks := blocks, paddle := some paddle, ball := some (createBall paddle),
            rng := g1 }

/-- The method `Game.startGame`. -/
def Game.startGame (gm : Game α) : Game α :=
  let g1 := { gm with state := GameStatus.ready }
  g1.loadLevel g1.level

/-- The method `Game.startNextLevel`. -/
def Game.startNextLevel (gm : Game α) : Game α :=
  let g1 := { gm with level := gm.level + 1 }
  let g2 := { g1 with score := g1.score + 50 }
  let g3 := { g2 with state := GameStatus.ready }
  g3.loadLevel g3.level

/-- The method `Game.resetGame` (its call of `init` only draws and schedules
a frame). -/
def Game.resetGame (gm : Game α) : Game α :=
  { gm with score := 0, level := 1, ballsRemaining := INITIAL_BALLS,
            state := GameStatus.menu, blocks := [], ball := none, paddle := none }

/-- The method `Game.handleMouseDown`. -/
def Game.handleMouseDown (m : JSMath α) (gm : Game α) : Game α :=
  match gm.state with
  | .menu => gm.startGame
  | .levelComplete => gm.startNextLevel
  | .gameOver => gm.resetGame.startGame
  | .ready => gm.launchBall m
  | .playing => gm

/-- The method `Game.gameOver`. -/
def Game.gameOver (gm : Game α) : Game α :=
  { gm with state := GameStatus.gameOver }

/-- The method `Game.ballLost`; `none` when there is no paddle to put the
fresh ball on. -/
def Game.ballLost (gm : Game α) : Option (Game α) :=
  let g1 := { gm with ballsRemaining := gm.ballsRemaining - 1 }
  if g1.ballsRemaining ≤ 0 then some g1.gameOver
  else
    g1.paddle.map fun p => { g1 with state := GameStatus.ready, ball := some (createBall p) }

/-- The method `Game.completeLevel`. -/
def Game.completeLevel (gm : Game α) : Game α :=
  if gm.level ≥ MAX_LEVELS then gm.gameOver
  else { gm with state := GameStatus.levelComplete }

/-- The callback that `Game.checkBlockCollisions` passes as `onBlockHit`:
add the block's score, then apply the power-up of a bonus block. -/
def Game.onBlockHit (m : JSMath α) (gm : Game α) (block : Block α) : Option (Game α) :=
  let g1 := { gm with score := gm.score + block.scoreValue }
  match block.bonusType with
  | some bonusType =>
    if block.type = BlockType.bonus then applyBonus m bonusType g1 else some g1
  | none => some g1

/-- One iteration of the loop of `Game.checkBlockCollisions`: the call of
`handleBallBlockCollision(this.ball, block, callback)`.  The result is the
game (whose `blocks` field the iteration does not read) and the block after
the call. -/
def Game.collideBlock (m : JSMath α) (gm : Game α) (block : Block α) :
    Option (Game α × Block α) :=
  match gm.ball with
  | none => if !block.isActive then some (gm, block) else none
  | some ball =>
    let r := handleBallBlockCollision ball block gm.rng
    let g1 := { gm with ball := some r.ball, rng := r.rng }
    if r.destroyed then (Game.onBlockHit m g1 r.block).map fun g2 => (g2, r.block)
    else some (g1, r.block)

/-- The loop of `Game.checkBlockCollisions` over the blocks still to visit. -/
def Game.sweepBlocks (m : JSMath α) : Game α → List (Block α) → Option (Game α × List (Block α))
  | gm, [] => some (gm, [])
  | gm, block :: rest =>
    match Game.collideBlock m gm block with
    | none => none
    | some (g1, block1) =>
      match Game.sweepBlocks m g1 rest with
      | none => none
      | some (g2, rest1) => some (g2, block1 :: rest1)

/-- The method `Game.checkBlockCollisions`. -/
def Game.checkBlockCollisions (m : JSMath α) (gm : Game α) : Option (Game α) :=
  (Game.sweepBlocks m gm gm.blocks).map fun r => { r.1 with blocks := r.2 }

/-- The `PLAYING` branch of `Game.update`. -/
def Game.updatePlaying (m : JSMath α) (gm : Game α) : Option (Game α) :=
  match gm.ball, gm.paddle with
  | some ball, some paddle =>
    let ball1 := ball.update m
    let ball2 := (handleBallPaddleCollision m ball1 paddle).2
    match Game.checkBlockCollisions m { gm with ball := some ball2 } with
    | none => none
    | some g1 =>
      match g1.ball with
      | none => none
      | some ball3 =>
        let g2 : Option (Game α) :=
          if ball3.y - ball3.radius > CANVAS_HEIGHT α then g1.ballLost else some g1
        g2.map fun g3 => if isLevelComplete g3.blocks then g3.completeLevel else g3
  | _, _ => none

/-- The `READY` branch of `Game.update`: pin the ball to the paddle. -/
def Game.updateReady (gm : Game α) : Option (Game α) :=
  match gm.ball, gm.paddle with
  | some ball, some paddle =>
    let b1 := { ball with x := paddle.x + paddle.width / 2 }
    let b2 := { b1 with y := paddle.y - b1.radius }
    some { gm with ball := some b2 }
  | _, _ => none

/-- The method `Game.update`: one tick; `none` when it dereferences a missing
paddle or ball. -/
def Game.update (m : JSMath α) (gm : Game α) : Option (Game α) :=
  match gm.paddle with
  | none => none
  | some paddle =>
    let g1 := { gm with paddle := some (handlePaddleControl paddle.update gm.input) }
    let g2 : Option (Game α) :=
      if g1.state = GameStatus.playing then g1.updatePlaying m
      else if g1.state = GameStatus.ready then g1.updateReady
      else some g1
    g2.map fun g3 => { g3 with blocks := g3.blocks.map Block.update }

/-- The state part of one frame of `Game.gameLoop`: `update` runs in the
`PLAYING` and `READY` states only. -/
def Game.gameLoop (m : JSMath α) (gm : Game α) : Option (Game α) :=
  if gm.state = GameStatus.playing ∨ gm.state = GameStatus.ready then gm.update m
  else some gm

end GameOps

/-! ## game.js: the handlers bound by `Game.bindEvents` -/

/-- The keys that the `keydown` and `keyup` handlers tell apart. -/
inductive Key where
  | arrowLeft
  | arrowRight
  | space
  | other
  deriving DecidableEq, Repr

/-- The events the game reacts to: the listeners registered by
`Game.bindEvents` (pointer coordinates already relative to the canvas; the
`mousedown` handler does not use its coordinates) and the animation frame
that runs `Game.gameLoop`. -/
inductive Event (α : Type) where
  | keyDown (key : Key)
  | keyUp (key : Key)
  | mouseMove (x y : α)
  | mouseDown
  | mouseUp
  | touchStart (x y : α)
  | touchMove (x y : α)
  | touchEnd
  | restartClick
  | frame

section Handlers

variable {α : Type} [LinearOrderedField α] [FloorRing α]

/-- The `keydown` listener. -/
def Game.onKeyDown (m : JSMath α) (gm : Game α) (key : Key) : Game α :=
  let g1 := if key = Key.arrowLeft then { gm with input := { gm.input with left := true } } else gm
  let g2 :=
    if key = Key.arrowRight then { g1 with input := { g1.input with right := true } } else g1
  if key = Key.space ∧ g2.state = GameStatus.ready then g2.launchBall m else g2

/-- The `keyup` listener. -/
def Game.onKeyUp (gm : Game α) (key : Key) : Game α :=
  let g1 := if key = Key.arrowLeft then { gm with input := { gm.input with left := false } } else gm
  if key = Key.arrowRight then { g1 with input := { g1.input with right := false } } else g1

/-- The `mousemove` listener, and the `touchmove` listener, which has the
same body. -/
def Game.onPointerMove (m : JSMath α) (gm : Game α) (x y : α) : Game α :=
  let g1 := { gm with input := { gm.input with mouseX := some x } }
  let g2 := { g1 with input := { g1.input with mouseY := y } }
  if g2.state = GameStatus.ready then g2.updateAimAngle m else g2

/-- The `mousedown` listener. -/
def Game.onMouseDown (m : JSMath α) (gm : Game α) : Game α :=
  let g1 := { gm with input := { gm.input with mouseDown := true } }
  g1.handleMouseDown m

/-- The `mouseup` listener, and the `touchend` listener, which has the same
body. -/
def Game.onPointerUp (gm : Game α) : Game α :=
  { gm with input := { gm.input with mouseDown := false } }

/-- The `touchstart` listener. -/
def Game.onTouchStart (m : JSMath α) (gm : Game α) (x y : α) : Game α :=
  let g1 := { gm with input := { gm.input with mouseX := some x } }
  let g2 := { g1 with input := { g1.input with mouseY := y } }
  let g3 := { g2 with input := { g2.input with mouseDown := true } }
  g3.handleMouseDown m

/-- The game after one event; `none` when the handler raises a `TypeError`. -/
def Game.handle (m : JSMath α) (gm : Game α) : Event α → Option (Game α)
  | .keyDown key => some (gm.onKeyDown m key)
  | .keyUp key => some (gm.onKeyUp key)
  | .mouseMove x y => some (gm.onPointerMove m x y)
  | .mouseDown => some (gm.onMouseDown m)
  | .mouseUp => some gm.onPointerUp
  | .touchStart x y => some (gm.onTouchStart m x y)
  | .touchMove x y => some (gm.onPointerMove m x y)
  | .touchEnd => some gm.onPointerUp
  | .restartClick => some gm.resetGame
  | .frame => gm.gameLoop m

end Handlers

/-! ## Derived notions used to state the properties -/

/-- The host `Math` over the real numbers: the real square root, sine and
cosine, `atan2 y x` as the argument of `x + y i`, and `π`. -/
noncomputable def realMath : JSMath ℝ :=
  { sqrt := Real.sqrt, sin := Real.sin, cos := Real.cos,
    atan2 := fun y x => Complex.arg ⟨x, y⟩, PI := Real.pi }

/-- The block and the random stream after `k` consecutive calls of
`Block.hit`. -/
def Block.hitTimes {α : Type} [LinearOrderedField α] [FloorRing α] :
    Nat → Block α → Rng α → Block α × Rng α
  | 0, b, g => (b, g)
  | k + 1, b, g => ((Block.hitTimes k b g).1.hit (Block.hitTimes k b g).2).2

/-- The circle moved by the vector `(tx, ty)`. -/
def Circle.shift {α : Type} [LinearOrderedField α] (c : Circle α) (tx ty : α) : Circle α :=
  { c with x := c.x + tx, y := c.y + ty }

/-- The rectangle moved by the vector `(tx, ty)`. -/
def Rect.shift {α : Type} [LinearOrderedField α] (r : Rect α) (tx ty : α) : Rect α :=
  { r with x := r.x + tx, y := r.y + ty }

/-- A random stream for the examples: every draw is `0`. -/
def sampleRng : Rng ℚ := { draws := fun _ => 0, pos := 0 }

/-- The paddle of a fresh level: `x = 190`, `y = 590`, 100 wide, 15 high. -/
def levelPaddle (α : Type) [LinearOrderedField α] : Paddle α :=
  Paddle.new 190 590 100 15

/-- A launched ball of the game's radius 10 falling straight down with its
centre 5 to the left of the left edge of `levelPaddle` and overlapping it. -/
def edgeBall (α : Type) [LinearOrderedField α] : Ball α :=
  { Ball.new 185 585 10 with velocityY := 6, isLaunched := true }

/-- A launched ball of radius 25 falling straight down with its centre 25 to
the left of the left edge of `levelPaddle`, touching it. -/
def wideBall (α : Type) [LinearOrderedField α] : Ball α :=
  { Ball.new 165 585 25 with velocityY := 6, isLaunched := true }

/-- A launched ball of radius 10 falling straight down onto the centre of
`levelPaddle`. -/
def centreBall (α : Type) [LinearOrderedField α] : Ball α :=
  { Ball.new 240 585 10 with velocityY := 6, isLaunched := true }

/-- The velocity of the ball has the length `speed`, squared. -/
def Ball.atSpeed {α : Type} [LinearOrderedField α] (b : Ball α) : Prop :=
  b.velocityX ^ 2 + b.velocityY ^ 2 = b.speed ^ 2

/-- The condition that the collision sweep of a `PLAYING` tick maintains:
there is a paddle, and the ball is launched and moves at its target speed. -/
def Game.ballAtSpeed (gm : Game ℝ) : Prop :=
  gm.paddle.isSome = true ∧ ∃ b, gm.ball = some b ∧ b.isLaunched = true ∧ b.atSpeed

/-- A game in play on an empty board: the paddle of a fresh level and the
launched ball `centreBall` above it. -/
noncomputable def sampleGame : Game ℝ :=
  { Game.new realMath { draws := fun _ => 0, pos := 0 } with
    state := GameStatus.playing
    paddle := some (levelPaddle ℝ)
    ball := some (centreBall ℝ) }

/-- The width of the game's paddle, when there is one. -/
def Game.paddleWidth {α : Type} (gm : Game α) : Option α :=
  gm.paddle.map fun p => p.width

/-- The target speed of the game's ball, when there is one. -/
def Game.ballSpeed {α : Type} (gm : Game α) : Option α :=
  gm.ball.map fun b => b.speed

/-- The block that `generateLevel(level)` makes for the grid cell
`(row, col)`: the body of the inner loop run on the random stream advanced
by the three draws of each earlier cell, rows outermost. -/
def cellAt {α : Type} [LinearOrderedField α] [FloorRing α] (level : Int) (g : Rng α)
    (row col : Nat) : Block α :=
  (generateCell level row col { g with pos := g.pos + 3 * (row * COLS + col) }).1

/-- The game states that can be reached: the state built by the constructor
(on any random stream), and every state that an event produces from a
reachable one. -/
inductive Game.Reachable {α : Type} [LinearOrderedField α] [FloorRing α] (m : JSMath α) :
    Game α → Prop where
  | init (g : Rng α) : Game.Reachable m (Game.new m g)
  | step (gm g1 : Game α) (e : Event α) :
      Game.Reachable m gm → Game.handle m gm e = some g1 → Game.Reachable m g1

/-- The block `blk1` is the block `blk` after collision handling: same
place, size, type and score value, and active only if `blk` was. -/
def Block.sameShape {α : Type} (blk blk1 : Block α) : Prop :=
  blk1.x = blk.x ∧ blk1.y = blk.y ∧ blk1.width = blk.width ∧ blk1.height = blk.height ∧
    blk1.type = blk.type ∧ blk1.scoreValue = blk.scoreValue ∧
    (blk1.isActive = true → blk.isActive = true)

/-- The sum of `scoreValue` over the blocks destroyed between two snapshots
of the same block list: those active in `before` and inactive at the same
position of `after`. -/
def destroyedScore {α : Type} (before after : List (Block α)) : Int :=
  (((before.zip after).filter fun q => q.1.isActive && !q.2.isActive).map
    fun q => q.1.scoreValue).sum

/-- What collision handling may change between the game `gm` and the game
`g1`: state, level, aim angle, input and block list are the same, the number
of balls has not gone down and is at most `MAX_BALLS` if it was, the ball is
where it was with the same radius and launched flag and a positive speed if
it had one, and the paddle is at the same height. -/
def Game.sweptFrom {α : Type} [LinearOrderedField α] (gm g1 : Game α) : Prop :=
  g1.state = gm.state ∧ g1.level = gm.level ∧ g1.aimAngle = gm.aimAngle ∧
    g1.input = gm.input ∧ g1.blocks = gm.blocks ∧
    gm.ballsRemaining ≤ g1.ballsRemaining ∧
    g1.ballsRemaining ≤ max gm.ballsRemaining MAX_BALLS ∧
    (∀ b, gm.ball = some b → ∃ b1, g1.ball = some b1 ∧ b1.x = b.x ∧ b1.y = b.y ∧
      b1.radius = b.radius ∧ b1.isLaunched = b.isLaunched ∧ (0 < b.speed → 0 < b1.speed)) ∧
    (∀ p, gm.paddle = some p → ∃ p1, g1.paddle = some p1 ∧ p1.y = p.y ∧ p1.height = p.height)

/-- The game in the middle of a `PLAYING` tick of `Game.update`, right after
the call of `checkBlockCollisions`: the paddle has moved, the ball has moved
and met the paddle, and the blocks have been swept. -/
def Game.afterSweep {α : Type} [LinearOrderedField α] [FloorRing α] (m : JSMath α)
    (gm : Game α) : Option (Game α) :=
  match gm.ball, gm.paddle with
  | some ball, some paddle =>
    Game.checkBlockCollisions m
      { gm with
        paddle := some (handlePaddleControl paddle.update gm.input)
        ball := some (handleBallPaddleCollision m (ball.update m)
          (handlePaddleControl paddle.update gm.input)).2 }
  | _, _ => none

/-- A launched ball of radius 10 falling straight down below the bottom edge
of the playfield. -/
def lostBall (α : Type) [LinearOrderedField α] : Ball α :=
  { Ball.new 240 700 10 with velocityY := 6, isLaunched := true }

/-- A game in play on an empty board with one ball left, the ball `lostBall`
below the bottom edge. -/
noncomputable def lostBallGame : Game ℝ :=
  { Game.new realMath { draws := fun _ => 0, pos := 0 } with
    state := GameStatus.playing
    paddle := some (levelPaddle ℝ)
    ball := some (lostBall ℝ) }

/-- The game `lostBallGame` in the middle of its next tick, after the
collision sweep. -/
noncomputable def lostBallSwept : Game ℝ :=
  { lostBallGame with
    paddle := some (handlePaddleControl (levelPaddle ℝ).update lostBallGame.input)
    ball := some (handleBallPaddleCollision realMath ((lostBall ℝ).update realMath)
      (handlePaddleControl (levelPaddle ℝ).update lostBallGame.input)).2 }

/-- The condition that every reachable game satisfies.  The aim angle is in
`[0, π]` and the ball count in `[0, MAX_BALLS]`; the paddle is at `y = 590`,
the ball has radius 10 and a positive speed, every block is 20 high with its
top at `y ≤ 200`; in `MENU` the counters have their initial values; in
`READY` and `PLAYING` there are a paddle and a ball and at least one ball
remains; in `READY` the ball sits at `y = 580`; in `PLAYING` either the level
is not complete or the ball is at `y ≤ 580` and not moving down (it has just
been launched); in `LEVEL_COMPLETE` at least one ball remains. -/
structure Game.Inv (gm : Game ℝ) : Prop where
  aim_lo : 0 ≤ gm.aimAngle
  aim_hi : gm.aimAngle ≤ realMath.PI
  balls_lo : 0 ≤ gm.ballsRemaining
  balls_hi : gm.ballsRemaining ≤ MAX_BALLS
  paddle_y : ∀ p, gm.paddle = some p → p.y = 590
  ball_ok : ∀ b, gm.ball = some b → b.radius = 10 ∧ 0 < b.speed
  blocks_ok : ∀ blk ∈ gm.blocks, blk.y ≤ 200 ∧ blk.height = 20
  menu : gm.state = GameStatus.menu →
    gm.level = 1 ∧ gm.score = 0 ∧ gm.ballsRemaining = INITIAL_BALLS
  live : gm.state = GameStatus.ready ∨ gm.state = GameStatus.playing →
    (∃ p, gm.paddle = some p) ∧ ∃ b, gm.ball = some b
  ready : gm.state = GameStatus.ready →
    1 ≤ gm.ballsRemaining ∧ ∀ b, gm.ball = some b → b.y = 580
  playing : gm.state = GameStatus.playing →
    1 ≤ gm.ballsRemaining ∧
      (isLevelComplete gm.blocks = false ∨
        ∀ b, gm.ball = some b → b.y ≤ 580 ∧ b.velocityY ≤ 0)
  levelComplete : gm.state = GameStatus.levelComplete → 1 ≤ gm.ballsRemaining

/-- The game that the constructor builds on the random stream whose draws
are all `0`. -/
noncomputable def freshGame : Game ℝ :=
  Game.new realMath { draws := fun _ => 0, pos := 0 }

/-- The game `freshGame` after a press of the mouse button: level 1 is
loaded and the ball waits on the paddle. -/
noncomputable def readyGame : Game ℝ :=
  freshGame.onMouseDown realMath

/-- The axis of a reported direction: `top` and `bottom` are on the vertical
axis, `left` and `right` on the horizontal one. -/
def Direction.isVertical : Direction → Bool
  | .top | .bottom => true
  | .left | .right => false

/-- The test that makes `handleBallBlockCollision` hit the block, for a
launched ball: the block is active and overlaps the ball. -/
def hitsBlock {α : Type} [LinearOrderedField α] (b : Ball α) (blk : Block α) : Bool :=
  blk.isActive && (checkCircleRectCollision b.toCircle blk.toRect).isSome

/-- An active normal block with one hit point, 50 wide and 20 high, with its
top left corner at `(x, 50)`. -/
def twinBlock (α : Type) [LinearOrderedField α] (x : α) : Block α :=
  { x := x, y := 50, width := 50, height := 20, type := BlockType.normal, hitPoints := 1,
    isActive := true, hitAnimation := 0, particles := [], scoreValue := 10,
    bonusType := none, color := none }

/-- A launched ball of radius 10 moving straight up, centred 5 below the
common corner `(100, 70)` of `twinBlock 50` and `twinBlock 100`. -/
def twinBall (α : Type) [LinearOrderedField α] : Ball α :=
  { Ball.new 100 75 10 with velocityY := -6, isLaunched := true }

/-- A game in play whose ball `twinBall` overlaps the bottom edges of its two
blocks. -/
noncomputable def twinGame : Game ℝ :=
  { Game.new realMath { draws := fun _ => 0, pos := 0 } with
    state := GameStatus.playing
    paddle := some (levelPaddle ℝ)
    ball := some (twinBall ℝ)
    blocks := [twinBlock ℝ 50, twinBlock ℝ 100] }

/-- The host `Math` with the real sine, cosine and square root and with the
double `Math.PI = 3.141592653589793`, which is the rational number
`884279719003555 / 281474976710656`. -/
noncomputable def doubleMath : JSMath ℝ :=
  { realMath with PI := 884279719003555 / 281474976710656 }

/-! ### utils.js on doubles

The same function with every arithmetic result rounded, for the property
that depends on rounding. -/

/-- The integer nearest to `x`, a tie going to the even neighbour. -/
def roundHalfEven (x : ℚ) : ℤ :=
  if x - ⌊x⌋ < 1 / 2 then ⌊x⌋
  else if 1 / 2 < x - ⌊x⌋ then ⌊x⌋ + 1
  else if ⌊x⌋ % 2 = 0 then ⌊x⌋ else ⌊x⌋ + 1

/-- The double nearest to the rational `q`: IEEE 754 binary64 rounding to
nearest, ties to even, with 53 significant bits (the exponent range is not
bounded: no overflow, no subnormal numbers). -/
def roundDouble (q : ℚ) : ℚ :=
  if q = 0 then 0
  else (roundHalfEven (q / 2 ^ (Int.log 2 |q| - 52)) : ℚ) * 2 ^ (Int.log 2 |q| - 52)

section RoundedUtils

variable {α : Type} [LinearOrderedField α]

/-- The value `closestX` of `checkCircleRectCollision` when the result of
each arithmetic operation is rounded by `fl` (`Math.max` and `Math.min` are
exact). -/
def closestXFl (fl : α → α) (circle : Circle α) (rect : Rect α) : α :=
  max rect.x (min circle.x (fl (rect.x + rect.width)))

/-- The value `closestY`, rounded by `fl`. -/
def closestYFl (fl : α → α) (circle : Circle α) (rect : Rect α) : α :=
  max rect.y (min circle.y (fl (rect.y + rect.height)))

/-- The value `distanceX`, rounded by `fl`. -/
def distanceXFl (fl : α → α) (circle : Circle α) (rect : Rect α) : α :=
  fl (circle.x - closestXFl fl circle rect)

/-- The value `distanceY`, rounded by `fl`. -/
def distanceYFl (fl : α → α) (circle : Circle α) (rect : Rect α) : α :=
  fl (circle.y - closestYFl fl circle rect)

/-- The value `distanceSquared`: two rounded products and their rounded
sum. -/
def distanceSquaredFl (fl : α → α) (circle : Circle α) (rect : Rect α) : α :=
  fl (fl (distanceXFl fl circle rect * distanceXFl fl circle rect)
    + fl (distanceYFl fl circle rect * distanceYFl fl circle rect))

/-- The function `checkCircleRectCollision` when the result of each
arithmetic operation is rounded by `fl`; with `fl := id` it is the exact
`checkCircleRectCollision`, with `fl := roundDouble` it is the function on
doubles. -/
def checkCircleRectCollisionFl (fl : α → α) (circle : Circle α) (rect : Rect α) :
    Option Direction :=
  if distanceSquaredFl fl circle rect ≤ fl (circle.radius * circle.radius) then
    if |distanceYFl fl circle rect| > |distanceXFl fl circle rect| then
      some (if distanceYFl fl circle rect < 0 then Direction.top else Direction.bottom)
    else
      some (if distanceXFl fl circle rect < 0 then Direction.left else Direction.right)
  else
    none

/-- The circle moved by the vector `(tx, ty)`, the two sums rounded by
`fl`. -/
def Circle.shiftFl (fl : α → α) (c : Circle α) (tx ty : α) : Circle α :=
  { c with x := fl (c.x + tx), y := fl (c.y + ty) }

/-- The rectangle moved by the vector `(tx, ty)`, the two sums rounded by
`fl`. -/
def Rect.shiftFl (fl : α → α) (r : Rect α) (tx ty : α) : Rect α :=
  { r with x := fl (r.x + tx), y := fl (r.y + ty) }

end RoundedUtils

/-- The circle with centre `(0.5, 0)` and radius `0.39999999999999997`, the
double `7205759403792793 / 2^54`. -/
def nearCircle : Circle ℚ :=
  { x := 1 / 2, y := 0, radius := 7205759403792793 / 18014398509481984 }

/-- The rectangle with corner `(0, -1)`, height 2 and width `0.1`, the double
`3602879701896397 / 2^55`. -/
def thinRect : Rect ℚ :=
  { x := 0, y := -1, width := 3602879701896397 / 36028797018963968, height := 2 }

/-- The circle with centre `(5, 5)` and radius 1. -/
def unitCircle : Circle ℚ := { x := 5, y := 5, radius := 1 }

/-- The square with corner `(0, 0)` and side 10. -/
def tenSquare : Rect ℚ := { x := 0, y := 0, width := 10, height := 10 }

/-! ## Properties -/

section BlockProperties

variable {α : Type} [LinearOrderedField α] [FloorRing α]

theorem pushParticle_hitPoints (b : Block α) (g : Rng α) :
    (b.pushParticle g).1.hitPoints = b.hitPoints ∧
      (b.pushParticle g).1.isActive = b.isActive := by
  simp [Block.pushParticle, Rng.random]

theorem createBreakEffect_hitPoints (b : Block α) (g : Rng α) :
    (b.createBreakEffect g).1.hitPoints = b.hitPoints ∧
      (b.createBreakEffect g).1.isActive = b.isActive := by
  unfold Block.createBreakEffect
  generalize List.range 15 = l
  induction l using List.reverseRecOn with
  | nil => simp
  | append_singleton l a ih =>
    rw [List.foldl_append]
    simp only [List.foldl_cons, List.foldl_nil]
    obtain ⟨h1, h2⟩ := pushParticle_hitPoints
      (List.foldl (fun (s : Block α × Rng α) _ => s.1.pushParticle s.2) (b, g) l).1
      (List.foldl (fun (s : Block α × Rng α) _ => s.1.pushParticle s.2) (b, g) l).2
    exact ⟨h1.trans ih.1, h2.trans ih.2⟩

theorem hit_of_pos (b : Block α) (g : Rng α) (h : 1 < b.hitPoints) :
    (b.hit g).1 = false ∧ (b.hit g).2.1.isActive = b.isActive ∧
      (b.hit g).2.1.hitPoints = b.hitPoints - 1 := by
  have h1 : ¬ (b.hitPoints - 1 ≤ 0) := by omega
  simp [Block.hit, h1]

theorem hit_of_last (b : Block α) (g : Rng α) (h : b.hitPoints ≤ 1) :
    (b.hit g).1 = true ∧ (b.hit g).2.1.isActive = false ∧
      (b.hit g).2.1.hitPoints = b.hitPoints - 1 := by
  have h1 : b.hitPoints - 1 ≤ 0 := by omega
  simp only [Block.hit, h1, if_true]
  refine ⟨trivial, ?_, ?_⟩
  · exact (createBreakEffect_hitPoints _ g).2
  · exact (createBreakEffect_hitPoints _ g).1

theorem hitTimes_spec (b : Block α) (g : Rng α) (N : Int) (hp : b.hitPoints = N)
    (ha : b.isActive = true) (k : Nat) (hk : (k : Int) < N) :
    (Block.hitTimes k b g).1.hitPoints = N - k ∧ (Block.hitTimes k b g).1.isActive = true := by
  induction k with
  | zero => simp [Block.hitTimes, hp, ha]
  | succ k ih =>
    have hk1 : (k : Int) < N := by push_cast at hk; omega
    obtain ⟨ih1, ih2⟩ := ih hk1
    have hgt : 1 < (Block.hitTimes k b g).1.hitPoints := by rw [ih1]; push_cast at hk; omega
    obtain ⟨-, h2, h3⟩ := hit_of_pos (Block.hitTimes k b g).1 (Block.hitTimes k b g).2 hgt
    simp only [Block.hitTimes]
    refine ⟨?_, h2.trans ih2⟩
    rw [h3, ih1]; push_cast; ring

theorem new_hitPoints (g : Rng α) (x y w h : α) (type : BlockType) (N : Int) :
    (Block.new g x y w h type N).1.hitPoints = N ∧
      (Block.new g x y w h type N).1.isActive = true := by
  unfold Block.new
  simp only [Rng.random]
  split <;> simp

/-- C2: a block constructed with `N ≥ 1` hit points answers call number
`k + 1` of `hit()` (for `k < N`, after `k` earlier calls) with `true` exactly
when `k + 1 = N`, is still active exactly when `k + 1 < N`, and has lost
exactly one hit point in that call, leaving `N - (k + 1)`. -/
theorem block_hit_count (g0 g : Rng α) (x y w h : α) (type : BlockType) (N : Int)
    (hN : 1 ≤ N) (k : Nat) (hk : (k : Int) < N) :
    ((Block.hitTimes k (Block.new g0 x y w h type N).1 g).1.hit
        (Block.hitTimes k (Block.new g0 x y w h type N).1 g).2).1 = decide ((k : Int) + 1 = N) ∧
    ((Block.hitTimes k (Block.new g0 x y w h type N).1 g).1.hit
        (Block.hitTimes k (Block.new g0 x y w h type N).1 g).2).2.1.isActive
      = decide ((k : Int) + 1 < N) ∧
    ((Block.hitTimes k (Block.new g0 x y w h type N).1 g).1.hit
        (Block.hitTimes k (Block.new g0 x y w h type N).1 g).2).2.1.hitPoints
      = (Block.hitTimes k (Block.new g0 x y w h type N).1 g).1.hitPoints - 1 ∧
    ((Block.hitTimes k (Block.new g0 x y w h type N).1 g).1.hit
        (Block.hitTimes k (Block.new g0 x y w h type N).1 g).2).2.1.hitPoints
      = N - ((k : Int) + 1) := by
  obtain ⟨hp, ha⟩ := new_hitPoints g0 x y w h type N
  obtain ⟨h1, h2⟩ := hitTimes_spec (Block.new g0 x y w h type N).1 g N hp ha k hk
  by_cases hlast : (k : Int) + 1 = N
  · have hle : (Block.hitTimes k (Block.new g0 x y w h type N).1 g).1.hitPoints ≤ 1 := by
      rw [h1]; omega
    obtain ⟨r1, r2, r3⟩ := hit_of_last _ (Block.hitTimes k (Block.new g0 x y w h type N).1 g).2 hle
    have hnot : ¬ ((k : Int) + 1 < N) := by omega
    refine ⟨?_, ?_, r3, ?_⟩
    · rw [r1]; simp [hlast]
    · rw [r2]; simp [hnot]
    · rw [r3, h1]; ring
  · have hgt : 1 < (Block.hitTimes k (Block.new g0 x y w h type N).1 g).1.hitPoints := by
      rw [h1]; omega
    obtain ⟨r1, r2, r3⟩ := hit_of_pos _ (Block.hitTimes k (Block.new g0 x y w h type N).1 g).2 hgt
    have hlt : (k : Int) + 1 < N := by omega
    refine ⟨?_, ?_, r3, ?_⟩
    · rw [r1]; simp [hlast]
    · rw [r2, h2]; simp [hlt]
    · rw [r3, h1]; ring

/-- Witness of C2: the second `hit()` on a block built with 2 hit points. -/
theorem block_hit_count_witness :
    ((Block.hitTimes 1 (Block.new sampleRng 0 0 50 20 BlockType.hard 2).1 sampleRng).1.hit
        (Block.hitTimes 1 (Block.new sampleRng 0 0 50 20 BlockType.hard 2).1 sampleRng).2).1
      = decide (((1 : Nat) : Int) + 1 = 2) :=
  (block_hit_count sampleRng sampleRng 0 0 50 20 BlockType.hard 2 (by decide) 1 (by decide)).1

theorem isLevelComplete_eq_true (blocks : List (Block α)) :
    isLevelComplete blocks = true ↔
      ∀ b ∈ blocks, ¬ (b.isActive = true ∧ (b.type = BlockType.normal ∨ b.type = BlockType.bonus)) := by
  unfold isLevelComplete
  simp only [Bool.not_eq_true', List.any_eq_false, Bool.and_eq_true, Bool.or_eq_true,
    decide_eq_true_eq]
  constructor
  · intro h b hb hc
    exact h b hb ⟨hc.2, hc.1⟩
  · intro h b hb hc
    exact h b hb ⟨hc.2, hc.1⟩

/-- C3: `isLevelComplete` is true exactly when no block is both active and of
type normal or bonus; rewriting the active flag of the hard blocks in any way
does not change the answer; the empty list is complete; and so is a list
whose active blocks are all hard. -/
theorem isLevelComplete_iff (blocks : List (Block α)) :
    (isLevelComplete blocks = true ↔
      ∀ b ∈ blocks,
        ¬ (b.isActive = true ∧ (b.type = BlockType.normal ∨ b.type = BlockType.bonus))) ∧
    (∀ f : Block α → Bool,
      isLevelComplete
          (blocks.map fun b => if b.type = BlockType.hard then { b with isActive := f b } else b)
        = isLevelComplete blocks) ∧
    isLevelComplete ([] : List (Block α)) = true ∧
    ((∀ b ∈ blocks, b.isActive = true → b.type = BlockType.hard) →
      isLevelComplete blocks = true) := by
  refine ⟨isLevelComplete_eq_true blocks, ?_, by simp [isLevelComplete], ?_⟩
  · intro f
    unfold isLevelComplete
    congr 1
    induction blocks with
    | nil => rfl
    | cons b bs ih =>
      simp only [List.map_cons, List.any_cons, ih]
      congr 1
      by_cases hb : b.type = BlockType.hard
      · simp [hb]
      · simp [hb]
  · intro h
    rw [isLevelComplete_eq_true]
    rintro b hb ⟨ha, hn | hn⟩
    · have := h b hb ha
      rw [this] at hn
      exact absurd hn (by decide)
    · have := h b hb ha
      rw [this] at hn
      exact absurd hn (by decide)

end BlockProperties

section CollisionProperties

variable {α : Type} [LinearOrderedField α]

theorem closestX_shift (c : Circle α) (r : Rect α) (tx ty : α) :
    closestX (c.shift tx ty) (r.shift tx ty) = closestX c r + tx := by
  simp only [closestX, Circle.shift, Rect.shift]
  rw [show r.x + tx + r.width = r.x + r.width + tx by ring, min_add_add_right,
    max_add_add_right]

theorem closestY_shift (c : Circle α) (r : Rect α) (tx ty : α) :
    closestY (c.shift tx ty) (r.shift tx ty) = closestY c r + ty := by
  simp only [closestY, Circle.shift, Rect.shift]
  rw [show r.y + ty + r.height = r.y + r.height + ty by ring, min_add_add_right,
    max_add_add_right]

/-- In exact arithmetic, moving the circle and the rectangle by the same
vector `(tx, ty)` does not change the result of `checkCircleRectCollision`,
neither whether a collision is reported nor its direction. -/
theorem checkCircleRectCollision_shift (c : Circle α) (r : Rect α) (tx ty : α) :
    checkCircleRectCollision (c.shift tx ty) (r.shift tx ty) = checkCircleRectCollision c r := by
  have hx : distanceX (c.shift tx ty) (r.shift tx ty) = distanceX c r := by
    simp only [distanceX, closestX_shift]
    simp [Circle.shift]
  have hy : distanceY (c.shift tx ty) (r.shift tx ty) = distanceY c r := by
    simp only [distanceY, closestY_shift]
    simp [Circle.shift]
  have hr : (c.shift tx ty).radius = c.radius := rfl
  simp only [checkCircleRectCollision, distanceSquared, hx, hy, hr]

theorem checkCircleRectCollision_isSome (c : Circle α) (r : Rect α) :
    (checkCircleRectCollision c r).isSome = true ↔
      distanceSquared c r ≤ c.radius * c.radius := by
  unfold checkCircleRectCollision
  split
  · split <;> simp [*]
  · simp [*]

theorem sq_clamp_le (a w c p : α) (h1 : a ≤ p) (h2 : p ≤ a + w) :
    (c - max a (min c (a + w))) * (c - max a (min c (a + w))) ≤ (c - p) * (c - p) := by
  have hw : a ≤ a + w := le_trans h1 h2
  rcases le_total c a with hca | hca
  · have : max a (min c (a + w)) = a := by
      rw [min_eq_left (le_trans hca hw), max_eq_left hca]
    rw [this]
    nlinarith
  · rcases le_total c (a + w) with hcw | hcw
    · have : max a (min c (a + w)) = c := by
        rw [min_eq_left hcw, max_eq_right hca]
      rw [this]
      nlinarith [mul_self_nonneg (c - p)]
    · have : max a (min c (a + w)) = a + w := by
        rw [min_eq_right hcw, max_eq_right hw]
      rw [this]
      nlinarith

/-- C6 as amended: when `checkCircleRectCollision` reports a collision, the
direction is vertical (top or bottom) exactly when the vertical offset is
strictly larger in magnitude than the horizontal one, and horizontal (left or
right) otherwise; on a tie, the centre inside the rectangle included, it is
horizontal, left for a negative horizontal offset and right otherwise. -/
theorem direction_of_collision (c : Circle α) (r : Rect α) (d : Direction)
    (h : checkCircleRectCollision c r = some d) :
    ((d = Direction.top ∨ d = Direction.bottom) ↔ |distanceX c r| < |distanceY c r|) ∧
    ((d = Direction.left ∨ d = Direction.right) ↔ |distanceY c r| ≤ |distanceX c r|) ∧
    (|distanceY c r| = |distanceX c r| →
      d = if distanceX c r < 0 then Direction.left else Direction.right) ∧
    (|distanceX c r| < |distanceY c r| →
      d = if distanceY c r < 0 then Direction.top else Direction.bottom) := by
  unfold checkCircleRectCollision at h
  split at h
  · split at h
    · rename_i hgt
      have hgt2 : |distanceX c r| < |distanceY c r| := hgt
      have hd : d = if distanceY c r < 0 then Direction.top else Direction.bottom :=
        (Option.some.inj h).symm
      refine ⟨?_, ?_, ?_, fun _ => hd⟩
      · constructor
        · intro _; exact hgt2
        · intro _; rw [hd]; split <;> simp
      · constructor
        · intro hlr; rw [hd] at hlr; split at hlr <;> simp at hlr
        · intro hle; exact absurd hgt2 (not_lt.mpr hle)
      · intro he; rw [he] at hgt2; exact absurd hgt2 (lt_irrefl _)
    · rename_i hng
      have hle : |distanceY c r| ≤ |distanceX c r| := not_lt.mp hng
      have hd : d = if distanceX c r < 0 then Direction.left else Direction.right :=
        (Option.some.inj h).symm
      refine ⟨?_, ?_, fun _ => hd, ?_⟩
      · constructor
        · intro htb; rw [hd] at htb; split at htb <;> simp at htb
        · intro hlt; exact absurd hlt (not_lt.mpr hle)
      · constructor
        · intro _; exact hle
        · intro _; rw [hd]; split <;> simp
      · intro hlt; exact absurd hlt (not_lt.mpr hle)
  · exact absurd h (by simp)

/-- Witness of C6 as amended: a circle overlapping the top edge of a
rectangle from above is reported as `top`. -/
theorem direction_of_collision_witness :
    (Direction.top = Direction.top ∨ Direction.top = Direction.bottom) ↔
      |distanceX (⟨5, -1, 2⟩ : Circle ℚ) ⟨0, 0, 10, 10⟩|
        < |distanceY (⟨5, -1, 2⟩ : Circle ℚ) ⟨0, 0, 10, 10⟩| :=
  (direction_of_collision (⟨5, -1, 2⟩ : Circle ℚ) ⟨0, 0, 10, 10⟩ Direction.top
    (by norm_num [checkCircleRectCollision, distanceSquared, distanceX, distanceY,
      closestX, closestY])).1

/-- Counterexample to C6 as stated: with the centre inside the rectangle
(both offsets 0) and with the centre on the diagonal off a corner (offsets 1
and 1) a collision is reported, the offsets tie, and the direction is
`right`, not top or bottom. -/
theorem tie_is_horizontal :
    (checkCircleRectCollision (⟨5, 5, 1⟩ : Circle ℚ) ⟨0, 0, 10, 10⟩ = some Direction.right ∧
      |distanceY (⟨5, 5, 1⟩ : Circle ℚ) ⟨0, 0, 10, 10⟩|
        = |distanceX (⟨5, 5, 1⟩ : Circle ℚ) ⟨0, 0, 10, 10⟩|) ∧
    (checkCircleRectCollision (⟨11, 11, 2⟩ : Circle ℚ) ⟨0, 0, 10, 10⟩ = some Direction.right ∧
      |distanceY (⟨11, 11, 2⟩ : Circle ℚ) ⟨0, 0, 10, 10⟩|
        = |distanceX (⟨11, 11, 2⟩ : Circle ℚ) ⟨0, 0, 10, 10⟩|) ∧
    Direction.right ≠ Direction.top ∧ Direction.right ≠ Direction.bottom := by
  refine ⟨⟨?_, ?_⟩, ⟨?_, ?_⟩, by decide, by decide⟩ <;>
    norm_num [checkCircleRectCollision, distanceSquared, distanceX, distanceY,
      closestX, closestY]

/-- C4: for a circle of radius `≥ 0` and a rectangle of width and height
`≥ 0`, `checkCircleRectCollision` reports a collision exactly when some point
of the closed rectangle is at distance at most the radius from the centre,
and exactly when the squared distance from the centre to the clamped closest
point is at most the squared radius. -/
theorem checkCircleRectCollision_iff (c : Circle ℝ) (r : Rect ℝ) (hr : 0 ≤ c.radius)
    (hw : 0 ≤ r.width) (hh : 0 ≤ r.height) :
    ((checkCircleRectCollision c r).isSome = true ↔
      ∃ px py : ℝ, r.x ≤ px ∧ px ≤ r.x + r.width ∧ r.y ≤ py ∧ py ≤ r.y + r.height ∧
        Real.sqrt ((c.x - px) ^ 2 + (c.y - py) ^ 2) ≤ c.radius) ∧
    ((checkCircleRectCollision c r).isSome = true ↔
      (c.x - closestX c r) ^ 2 + (c.y - closestY c r) ^ 2 ≤ c.radius ^ 2) := by
  have key : (checkCircleRectCollision c r).isSome = true ↔
      (c.x - closestX c r) ^ 2 + (c.y - closestY c r) ^ 2 ≤ c.radius ^ 2 := by
    rw [checkCircleRectCollision_isSome]
    simp only [distanceSquared, distanceX, distanceY, sq]
  refine ⟨?_, key⟩
  rw [key]
  constructor
  · intro h
    refine ⟨closestX c r, closestY c r, le_max_left _ _, ?_, le_max_left _ _, ?_, ?_⟩
    · exact max_le (le_add_of_nonneg_right hw) (min_le_right _ _)
    · exact max_le (le_add_of_nonneg_right hh) (min_le_right _ _)
    · rw [Real.sqrt_le_left hr]
      exact h
  · rintro ⟨px, py, hx1, hx2, hy1, hy2, hd⟩
    rw [Real.sqrt_le_left hr] at hd
    have h1 := sq_clamp_le r.x r.width c.x px hx1 hx2
    have h2 := sq_clamp_le r.y r.height c.y py hy1 hy2
    simp only [closestX, closestY, sq] at *
    linarith

/-- Witness of C4: the unit circle at the origin against the unit square. -/
theorem checkCircleRectCollision_iff_witness :
    (checkCircleRectCollision (⟨0, 0, 1⟩ : Circle ℝ) ⟨0, 0, 1, 1⟩).isSome = true ↔
      ((0 : ℝ) - closestX (⟨0, 0, 1⟩ : Circle ℝ) ⟨0, 0, 1, 1⟩) ^ 2
        + ((0 : ℝ) - closestY (⟨0, 0, 1⟩ : Circle ℝ) ⟨0, 0, 1, 1⟩) ^ 2 ≤ (1 : ℝ) ^ 2 :=
  (checkCircleRectCollision_iff (⟨0, 0, 1⟩ : Circle ℝ) ⟨0, 0, 1, 1⟩ (by norm_num)
    (by norm_num) (by norm_num)).2

end CollisionProperties

section PaddleProperties

variable {α : Type} [LinearOrderedField α]

/-- C10 as amended: for every paddle whose width is at most `CANVAS_WIDTH`
(any `x`, any `targetX`), after `Paddle.update()` the position satisfies
`0 ≤ x ≤ CANVAS_WIDTH - width`, and the width is unchanged. -/
theorem paddle_update_bounds (p : Paddle α) (hw : p.width ≤ CANVAS_WIDTH α) :
    0 ≤ p.update.x ∧ p.update.x ≤ CANVAS_WIDTH α - p.update.width ∧
      p.update.width = p.width := by
  have h0 : (0 : α) ≤ CANVAS_WIDTH α - p.width := sub_nonneg.mpr hw
  simp only [Paddle.update]
  exact ⟨le_max_left _ _, max_le h0 (min_le_left _ _), trivial⟩

/-- Witness of C10 as amended: the paddle of a fresh level. -/
theorem paddle_update_bounds_witness :
    0 ≤ (Paddle.new (190 : ℚ) 590 100 15).update.x ∧
      (Paddle.new (190 : ℚ) 590 100 15).update.x
        ≤ CANVAS_WIDTH ℚ - (Paddle.new (190 : ℚ) 590 100 15).update.width ∧
      (Paddle.new (190 : ℚ) 590 100 15).update.width = (Paddle.new (190 : ℚ) 590 100 15).width :=
  paddle_update_bounds (Paddle.new (190 : ℚ) 590 100 15)
    (by norm_num [Paddle.new, CANVAS_WIDTH])

/-- Counterexample to C10 as stated: a paddle wider than the playfield
(width 500) is put at `x = 0` by `Paddle.update()`, which is above
`CANVAS_WIDTH - width = -20`. -/
theorem paddle_update_too_wide :
    (Paddle.new (0 : ℚ) 590 500 15).update.x = 0 ∧
      CANVAS_WIDTH ℚ - (Paddle.new (0 : ℚ) 590 500 15).update.width = -20 ∧
      ¬ ((Paddle.new (0 : ℚ) 590 500 15).update.x
          ≤ CANVAS_WIDTH ℚ - (Paddle.new (0 : ℚ) 590 500 15).update.width) := by
  norm_num [Paddle.update, Paddle.new, CANVAS_WIDTH]

end PaddleProperties

section ReboundProperties

theorem paddle_hit_iff (ball : Ball ℝ) (paddle : Paddle ℝ) :
    (handleBallPaddleCollision realMath ball paddle).1 = true ↔
      ball.isLaunched = true ∧ ballPaddleOverlap ball paddle = true := by
  unfold handleBallPaddleCollision
  by_cases hl : ball.isLaunched = true
  · by_cases ho : ballPaddleOverlap ball paddle = true
    · simp [hl, ho]
    · simp [hl, ho]
  · simp [hl]

theorem paddle_hit_ball (ball : Ball ℝ) (paddle : Paddle ℝ)
    (hit : (handleBallPaddleCollision realMath ball paddle).1 = true) :
    (handleBallPaddleCollision realMath ball paddle).2 =
      { ball with
        velocityX := Real.sin (hitPosition ball paddle * Real.pi / 3) * ball.speed,
        velocityY := -|Real.cos (hitPosition ball paddle * Real.pi / 3) * ball.speed|,
        y := paddle.y - ball.radius } := by
  obtain ⟨hl, ho⟩ := (paddle_hit_iff ball paddle).mp hit
  simp [handleBallPaddleCollision, hl, ho, reboundAngle, realMath]

/-- C7, the code at the failing input: the ball `edgeBall` overlaps the
paddle `levelPaddle`, `handleBallPaddleCollision` reports a hit, and the
hit-offset is `-11/10`, outside `[-1, 1]`, so the rebound angle is more than
`π/3` (60 degrees) off vertical. -/
theorem hit_offset_exceeds_one :
    (handleBallPaddleCollision realMath (edgeBall ℝ) (levelPaddle ℝ)).1 = true ∧
      hitPosition (edgeBall ℝ) (levelPaddle ℝ) = -11 / 10 ∧
      ¬ (-1 ≤ hitPosition (edgeBall ℝ) (levelPaddle ℝ)) ∧
      Real.pi / 3 < |reboundAngle realMath (edgeBall ℝ) (levelPaddle ℝ)| := by
  have hp : hitPosition (edgeBall ℝ) (levelPaddle ℝ) = -11 / 10 := by
    norm_num [hitPosition, edgeBall, levelPaddle, Ball.new, Paddle.new]
  refine ⟨?_, hp, ?_, ?_⟩
  · rw [paddle_hit_iff]
    norm_num [ballPaddleOverlap, edgeBall, levelPaddle, Ball.new, Paddle.new]
  · rw [hp]; norm_num
  · have hpi := Real.pi_pos
    simp only [reboundAngle, hp, realMath]
    rw [show (-11 / 10 : ℝ) * Real.pi / 3 = -(11 / 30 * Real.pi) by ring, abs_neg,
      abs_of_pos (by positivity)]
    linarith

theorem hitPosition_lt (b1 b2 : Ball ℝ) (paddle : Paddle ℝ) (hw : 0 < paddle.width)
    (hx : b1.x < b2.x) : hitPosition b1 paddle < hitPosition b2 paddle := by
  unfold hitPosition
  have h2 : 0 < paddle.width / 2 := by positivity
  rw [div_lt_div_iff_of_pos_right h2]
  linarith

/-- C8: for a ball of positive speed and a paddle of positive width on which
`handleBallPaddleCollision` reports a hit, the new velocity is
`(sin a * speed, -|cos a| * speed)` with `a = hitPosition * π / 3`; a ball at
the paddle centre leaves with velocity `(0, -speed)`; a ball at the left edge
has `a = -π/3` and one at the right edge `a = π/3`; and of two balls of equal
speed that hit with hit-offsets in `[-1, 1]`, the one further right gets the
strictly larger new `velocityX`. -/
theorem paddle_rebound_velocity (ball : Ball ℝ) (paddle : Paddle ℝ) (hs : 0 < ball.speed)
    (hw : 0 < paddle.width)
    (hit : (handleBallPaddleCollision realMath ball paddle).1 = true) :
    ((handleBallPaddleCollision realMath ball paddle).2.velocityX
        = Real.sin (hitPosition ball paddle * Real.pi / 3) * ball.speed ∧
      (handleBallPaddleCollision realMath ball paddle).2.velocityY
        = -|Real.cos (hitPosition ball paddle * Real.pi / 3)| * ball.speed) ∧
    (ball.x = paddle.x + paddle.width / 2 →
      (handleBallPaddleCollision realMath ball paddle).2.velocityX = 0 ∧
      (handleBallPaddleCollision realMath ball paddle).2.velocityY = -ball.speed) ∧
    (ball.x = paddle.x → reboundAngle realMath ball paddle = -(Real.pi / 3)) ∧
    (ball.x = paddle.x + paddle.width → reboundAngle realMath ball paddle = Real.pi / 3) ∧
    (∀ ball2 : Ball ℝ, ball2.speed = ball.speed →
      (handleBallPaddleCollision realMath ball2 paddle).1 = true →
      -1 ≤ hitPosition ball paddle → hitPosition ball paddle ≤ 1 →
      -1 ≤ hitPosition ball2 paddle → hitPosition ball2 paddle ≤ 1 →
      ball.x < ball2.x →
      (handleBallPaddleCollision realMath ball paddle).2.velocityX
        < (handleBallPaddleCollision realMath ball2 paddle).2.velocityX) := by
  have hw2 : paddle.width / 2 ≠ 0 := by positivity
  have hpi := Real.pi_pos
  rw [paddle_hit_ball ball paddle hit]
  refine ⟨⟨rfl, ?_⟩, ?_, ?_, ?_, ?_⟩
  · show -|Real.cos (hitPosition ball paddle * Real.pi / 3) * ball.speed| = _
    rw [abs_mul, abs_of_pos hs]
    ring
  · intro hx
    have h0 : hitPosition ball paddle = 0 := by
      unfold hitPosition
      rw [hx]
      simp
    show Real.sin (hitPosition ball paddle * Real.pi / 3) * ball.speed = 0 ∧
      -|Real.cos (hitPosition ball paddle * Real.pi / 3) * ball.speed| = -ball.speed
    rw [h0]
    simp [abs_of_pos hs]
  · intro hx
    have h1 : hitPosition ball paddle = -1 := by
      unfold hitPosition
      rw [hx]
      field_simp
      ring
    simp only [reboundAngle, realMath, h1]
    ring
  · intro hx
    have h1 : hitPosition ball paddle = 1 := by
      unfold hitPosition
      rw [hx]
      field_simp
      ring
    simp only [reboundAngle, realMath, h1]
    ring
  · intro ball2 hs2 hit2 l1 u1 l2 u2 hx
    rw [paddle_hit_ball ball2 paddle hit2]
    show Real.sin (hitPosition ball paddle * Real.pi / 3) * ball.speed
      < Real.sin (hitPosition ball2 paddle * Real.pi / 3) * ball2.speed
    rw [hs2]
    have hlt := hitPosition_lt ball ball2 paddle hw hx
    have hmem : ∀ t : ℝ, -1 ≤ t → t ≤ 1 →
        t * Real.pi / 3 ∈ Set.Icc (-(Real.pi / 2)) (Real.pi / 2) := by
      intro t ht1 ht2
      constructor <;> nlinarith
    have hsin := Real.strictMonoOn_sin (hmem _ l1 u1) (hmem _ l2 u2)
      (by nlinarith : hitPosition ball paddle * Real.pi / 3 < hitPosition ball2 paddle * Real.pi / 3)
    exact mul_lt_mul_of_pos_right hsin hs

theorem centreBall_hit :
    (handleBallPaddleCollision realMath (centreBall ℝ) (levelPaddle ℝ)).1 = true := by
  rw [paddle_hit_iff]
  norm_num [ballPaddleOverlap, centreBall, levelPaddle, Ball.new, Paddle.new]

/-- Witness of C8: a ball falling onto the centre of the paddle of a fresh
level. -/
theorem paddle_rebound_velocity_witness :
    (handleBallPaddleCollision realMath (centreBall ℝ) (levelPaddle ℝ)).2.velocityX
        = Real.sin (hitPosition (centreBall ℝ) (levelPaddle ℝ) * Real.pi / 3)
          * (centreBall ℝ).speed ∧
      (handleBallPaddleCollision realMath (centreBall ℝ) (levelPaddle ℝ)).2.velocityY
        = -|Real.cos (hitPosition (centreBall ℝ) (levelPaddle ℝ) * Real.pi / 3)|
          * (centreBall ℝ).speed :=
  (paddle_rebound_velocity (centreBall ℝ) (levelPaddle ℝ)
    (by norm_num [centreBall, Ball.new]) (by norm_num [levelPaddle, Paddle.new])
    centreBall_hit).1

theorem hitPosition_bounds (ball : Ball ℝ) (paddle : Paddle ℝ) (hw : 0 < paddle.width)
    (ho : ballPaddleOverlap ball paddle = true) (hr : ball.radius < paddle.width / 4) :
    -(3 / 2) < hitPosition ball paddle ∧ hitPosition ball paddle < 3 / 2 := by
  simp only [ballPaddleOverlap, Bool.and_eq_true, decide_eq_true_eq, ge_iff_le] at ho
  obtain ⟨⟨⟨-, -⟩, h3⟩, h4⟩ := ho
  have h2 : 0 < paddle.width / 2 := by positivity
  unfold hitPosition
  rw [lt_div_iff₀ h2, div_lt_iff₀ h2]
  constructor <;> linarith

theorem paddle_hit_any (m : JSMath ℝ) (ball : Ball ℝ) (paddle : Paddle ℝ) :
    (handleBallPaddleCollision m ball paddle).1
        = (handleBallPaddleCollision realMath ball paddle).1 ∧
    ((handleBallPaddleCollision realMath ball paddle).1 = true →
      (handleBallPaddleCollision m ball paddle).2 =
        { ball with
          velocityX := m.sin (reboundAngle m ball paddle) * ball.speed,
          velocityY := -|m.cos (reboundAngle m ball paddle) * ball.speed|,
          y := paddle.y - ball.radius }) := by
  unfold handleBallPaddleCollision
  by_cases hl : ball.isLaunched = true
  · by_cases ho : ballPaddleOverlap ball paddle = true
    · simp [hl, ho]
    · simp [hl, ho]
  · simp [hl]

theorem cos_rat_ne_zero (q : ℚ) : Real.cos (q : ℝ) ≠ 0 := by
  intro h
  obtain ⟨k, hk⟩ := Real.cos_eq_zero_iff.mp h
  have hodd : (2 * (k : ℝ) + 1) ≠ 0 := by
    have : (2 * k + 1 : ℤ) ≠ 0 := by omega
    exact_mod_cast this
  have hpi : ((2 * q / (2 * k + 1) : ℚ) : ℝ) = Real.pi := by
    push_cast
    rw [hk]
    field_simp
  exact irrational_pi ⟨_, hpi⟩

/-- C9: for a ball of positive speed and a paddle of positive width on which
`handleBallPaddleCollision` reports a hit, the ball was launched, it is put
at `y = paddle.y - radius` with `x` unchanged, and the new `velocityY` is
`≤ 0`; it is strictly negative exactly when the cosine of the rebound angle
is not 0.  That is the case whenever the ball's radius is less than a quarter
of the paddle's width (as for the game's radius 10 and its paddle widths 75,
100 and 150), and, whatever the radius, whenever `ball.x`, `paddle.x`,
`paddle.width` and the host's `PI` are rational numbers, as all doubles are:
the rebound angle is then rational, and the cosine of a rational number is
never 0. -/
theorem paddle_rebound_upward (ball : Ball ℝ) (paddle : Paddle ℝ) (hs : 0 < ball.speed)
    (hw : 0 < paddle.width)
    (hit : (handleBallPaddleCollision realMath ball paddle).1 = true) :
    ball.isLaunched = true ∧
    (handleBallPaddleCollision realMath ball paddle).2.velocityY ≤ 0 ∧
    ((handleBallPaddleCollision realMath ball paddle).2.velocityY < 0 ↔
      Real.cos (reboundAngle realMath ball paddle) ≠ 0) ∧
    (ball.radius < paddle.width / 4 →
      (handleBallPaddleCollision realMath ball paddle).2.velocityY < 0) ∧
    (handleBallPaddleCollision realMath ball paddle).2.y = paddle.y - ball.radius ∧
    (handleBallPaddleCollision realMath ball paddle).2.x = ball.x ∧
    (∀ m : JSMath ℝ,
      (handleBallPaddleCollision m ball paddle).1 = true ∧
      (handleBallPaddleCollision m ball paddle).2.y = paddle.y - ball.radius ∧
      (handleBallPaddleCollision m ball paddle).2.x = ball.x ∧
      (handleBallPaddleCollision m ball paddle).2.velocityY ≤ 0 ∧
      ((handleBallPaddleCollision m ball paddle).2.velocityY < 0 ↔
        m.cos (reboundAngle m ball paddle) ≠ 0)) ∧
    (∀ (m : JSMath ℝ) (bx px w p : ℚ), m.cos = Real.cos → m.PI = (p : ℝ) →
      ball.x = (bx : ℝ) → paddle.x = (px : ℝ) → paddle.width = (w : ℝ) →
      (handleBallPaddleCollision m ball paddle).2.velocityY < 0) := by
  obtain ⟨hl, ho⟩ := (paddle_hit_iff ball paddle).mp hit
  have hany : ∀ m : JSMath ℝ,
      (handleBallPaddleCollision m ball paddle).1 = true ∧
      (handleBallPaddleCollision m ball paddle).2.y = paddle.y - ball.radius ∧
      (handleBallPaddleCollision m ball paddle).2.x = ball.x ∧
      (handleBallPaddleCollision m ball paddle).2.velocityY ≤ 0 ∧
      ((handleBallPaddleCollision m ball paddle).2.velocityY < 0 ↔
        m.cos (reboundAngle m ball paddle) ≠ 0) := by
    intro m
    obtain ⟨a1, a2⟩ := paddle_hit_any m ball paddle
    rw [a2 hit]
    refine ⟨by rw [a1, hit], rfl, rfl, ?_, ?_⟩
    · show -|m.cos (reboundAngle m ball paddle) * ball.speed| ≤ 0
      exact neg_nonpos.mpr (abs_nonneg _)
    · show -|m.cos (reboundAngle m ball paddle) * ball.speed| < 0 ↔ _
      rw [neg_lt_zero, abs_pos, mul_ne_zero_iff]
      exact ⟨fun h => h.1, fun h => ⟨h, hs.ne'⟩⟩
  rw [paddle_hit_ball ball paddle hit]
  have hiff : -|Real.cos (hitPosition ball paddle * Real.pi / 3) * ball.speed| < 0 ↔
      Real.cos (hitPosition ball paddle * Real.pi / 3) ≠ 0 := by
    rw [neg_lt_zero, abs_pos, mul_ne_zero_iff]
    exact ⟨fun h => h.1, fun h => ⟨h, hs.ne'⟩⟩
  refine ⟨hl, ?_, ?_, ?_, rfl, rfl, hany, ?_⟩
  · show -|Real.cos (hitPosition ball paddle * Real.pi / 3) * ball.speed| ≤ 0
    exact neg_nonpos.mpr (abs_nonneg _)
  · exact hiff
  · intro hr
    show -|Real.cos (hitPosition ball paddle * Real.pi / 3) * ball.speed| < 0
    rw [hiff]
    obtain ⟨hlo, hhi⟩ := hitPosition_bounds ball paddle hw ho hr
    have hpi := Real.pi_pos
    apply ne_of_gt
    apply Real.cos_pos_of_mem_Ioo
    constructor <;> nlinarith
  · intro m bx px w p hcos hpi hbx hpx hpw
    rw [(hany m).2.2.2.2, hcos]
    have hangle : reboundAngle m ball paddle
        = (((bx - (px + w / 2)) / (w / 2) * p / 3 : ℚ) : ℝ) := by
      simp only [reboundAngle, hitPosition, hpi, hbx, hpx, hpw]
      push_cast
      ring
    rw [hangle]
    exact cos_rat_ne_zero _

/-- Witness of C9: a ball falling onto the centre of the paddle of a fresh
level leaves with `velocityY < 0`; and so does the ball `wideBall` of radius
25 that touches the left edge of that paddle with hit-offset `-3/2`, on the
host whose `PI` is the double `Math.PI`. -/
theorem paddle_rebound_upward_witness :
    (handleBallPaddleCollision realMath (centreBall ℝ) (levelPaddle ℝ)).2.velocityY < 0 ∧
      (handleBallPaddleCollision doubleMath (wideBall ℝ) (levelPaddle ℝ)).2.velocityY < 0 :=
  ⟨(paddle_rebound_upward (centreBall ℝ) (levelPaddle ℝ)
      (by norm_num [centreBall, Ball.new]) (by norm_num [levelPaddle, Paddle.new])
      centreBall_hit).2.2.2.1 (by norm_num [centreBall, levelPaddle, Ball.new, Paddle.new]),
    (paddle_rebound_upward (wideBall ℝ) (levelPaddle ℝ)
      (by norm_num [wideBall, Ball.new]) (by norm_num [levelPaddle, Paddle.new])
      (by
        rw [paddle_hit_iff]
        norm_num [ballPaddleOverlap, wideBall, levelPaddle, Ball.new,
          Paddle.new])).2.2.2.2.2.2.2 doubleMath 165 190 100
      (884279719003555 / 281474976710656) rfl
      (by norm_num [doubleMath])
      (by norm_num [wideBall, Ball.new]) (by norm_num [levelPaddle, Paddle.new])
      (by norm_num [levelPaddle, Paddle.new])⟩

end ReboundProperties

section SpeedProperties

theorem sq_zero_imp {a : ℝ} (h : a ^ 2 = 0) : a = 0 :=
  (pow_eq_zero_iff two_ne_zero).mp h

theorem normalizeVelocity_frame (m : JSMath ℝ) (b : Ball ℝ) :
    (b.normalizeVelocity m).isLaunched = b.isLaunched ∧
      (b.normalizeVelocity m).speed = b.speed := by
  by_cases h : m.sqrt (b.velocityX * b.velocityX + b.velocityY * b.velocityY) > 0
  · simp [Ball.normalizeVelocity, h]
  · simp [Ball.normalizeVelocity, h]

theorem normalizeVelocity_atSpeed (b : Ball ℝ) (hv : b.velocityX ≠ 0 ∨ b.velocityY ≠ 0) :
    (b.normalizeVelocity realMath).atSpeed := by
  have hq : 0 < b.velocityX * b.velocityX + b.velocityY * b.velocityY := by
    rcases hv with h | h
    · have := mul_self_pos.mpr h
      nlinarith [mul_self_nonneg b.velocityY]
    · have := mul_self_pos.mpr h
      nlinarith [mul_self_nonneg b.velocityX]
  have hcs : 0 < Real.sqrt (b.velocityX * b.velocityX + b.velocityY * b.velocityY) :=
    Real.sqrt_pos.mpr hq
  have hsq := Real.mul_self_sqrt hq.le
  simp only [Ball.normalizeVelocity, realMath, gt_iff_lt, hcs, if_true, Ball.atSpeed]
  generalize Real.sqrt (b.velocityX * b.velocityX + b.velocityY * b.velocityY) = cs at hcs hsq
  have hne : cs ≠ 0 := hcs.ne'
  field_simp
  linear_combination (-(b.speed ^ 2)) * hsq

theorem normalizeVelocity_zero (b : Ball ℝ) (hx : b.velocityX = 0) (hy : b.velocityY = 0) :
    b.normalizeVelocity realMath = b := by
  simp [Ball.normalizeVelocity, realMath, hx, hy]

theorem rescale_atSpeed (b : Ball ℝ) (k : ℝ) (h : b.atSpeed) :
    (Ball.normalizeVelocity realMath { b with speed := b.speed * k }).atSpeed ∧
      (Ball.normalizeVelocity realMath { b with speed := b.speed * k }).isLaunched
        = b.isLaunched := by
  refine ⟨?_, (normalizeVelocity_frame realMath _).1⟩
  by_cases hv : b.velocityX ≠ 0 ∨ b.velocityY ≠ 0
  · exact normalizeVelocity_atSpeed _ hv
  · push_neg at hv
    rw [normalizeVelocity_zero { b with speed := b.speed * k } hv.1 hv.2]
    unfold Ball.atSpeed at h ⊢
    rw [hv.1, hv.2] at h
    have hs : b.speed = 0 := sq_zero_imp (by rw [← h]; ring)
    simp [hv.1, hv.2, hs]

theorem checkBoundaries_frame (b : Ball ℝ) :
    b.checkBoundaries.velocityX ^ 2 = b.velocityX ^ 2 ∧
      b.checkBoundaries.velocityY ^ 2 = b.velocityY ^ 2 ∧
      b.checkBoundaries.speed = b.speed ∧
      b.checkBoundaries.isLaunched = b.isLaunched := by
  unfold Ball.checkBoundaries
  split_ifs <;> simp only [] <;> split_ifs <;> simp

theorem update_eq (m : JSMath ℝ) (b : Ball ℝ) (hl : b.isLaunched = true) :
    b.update m = Ball.normalizeVelocity m (Ball.checkBoundaries
      { b.updateTrail with x := b.x + b.velocityX, y := b.y + b.velocityY }) := by
  simp [Ball.update, hl, Ball.updateTrail]

theorem update_atSpeed (b : Ball ℝ) (hl : b.isLaunched = true)
    (hv : b.velocityX ≠ 0 ∨ b.velocityY ≠ 0) :
    (b.update realMath).atSpeed ∧ (b.update realMath).isLaunched = true ∧
      (b.update realMath).speed = b.speed := by
  rw [update_eq realMath b hl]
  obtain ⟨h1, h2, h3, h4⟩ := checkBoundaries_frame
    { b.updateTrail with x := b.x + b.velocityX, y := b.y + b.velocityY }
  obtain ⟨f1, f2⟩ := normalizeVelocity_frame realMath (Ball.checkBoundaries
    { b.updateTrail with x := b.x + b.velocityX, y := b.y + b.velocityY })
  have e1 : ({ b.updateTrail with x := b.x + b.velocityX, y := b.y + b.velocityY } :
      Ball ℝ).velocityX = b.velocityX := rfl
  have e2 : ({ b.updateTrail with x := b.x + b.velocityX, y := b.y + b.velocityY } :
      Ball ℝ).velocityY = b.velocityY := rfl
  have e3 : ({ b.updateTrail with x := b.x + b.velocityX, y := b.y + b.velocityY } :
      Ball ℝ).speed = b.speed := rfl
  have e4 : ({ b.updateTrail with x := b.x + b.velocityX, y := b.y + b.velocityY } :
      Ball ℝ).isLaunched = b.isLaunched := rfl
  rw [e1] at h1
  rw [e2] at h2
  rw [e3] at h3
  rw [e4] at h4
  refine ⟨?_, ?_, ?_⟩
  · apply normalizeVelocity_atSpeed
    rcases hv with h | h
    · left
      intro h0
      rw [h0] at h1
      exact h (sq_zero_imp (by rw [← h1]; ring))
    · right
      intro h0
      rw [h0] at h2
      exact h (sq_zero_imp (by rw [← h2]; ring))
  · rw [f1, h4, hl]
  · rw [f2, h3]

theorem launch_atSpeed (b : Ball ℝ) (angle : ℝ) :
    (b.launch realMath angle).atSpeed ∧ (b.launch realMath angle).isLaunched = true := by
  refine ⟨?_, rfl⟩
  simp only [Ball.atSpeed, Ball.launch, realMath]
  linear_combination (b.speed ^ 2) * Real.sin_sq_add_cos_sq angle

theorem paddle_hit_atSpeed (ball : Ball ℝ) (paddle : Paddle ℝ)
    (hit : (handleBallPaddleCollision realMath ball paddle).1 = true) :
    (handleBallPaddleCollision realMath ball paddle).2.atSpeed := by
  rw [paddle_hit_ball ball paddle hit]
  simp only [Ball.atSpeed, neg_sq, sq_abs]
  linear_combination (ball.speed ^ 2) * Real.sin_sq_add_cos_sq (hitPosition ball paddle * Real.pi / 3)

theorem paddle_collision_frame (ball : Ball ℝ) (paddle : Paddle ℝ) :
    (handleBallPaddleCollision realMath ball paddle).2.isLaunched = ball.isLaunched ∧
      (ball.atSpeed → (handleBallPaddleCollision realMath ball paddle).2.atSpeed) := by
  by_cases hit : (handleBallPaddleCollision realMath ball paddle).1 = true
  · refine ⟨?_, fun _ => paddle_hit_atSpeed ball paddle hit⟩
    rw [paddle_hit_ball ball paddle hit]
  · have hno : (handleBallPaddleCollision realMath ball paddle).2 = ball := by
      rw [paddle_hit_iff] at hit
      unfold handleBallPaddleCollision
      by_cases hl : ball.isLaunched = true
      · have ho : ¬ ballPaddleOverlap ball paddle = true := fun h => hit ⟨hl, h⟩
        simp [hl, ho]
      · simp [hl]
    rw [hno]
    exact ⟨rfl, id⟩

theorem rebound_frame (ball : Ball ℝ) (d : Direction) :
    (handleBallRebound ball d).isLaunched = ball.isLaunched ∧
      (ball.atSpeed → (handleBallRebound ball d).atSpeed) := by
  cases d <;> simp [handleBallRebound, Ball.atSpeed]

theorem blockCollision_frame (ball : Ball ℝ) (block : Block ℝ) (g : Rng ℝ) :
    (handleBallBlockCollision ball block g).ball.isLaunched = ball.isLaunched ∧
      (ball.atSpeed → (handleBallBlockCollision ball block g).ball.atSpeed) := by
  unfold handleBallBlockCollision
  split
  · exact ⟨rfl, id⟩
  · split
    · rename_i d _
      exact rebound_frame ball d
    · exact ⟨rfl, id⟩

theorem applyBonus_ballAtSpeed (bt : BonusType) (gm : Game ℝ) (h : gm.ballAtSpeed) :
    ∃ g1, applyBonus realMath bt gm = some g1 ∧ g1.ballAtSpeed := by
  obtain ⟨hp, b, hb, hl, hs⟩ := h
  obtain ⟨p, hp1⟩ := Option.isSome_iff_exists.mp hp
  cases bt with
  | extraBall =>
    by_cases hc : gm.ballsRemaining < MAX_BALLS
    · simp only [applyBonus, hc, if_true]
      exact ⟨_, rfl, hp, b, hb, hl, hs⟩
    · simp only [applyBonus, hc, if_false]
      exact ⟨_, rfl, hp, b, hb, hl, hs⟩
  | enlargePaddle =>
    simp only [applyBonus, hp1, Option.map_some']
    exact ⟨_, rfl, rfl, b, hb, hl, hs⟩
  | shrinkPaddle =>
    simp only [applyBonus, hp1, Option.map_some']
    exact ⟨_, rfl, rfl, b, hb, hl, hs⟩
  | speedUp =>
    obtain ⟨r1, r2⟩ := rescale_atSpeed b 1.2 hs
    simp only [applyBonus, hb, Option.map_some']
    exact ⟨_, rfl, hp, _, rfl, r2.trans hl, r1⟩
  | speedDown =>
    obtain ⟨r1, r2⟩ := rescale_atSpeed b 0.8 hs
    simp only [applyBonus, hb, Option.map_some']
    exact ⟨_, rfl, hp, _, rfl, r2.trans hl, r1⟩

theorem onBlockHit_ballAtSpeed (gm : Game ℝ) (block : Block ℝ) (h : gm.ballAtSpeed) :
    ∃ g1, Game.onBlockHit realMath gm block = some g1 ∧ g1.ballAtSpeed := by
  have h1 : Game.ballAtSpeed { gm with score := gm.score + block.scoreValue } := h
  unfold Game.onBlockHit
  cases hbt : block.bonusType with
  | none => exact ⟨_, rfl, h1⟩
  | some bt =>
    by_cases ht : block.type = BlockType.bonus
    · simp only [ht, if_true]
      exact applyBonus_ballAtSpeed bt _ h1
    · simp only [ht, if_false]
      exact ⟨_, rfl, h1⟩

theorem collideBlock_ballAtSpeed (gm : Game ℝ) (block : Block ℝ) (h : gm.ballAtSpeed) :
    ∃ g1 block1, Game.collideBlock realMath gm block = some (g1, block1) ∧ g1.ballAtSpeed := by
  obtain ⟨hp, b, hb, hl, hs⟩ := h
  obtain ⟨f1, f2⟩ := blockCollision_frame b block gm.rng
  have h1 : Game.ballAtSpeed
      ({ gm with
          ball := some (handleBallBlockCollision b block gm.rng).ball
          rng := (handleBallBlockCollision b block gm.rng).rng } : Game ℝ) :=
    ⟨hp, _, rfl, f1.trans hl, f2 hs⟩
  unfold Game.collideBlock
  simp only [hb]
  by_cases hd : (handleBallBlockCollision b block gm.rng).destroyed = true
  · obtain ⟨g2, e2, i2⟩ := onBlockHit_ballAtSpeed _ (handleBallBlockCollision b block gm.rng).block h1
    simp only [hd, if_true, e2, Option.map_some']
    exact ⟨g2, _, rfl, i2⟩
  · simp only [hd, Bool.false_eq_true, if_false]
    exact ⟨_, _, rfl, h1⟩

theorem sweepBlocks_ballAtSpeed (blocks : List (Block ℝ)) :
    ∀ gm : Game ℝ, gm.ballAtSpeed →
      ∃ g1 blocks1, Game.sweepBlocks realMath gm blocks = some (g1, blocks1) ∧ g1.ballAtSpeed := by
  induction blocks with
  | nil => intro gm h; exact ⟨gm, [], rfl, h⟩
  | cons block rest ih =>
    intro gm h
    obtain ⟨g1, block1, e1, i1⟩ := collideBlock_ballAtSpeed gm block h
    obtain ⟨g2, rest1, e2, i2⟩ := ih g1 i1
    simp only [Game.sweepBlocks, e1, e2]
    exact ⟨g2, block1 :: rest1, rfl, i2⟩

theorem checkBlockCollisions_ballAtSpeed (gm : Game ℝ) (h : gm.ballAtSpeed) :
    ∃ g1, Game.checkBlockCollisions realMath gm = some g1 ∧ g1.ballAtSpeed := by
  obtain ⟨g1, blocks1, e1, i1⟩ := sweepBlocks_ballAtSpeed gm.blocks gm h
  simp only [Game.checkBlockCollisions, e1, Option.map_some']
  exact ⟨_, rfl, i1⟩

theorem ballLost_atSpeed (gm : Game ℝ) (h : gm.ballAtSpeed) :
    ∃ g1, gm.ballLost = some g1 ∧
      ∀ b1, g1.ball = some b1 → b1.isLaunched = true → b1.atSpeed := by
  obtain ⟨hp, b, hb, hl, hs⟩ := h
  obtain ⟨p, hp1⟩ := Option.isSome_iff_exists.mp hp
  unfold Game.ballLost
  by_cases hc : gm.ballsRemaining - 1 ≤ 0
  · simp only [hc, if_true]
    refine ⟨_, rfl, ?_⟩
    intro b1 hb1 _
    have : some b = some b1 := hb.symm.trans hb1
    rw [← Option.some.inj this]
    exact hs
  · simp only [hc, if_false, hp1, Option.map_some']
    refine ⟨_, rfl, ?_⟩
    intro b1 hb1 hl1
    have e : createBall p = b1 := Option.some.inj hb1
    rw [← e] at hl1
    exact absurd hl1 (by simp [createBall, Ball.new])

theorem completeLevel_ball (gm : Game ℝ) : gm.completeLevel.ball = gm.ball := by
  unfold Game.completeLevel
  split <;> rfl

theorem updatePlaying_atSpeed (gm : Game ℝ) (b : Ball ℝ) (p : Paddle ℝ)
    (hb : gm.ball = some b) (hp : gm.paddle = some p) (hl : b.isLaunched = true)
    (hv : b.velocityX ≠ 0 ∨ b.velocityY ≠ 0) :
    ∃ g1, gm.updatePlaying realMath = some g1 ∧
      ∀ b1, g1.ball = some b1 → b1.isLaunched = true → b1.atSpeed := by
  obtain ⟨u1, u2, -⟩ := update_atSpeed b hl hv
  obtain ⟨c1, c2⟩ := paddle_collision_frame (b.update realMath) p
  have inv : Game.ballAtSpeed
      ({ gm with ball := some (handleBallPaddleCollision realMath (b.update realMath) p).2 } :
        Game ℝ) :=
    ⟨by simp [hp], _, rfl, c1.trans u2, c2 u1⟩
  obtain ⟨g1, e1, i1⟩ := checkBlockCollisions_ballAtSpeed _ inv
  obtain ⟨-, b3, hb3, hl3, hs3⟩ := id i1
  rw [hp] at e1
  simp only [Game.updatePlaying, hb, hp, e1, hb3]
  by_cases hy : b3.y - b3.radius > CANVAS_HEIGHT ℝ
  · obtain ⟨g2, e2, i2⟩ := ballLost_atSpeed g1 i1
    simp only [hy, if_true, e2, Option.map_some']
    refine ⟨_, rfl, ?_⟩
    split
    · rw [completeLevel_ball]; exact i2
    · exact i2
  · simp only [hy, if_false, Option.map_some']
    refine ⟨_, rfl, ?_⟩
    have i2 : ∀ b1, g1.ball = some b1 → b1.isLaunched = true → b1.atSpeed := by
      intro b1 hb1 _
      have : some b3 = some b1 := hb3.symm.trans hb1
      rw [← Option.some.inj this]
      exact hs3
    split
    · rw [completeLevel_ball]; exact i2
    · exact i2

theorem update_playing_atSpeed (gm : Game ℝ) (b : Ball ℝ) (hst : gm.state = GameStatus.playing)
    (hb : gm.ball = some b) (hp : gm.paddle.isSome = true) (hl : b.isLaunched = true)
    (hv : b.velocityX ≠ 0 ∨ b.velocityY ≠ 0) :
    ∃ g1, gm.update realMath = some g1 ∧
      ∀ b1, g1.ball = some b1 → b1.isLaunched = true → b1.atSpeed := by
  obtain ⟨p, hp1⟩ := Option.isSome_iff_exists.mp hp
  obtain ⟨g1, e1, i1⟩ := updatePlaying_atSpeed
    ({ gm with paddle := some (handlePaddleControl p.update gm.input) } : Game ℝ) b
    (handlePaddleControl p.update gm.input) hb rfl hl hv
  simp only [Game.update, hp1]
  rw [if_pos hst, e1]
  exact ⟨_, rfl, i1⟩

/-- C1: for a launched ball with positive speed and non-zero velocity,
`velocityX² + velocityY² = speed²` holds after `Ball.update()` (which keeps
`speed`), after `Ball.launch(angle)` for every angle, after every hit
reported by `handleBallPaddleCollision`, and is preserved by
`handleBallRebound`; and a tick `Game.update()` in state `PLAYING` on a game
holding this ball and a paddle returns a game whose ball, if launched,
satisfies the equation for its current speed. -/
theorem ball_speed_invariant (b : Ball ℝ) (hl : b.isLaunched = true) (hs : 0 < b.speed)
    (hv : b.velocityX ≠ 0 ∨ b.velocityY ≠ 0) :
    ((b.update realMath).velocityX ^ 2 + (b.update realMath).velocityY ^ 2
        = (b.update realMath).speed ^ 2 ∧ (b.update realMath).speed = b.speed) ∧
    (∀ angle : ℝ, (b.launch realMath angle).velocityX ^ 2
        + (b.launch realMath angle).velocityY ^ 2 = (b.launch realMath angle).speed ^ 2) ∧
    (∀ paddle : Paddle ℝ, (handleBallPaddleCollision realMath b paddle).1 = true →
      (handleBallPaddleCollision realMath b paddle).2.velocityX ^ 2
        + (handleBallPaddleCollision realMath b paddle).2.velocityY ^ 2
        = (handleBallPaddleCollision realMath b paddle).2.speed ^ 2) ∧
    (∀ d : Direction, b.velocityX ^ 2 + b.velocityY ^ 2 = b.speed ^ 2 →
      (handleBallRebound b d).velocityX ^ 2 + (handleBallRebound b d).velocityY ^ 2
        = (handleBallRebound b d).speed ^ 2) ∧
    (∀ gm : Game ℝ, gm.state = GameStatus.playing → gm.ball = some b →
      gm.paddle.isSome = true →
      ∃ g1, gm.update realMath = some g1 ∧
        ∀ b1, g1.ball = some b1 → b1.isLaunched = true →
          b1.velocityX ^ 2 + b1.velocityY ^ 2 = b1.speed ^ 2) := by
  obtain ⟨u1, -, u3⟩ := update_atSpeed b hl hv
  refine ⟨⟨u1, u3⟩, fun angle => (launch_atSpeed b angle).1,
    fun paddle hit => paddle_hit_atSpeed b paddle hit,
    fun d h => (rebound_frame b d).2 h, ?_⟩
  intro gm hst hb hp
  exact update_playing_atSpeed gm b hst hb hp hl hv

/-- Witness of C1: a launched ball of speed 6 falling straight down. -/
theorem ball_speed_invariant_witness :
    ((centreBall ℝ).update realMath).velocityX ^ 2 + ((centreBall ℝ).update realMath).velocityY ^ 2
        = ((centreBall ℝ).update realMath).speed ^ 2 ∧
      ((centreBall ℝ).update realMath).speed = (centreBall ℝ).speed :=
  (ball_speed_invariant (centreBall ℝ) rfl (by norm_num [centreBall, Ball.new])
    (Or.inr (by norm_num [centreBall, Ball.new]))).1

end SpeedProperties

section ResizeProperties

variable {α : Type} [LinearOrderedField α] [FloorRing α]

theorem resize_width (p : Paddle α) (f : α) :
    (p.resize f).width = p.normalWidth * f ∧ (p.resize f).normalWidth = p.normalWidth := by
  simp [Paddle.resize]

/-- C12: for every paddle and factor `f`, after `Paddle.resize(f)` the width
is `normalWidth * f` whatever the previous width was, `normalWidth` is
unchanged, `targetX` equals the new `x`, and the centre `x + width / 2` is
unchanged whenever the recentred paddle fits inside `[0, CANVAS_WIDTH]`; a
second `resize(g)` gives the width `normalWidth * g`, so resizes do not
compound; and `resetSize()` gives the same paddle as `resize(1)`. -/
theorem paddle_resize_spec (p : Paddle α) (f : α) :
    (p.resize f).width = p.normalWidth * f ∧
    (p.resize f).normalWidth = p.normalWidth ∧
    (p.resize f).targetX = (p.resize f).x ∧
    (0 ≤ p.x + p.width / 2 - p.normalWidth * f / 2 →
      p.x + p.width / 2 + p.normalWidth * f / 2 ≤ CANVAS_WIDTH α →
      (p.resize f).x + (p.resize f).width / 2 = p.x + p.width / 2) ∧
    (∀ g : α, ((p.resize f).resize g).width = p.normalWidth * g) ∧
    p.resetSize = p.resize 1 := by
  refine ⟨(resize_width p f).1, (resize_width p f).2, rfl, ?_, ?_, ?_⟩
  · intro h0 h1
    have hmin : min (CANVAS_WIDTH α - p.normalWidth * f)
        (p.x + p.width / 2 - p.normalWidth * f / 2) = p.x + p.width / 2 - p.normalWidth * f / 2 := by
      apply min_eq_right
      linarith
    simp only [Paddle.resize]
    rw [hmin, max_eq_right h0]
    ring
  · intro g
    rw [(resize_width (p.resize f) g).1, (resize_width p f).2]
  · simp [Paddle.resetSize, Paddle.resize]

theorem applyBonus_enlarge (m : JSMath α) (gm : Game α) (p : Paddle α)
    (hp : gm.paddle = some p) :
    applyBonus m BonusType.enlargePaddle gm = some { gm with paddle := some (p.resize 1.5) } := by
  simp [applyBonus, hp]

theorem applyBonus_shrink (m : JSMath α) (gm : Game α) (p : Paddle α)
    (hp : gm.paddle = some p) :
    applyBonus m BonusType.shrinkPaddle gm = some { gm with paddle := some (p.resize 0.75) } := by
  simp [applyBonus, hp]

/-- C11 as amended: for every game whose paddle has its normal width,
`applyBonus(ENLARGE_PADDLE)` followed by `applyBonus(SHRINK_PADDLE)` succeeds
and leaves `paddle.width` equal to 0.75 times the original (normal) width,
the same width as `SHRINK_PADDLE` alone gives: the second resize is computed
from the stored normal width, not from the enlarged one. -/
theorem enlarge_then_shrink_width (m : JSMath α) (gm : Game α) (p : Paddle α)
    (hp : gm.paddle = some p) (hn : p.width = p.normalWidth) :
    ((applyBonus m BonusType.enlargePaddle gm).bind
        (applyBonus m BonusType.shrinkPaddle)).bind Game.paddleWidth = some (p.width * 0.75) ∧
    ((applyBonus m BonusType.enlargePaddle gm).bind
        (applyBonus m BonusType.shrinkPaddle)).bind Game.paddleWidth
      = (applyBonus m BonusType.shrinkPaddle gm).bind Game.paddleWidth := by
  rw [applyBonus_enlarge m gm p hp, applyBonus_shrink m gm p hp]
  simp only [Option.some_bind]
  rw [applyBonus_shrink m _ (p.resize 1.5) rfl]
  simp only [Option.some_bind, Game.paddleWidth, Option.map_some']
  rw [(resize_width (p.resize 1.5) 0.75).1, (resize_width p 1.5).2, (resize_width p 0.75).1, hn]
  exact ⟨rfl, rfl⟩

/-- Witness of C11 as amended: the paddle of a fresh level, 100 wide. -/
theorem enlarge_then_shrink_width_witness :
    ((applyBonus realMath BonusType.enlargePaddle sampleGame).bind
        (applyBonus realMath BonusType.shrinkPaddle)).bind Game.paddleWidth
      = some ((levelPaddle ℝ).width * 0.75) :=
  (enlarge_then_shrink_width realMath sampleGame (levelPaddle ℝ) rfl rfl).1

/-- Counterexample to C11 as stated: the paddle of `sampleGame` has its normal
width 100; after `applyBonus(ENLARGE_PADDLE)` and then
`applyBonus(SHRINK_PADDLE)` its width is 75, not 100. -/
theorem enlarge_then_shrink_not_restored :
    (levelPaddle ℝ).width = (levelPaddle ℝ).normalWidth ∧
    (levelPaddle ℝ).width = 100 ∧
    ((applyBonus realMath BonusType.enlargePaddle sampleGame).bind
        (applyBonus realMath BonusType.shrinkPaddle)).bind Game.paddleWidth = some 75 ∧
    (75 : ℝ) ≠ 100 := by
  refine ⟨rfl, rfl, ?_, by norm_num⟩
  rw [applyBonus_enlarge realMath sampleGame (levelPaddle ℝ) rfl]
  simp only [Option.some_bind]
  rw [applyBonus_shrink realMath _ ((levelPaddle ℝ).resize 1.5) rfl]
  simp only [Option.some_bind, Game.paddleWidth, Option.map_some']
  rw [(resize_width ((levelPaddle ℝ).resize 1.5) 0.75).1, (resize_width (levelPaddle ℝ) 1.5).2]
  norm_num [levelPaddle, Paddle.new]

end ResizeProperties

section SpeedBonusProperties

variable {α : Type} [LinearOrderedField α] [FloorRing α]

theorem normalizeVelocity_speed (m : JSMath α) (b : Ball α) :
    (b.normalizeVelocity m).speed = b.speed := by
  by_cases h : m.sqrt (b.velocityX * b.velocityX + b.velocityY * b.velocityY) > 0
  · simp [Ball.normalizeVelocity, h]
  · simp [Ball.normalizeVelocity, h]

theorem applyBonus_speedUp (m : JSMath α) (gm : Game α) (b : Ball α) (hb : gm.ball = some b) :
    applyBonus m BonusType.speedUp gm
      = some { gm with ball := some (Ball.normalizeVelocity m { b with speed := b.speed * 1.2 }) } := by
  simp [applyBonus, hb]

theorem applyBonus_speedDown (m : JSMath α) (gm : Game α) (b : Ball α) (hb : gm.ball = some b) :
    applyBonus m BonusType.speedDown gm
      = some { gm with ball := some (Ball.normalizeVelocity m { b with speed := b.speed * 0.8 }) } := by
  simp [applyBonus, hb]

/-- C13 as amended: speed bonuses compound.  For every game whose ball has
the speed `s`, two consecutive `applyBonus(SPEED_UP)` succeed and leave the
target speed `s * 1.2 * 1.2 = 1.44 * s`, and `SPEED_UP` followed by
`SPEED_DOWN` leaves `s * 1.2 * 0.8 = 0.96 * s`: each bonus multiplies the
current speed, and no base speed is stored. -/
theorem speed_bonuses_compound (m : JSMath α) (gm : Game α) (b : Ball α)
    (hb : gm.ball = some b) :
    (((applyBonus m BonusType.speedUp gm).bind (applyBonus m BonusType.speedUp)).bind
        Game.ballSpeed = some (b.speed * 1.2 * 1.2) ∧ b.speed * 1.2 * 1.2 = 1.44 * b.speed) ∧
    (((applyBonus m BonusType.speedUp gm).bind (applyBonus m BonusType.speedDown)).bind
        Game.ballSpeed = some (b.speed * 1.2 * 0.8) ∧ b.speed * 1.2 * 0.8 = 0.96 * b.speed) := by
  rw [applyBonus_speedUp m gm b hb]
  simp only [Option.some_bind]
  rw [applyBonus_speedUp m _ (Ball.normalizeVelocity m { b with speed := b.speed * 1.2 }) rfl,
    applyBonus_speedDown m _ (Ball.normalizeVelocity m { b with speed := b.speed * 1.2 }) rfl]
  simp only [Option.some_bind, Game.ballSpeed, Option.map_some', normalizeVelocity_speed]
  refine ⟨⟨trivial, ?_⟩, trivial, ?_⟩
  · norm_num
    ring
  · norm_num
    ring

/-- Witness of C13 as amended: the ball of `sampleGame`, of speed 6. -/
theorem speed_bonuses_compound_witness :
    ((applyBonus realMath BonusType.speedUp sampleGame).bind
        (applyBonus realMath BonusType.speedUp)).bind Game.ballSpeed
      = some ((centreBall ℝ).speed * 1.2 * 1.2) :=
  (speed_bonuses_compound realMath sampleGame (centreBall ℝ) rfl).1.1

/-- Counterexample to C13 as stated: the ball of `sampleGame` has speed 6;
after two `applyBonus(SPEED_UP)` its speed is 8.64, not `1.2 * 6 = 7.2`, and
after `SPEED_UP` then `SPEED_DOWN` it is 5.76, not `0.8 * 6 = 4.8`. -/
theorem speed_bonuses_not_from_base :
    (centreBall ℝ).speed = 6 ∧
    ((applyBonus realMath BonusType.speedUp sampleGame).bind
        (applyBonus realMath BonusType.speedUp)).bind Game.ballSpeed = some 8.64 ∧
    (8.64 : ℝ) ≠ 1.2 * 6 ∧
    ((applyBonus realMath BonusType.speedUp sampleGame).bind
        (applyBonus realMath BonusType.speedDown)).bind Game.ballSpeed = some 5.76 ∧
    (5.76 : ℝ) ≠ 0.8 * 6 := by
  have e := applyBonus_speedUp realMath sampleGame (centreBall ℝ) rfl
  rw [e]
  simp only [Option.some_bind]
  rw [applyBonus_speedUp realMath _
      (Ball.normalizeVelocity realMath { centreBall ℝ with speed := (centreBall ℝ).speed * 1.2 }) rfl,
    applyBonus_speedDown realMath _
      (Ball.normalizeVelocity realMath { centreBall ℝ with speed := (centreBall ℝ).speed * 1.2 }) rfl]
  simp only [Option.some_bind, Game.ballSpeed, Option.map_some', normalizeVelocity_speed]
  refine ⟨rfl, ?_, by norm_num, ?_, by norm_num⟩
  · norm_num [centreBall, Ball.new]
  · norm_num [centreBall, Ball.new]

theorem rescale_eq (b : Ball ℝ) (k : ℝ) (hs : 0 < b.speed)
    (hv : b.velocityX ^ 2 + b.velocityY ^ 2 = b.speed ^ 2) :
    Ball.normalizeVelocity realMath { b with speed := b.speed * k }
      = { b with speed := k * b.speed, velocityX := k * b.velocityX,
                 velocityY := k * b.velocityY } := by
  have hq : b.velocityX * b.velocityX + b.velocityY * b.velocityY = b.speed ^ 2 := by
    rw [← hv]; ring
  have hcs : Real.sqrt (b.velocityX * b.velocityX + b.velocityY * b.velocityY) = b.speed := by
    rw [hq, Real.sqrt_sq hs.le]
  have hne : b.speed ≠ 0 := hs.ne'
  have e1 : b.velocityX / b.speed * (k * b.speed) = k * b.velocityX := by
    field_simp
    ring
  have e2 : b.velocityY / b.speed * (k * b.speed) = k * b.velocityY := by
    field_simp
    ring
  simp only [Ball.normalizeVelocity, realMath, hcs, gt_iff_lt, hs, if_true, mul_comm b.speed k]
  rw [e1, e2]

/-- C14: for every ball with positive speed whose velocity has magnitude
equal to its speed (launched or not), `applyBonus(SPEED_UP)` returns the game
with nothing changed but the ball's speed, now `1.2 * speed`, and its
velocity, now exactly 1.2 times the old vector, whose magnitude is the new
speed; `applyBonus(SPEED_DOWN)` does the same with the factor 0.8. -/
theorem speed_bonus_scales_velocity (gm : Game ℝ) (b : Ball ℝ) (hb : gm.ball = some b)
    (hs : 0 < b.speed) (hv : b.velocityX ^ 2 + b.velocityY ^ 2 = b.speed ^ 2) :
    applyBonus realMath BonusType.speedUp gm
      = some { gm with ball := some { b with speed := 1.2 * b.speed,
                                             velocityX := 1.2 * b.velocityX,
                                             velocityY := 1.2 * b.velocityY } } ∧
    (1.2 * b.velocityX) ^ 2 + (1.2 * b.velocityY) ^ 2 = (1.2 * b.speed) ^ 2 ∧
    applyBonus realMath BonusType.speedDown gm
      = some { gm with ball := some { b with speed := 0.8 * b.speed,
                                             velocityX := 0.8 * b.velocityX,
                                             velocityY := 0.8 * b.velocityY } } ∧
    (0.8 * b.velocityX) ^ 2 + (0.8 * b.velocityY) ^ 2 = (0.8 * b.speed) ^ 2 := by
  refine ⟨?_, ?_, ?_, ?_⟩
  · rw [applyBonus_speedUp realMath gm b hb, rescale_eq b 1.2 hs hv]
  · linear_combination ((1.2 : ℝ) ^ 2) * hv
  · rw [applyBonus_speedDown realMath gm b hb, rescale_eq b 0.8 hs hv]
  · linear_combination ((0.8 : ℝ) ^ 2) * hv

/-- Witness of C14: the ball of `sampleGame`, moving at its speed 6. -/
theorem speed_bonus_scales_velocity_witness :
    applyBonus realMath BonusType.speedUp sampleGame
      = some { sampleGame with
          ball := some { centreBall ℝ with
            speed := 1.2 * (centreBall ℝ).speed
            velocityX := 1.2 * (centreBall ℝ).velocityX
            velocityY := 1.2 * (centreBall ℝ).velocityY } } :=
  (speed_bonus_scales_velocity sampleGame (centreBall ℝ) rfl
    (by norm_num [centreBall, Ball.new]) (by norm_num [centreBall, Ball.new])).1

/-- C15: for every game with `ballsRemaining ≤ MAX_BALLS`,
`applyBonus(EXTRA_BALL)` returns the game with `ballsRemaining` set to
`min (ballsRemaining + 1) MAX_BALLS` and every other field (score, level,
state, paddle, ball, blocks, aim angle, input) unchanged; at the cap the
game is returned as it was. -/
theorem extra_ball_spec (m : JSMath α) (gm : Game α) (h : gm.ballsRemaining ≤ MAX_BALLS) :
    applyBonus m BonusType.extraBall gm
      = some { gm with ballsRemaining := min (gm.ballsRemaining + 1) MAX_BALLS } ∧
    (gm.ballsRemaining = MAX_BALLS → applyBonus m BonusType.extraBall gm = some gm) := by
  constructor
  · by_cases hlt : gm.ballsRemaining < MAX_BALLS
    · have hmin : min (gm.ballsRemaining + 1) MAX_BALLS = gm.ballsRemaining + 1 :=
        min_eq_left (by omega)
      simp [applyBonus, hlt, hmin]
    · have heq : gm.ballsRemaining = MAX_BALLS := le_antisymm h (not_lt.mp hlt)
      have hmin : min (gm.ballsRemaining + 1) MAX_BALLS = gm.ballsRemaining := by
        rw [heq]
        exact min_eq_right (by omega)
      simp only [applyBonus, hlt, if_false, hmin]
  · intro heq
    have hlt : ¬ gm.ballsRemaining < MAX_BALLS := by rw [heq]; exact lt_irrefl _
    simp only [applyBonus, hlt, if_false]

/-- Witness of C15: `sampleGame`, with one ball remaining. -/
theorem extra_ball_spec_witness :
    applyBonus realMath BonusType.extraBall sampleGame
      = some { sampleGame with
          ballsRemaining := min (sampleGame.ballsRemaining + 1) MAX_BALLS } :=
  (extra_ball_spec realMath sampleGame (by decide)).1

end SpeedBonusProperties

section GeneratorProperties

variable {α : Type} [LinearOrderedField α] [FloorRing α]

theorem new_rng (g : Rng α) (x y w h : α) (type : BlockType) (hp : Int) :
    (Block.new g x y w h type hp).2
      = { g with pos := g.pos + (if type = BlockType.bonus then 2 else 1) } := by
  unfold Block.new
  simp only [Rng.random]
  split <;> simp [*]

theorem new_fields (g : Rng α) (x y w h : α) (type : BlockType) (hp : Int) :
    (Block.new g x y w h type hp).1.x = x ∧ (Block.new g x y w h type hp).1.y = y ∧
    (Block.new g x y w h type hp).1.width = w ∧ (Block.new g x y w h type hp).1.height = h ∧
    (Block.new g x y w h type hp).1.type = type ∧
    (Block.new g x y w h type hp).1.hitPoints = hp ∧
    (Block.new g x y w h type hp).1.color
      = floorIndex (BLOCK_COLORS type) (g.draws g.pos * ((BLOCK_COLORS type).length : α)) := by
  unfold Block.new
  simp only [Rng.random]
  split <;> simp

theorem generateCell_rng (level : Int) (row col : Nat) (g : Rng α) :
    (generateCell level row col g).2 = { g with pos := g.pos + 3 } := by
  simp only [generateCell, Rng.random]
  split_ifs <;> simp [new_rng]

theorem floor_div_three (level : Int) : ⌊(level : α) / 3⌋ = level / 3 := by
  have h1 := Int.emod_add_ediv level 3
  have h2 := Int.emod_nonneg level (by norm_num : (3 : Int) ≠ 0)
  have h3 := Int.emod_lt_of_pos level (by norm_num : (0 : Int) < 3)
  rw [Int.floor_eq_iff]
  have c1 : ((level / 3 : Int) : α) * 3 ≤ (level : α) := by
    exact_mod_cast (by omega : level / 3 * 3 ≤ level)
  have c2 : (level : α) < (((level / 3 : Int) : α) + 1) * 3 := by
    exact_mod_cast (by omega : level < (level / 3 + 1) * 3)
  constructor
  · rw [le_div_iff₀ (by norm_num : (0 : α) < 3)]
    exact c1
  · rw [div_lt_iff₀ (by norm_num : (0 : α) < 3)]
    exact c2

theorem cols_fold (level : Int) (row : Nat) (n : Nat) (bs : List (Block α)) (g : Rng α) :
    (List.range n).foldl
        (fun (acc : List (Block α) × Rng α) col =>
          let (b, g1) := generateCell level row col acc.2
          (acc.1 ++ [b], g1))
        (bs, g)
      = (bs ++ (List.range n).map
            (fun col => (generateCell level row col { g with pos := g.pos + 3 * col }).1),
          { g with pos := g.pos + 3 * n }) := by
  induction n with
  | zero => simp
  | succ n ih =>
    rw [List.range_succ, List.foldl_append, ih]
    simp only [List.foldl_cons, List.foldl_nil, List.map_append, List.map_cons, List.map_nil]
    have hr := generateCell_rng level row n { g with pos := g.pos + 3 * n }
    rcases hc : generateCell level row n { g with pos := g.pos + 3 * n } with ⟨b, g1⟩
    rw [hc] at hr
    simp only at hr
    subst hr
    simp [List.append_assoc, Nat.mul_succ, Nat.add_assoc]

theorem rows_fold (level : Int) (n : Nat) (bs : List (Block α)) (g : Rng α) :
    (List.range n).foldl
        (fun (acc : List (Block α) × Rng α) row =>
          (List.range COLS).foldl
            (fun (acc : List (Block α) × Rng α) col =>
              let (b, g1) := generateCell level row col acc.2
              (acc.1 ++ [b], g1))
            acc)
        (bs, g)
      = (bs ++ (List.range n).flatMap
            (fun row => (List.range COLS).map (fun col => cellAt level g row col)),
          { g with pos := g.pos + 3 * (n * COLS) }) := by
  induction n with
  | zero => simp
  | succ n ih =>
    rw [List.range_succ, List.foldl_append, ih]
    simp only [List.foldl_cons, List.foldl_nil, cols_fold, List.flatMap_append,
      List.flatMap_cons, List.flatMap_nil, List.append_nil, List.append_assoc, cellAt]
    refine Prod.ext ?_ ?_
    · simp only [Nat.mul_add, Nat.add_assoc]
    · simp only [Rng.mk.injEq, true_and]
      ring

theorem generateBlocks_eq (level : Int) (g : Rng α) :
    generateBlocks level g
      = ((List.range (ROWS * COLS)).map (fun i => cellAt level g (i / COLS) (i % COLS)),
          { g with pos := g.pos + 3 * (ROWS * COLS) }) := by
  unfold generateBlocks
  rw [rows_fold]
  refine Prod.ext ?_ rfl
  simp only [List.nil_append]
  rfl

theorem generateLevel_blocks (level : Int) (g : Rng α) :
    (generateLevel level g).1
      = (List.range (ROWS * COLS)).map (fun i => cellAt level g (i / COLS) (i % COLS)) := by
  simp only [generateLevel, generateBlocks_eq]

theorem generateLevel_get (level : Int) (g : Rng α) (row col : Nat) (hr : row < ROWS)
    (hc : col < COLS) :
    (generateLevel level g).1.get? (row * COLS + col) = some (cellAt level g row col) := by
  have hlt : row * COLS + col < ROWS * COLS := by
    simp only [ROWS, COLS] at *
    omega
  have hdiv : (row * COLS + col) / COLS = row := by
    simp only [COLS] at *
    omega
  have hmod : (row * COLS + col) % COLS = col := by
    simp only [COLS] at *
    omega
  rw [generateLevel_blocks, List.get?_eq_getElem?, List.getElem?_map,
    List.getElem?_range hlt]
  simp only [Option.map_some', hdiv, hmod]

theorem cellAt_type (level : Int) (g : Rng α) (row col : Nat) :
    ((cellAt level g row col).type = BlockType.bonus ↔
      g.draws (g.pos + 3 * (row * COLS + col)) < 0.1) ∧
    (g.draws (g.pos + 3 * (row * COLS + col)) < 0.1 →
      (cellAt level g row col).hitPoints = 1 ∧
      (cellAt level g row col).color
        = floorIndex (BLOCK_COLORS BlockType.bonus)
            (g.draws (g.pos + 3 * (row * COLS + col) + 1) * 3)) ∧
    (¬ g.draws (g.pos + 3 * (row * COLS + col)) < 0.1 →
      ((cellAt level g row col).type = BlockType.hard ↔
        g.draws (g.pos + 3 * (row * COLS + col) + 1) < 0.1 + (level : α) * 0.05) ∧
      ((cellAt level g row col).type = BlockType.hard →
        (cellAt level g row col).hitPoints = min 3 (1 + ⌊(level : α) / 3⌋)) ∧
      ((cellAt level g row col).type ≠ BlockType.hard →
        (cellAt level g row col).type = BlockType.normal ∧
        (cellAt level g row col).hitPoints = 1) ∧
      (cellAt level g row col).color
        = floorIndex (BLOCK_COLORS (cellAt level g row col).type)
            (g.draws (g.pos + 3 * (row * COLS + col) + 2)
              * ((BLOCK_COLORS (cellAt level g row col).type).length : α))) := by
  simp only [cellAt, generateCell, Rng.random]
  by_cases h1 : g.draws (g.pos + 3 * (row * COLS + col)) < 0.1
  · simp [h1, new_fields, BLOCK_COLORS]
  · by_cases h2 : g.draws (g.pos + 3 * (row * COLS + col) + 1) < 0.1 + (level : α) * 0.05
    · simp [h1, h2, new_fields]
    · simp [h1, h2, new_fields]

/-- C16: with the random draws as inputs, the block that `generateLevel(L)`
puts at index `row * COLS + col` is the cell `(row, col)`, whose first draw
`r1` is the draw number `3 * (row * COLS + col)` from the start.  The cell is
bonus iff `r1 < 0.1`, and then has 1 hit point and the next draw picks its
colour (it is not a type roll).  Otherwise the next draw `r2` is the hard
roll: the cell is hard iff `r2 < 0.1 + L * 0.05`, with
`min 3 (1 + floor(L / 3))` hit points, else normal with 1 hit point, and the
draw after `r2` picks the colour.  At level 1 the hard gate is `0.15`. -/
theorem generateLevel_cell_types (level : Int) (g : Rng α) (row col : Nat) (hr : row < ROWS)
    (hc : col < COLS) :
    (generateLevel level g).1.get? (row * COLS + col) = some (cellAt level g row col) ∧
    ((cellAt level g row col).type = BlockType.bonus ↔
      g.draws (g.pos + 3 * (row * COLS + col)) < 0.1) ∧
    (g.draws (g.pos + 3 * (row * COLS + col)) < 0.1 →
      (cellAt level g row col).hitPoints = 1 ∧
      (cellAt level g row col).color
        = floorIndex (BLOCK_COLORS BlockType.bonus)
            (g.draws (g.pos + 3 * (row * COLS + col) + 1) * 3)) ∧
    (¬ g.draws (g.pos + 3 * (row * COLS + col)) < 0.1 →
      ((cellAt level g row col).type = BlockType.hard ↔
        g.draws (g.pos + 3 * (row * COLS + col) + 1) < 0.1 + (level : α) * 0.05) ∧
      ((cellAt level g row col).type = BlockType.hard →
        (cellAt level g row col).hitPoints = min 3 (1 + ⌊(level : α) / 3⌋) ∧
        (cellAt level g row col).hitPoints = min 3 (1 + level / 3)) ∧
      ((cellAt level g row col).type ≠ BlockType.hard →
        (cellAt level g row col).type = BlockType.normal ∧
        (cellAt level g row col).hitPoints = 1) ∧
      (cellAt level g row col).color
        = floorIndex (BLOCK_COLORS (cellAt level g row col).type)
            (g.draws (g.pos + 3 * (row * COLS + col) + 2)
              * ((BLOCK_COLORS (cellAt level g row col).type).length : α))) ∧
    (¬ g.draws (g.pos + 3 * (row * COLS + col)) < 0.1 →
      ((cellAt 1 g row col).type = BlockType.hard ↔
        g.draws (g.pos + 3 * (row * COLS + col) + 1) < 0.15)) := by
  obtain ⟨t1, t2, t3⟩ := cellAt_type level g row col
  refine ⟨generateLevel_get level g row col hr hc, t1, t2, ?_, ?_⟩
  · intro h1
    obtain ⟨a1, a2, a3, a4⟩ := t3 h1
    refine ⟨a1, ?_, a3, a4⟩
    intro hh
    have := a2 hh
    exact ⟨this, by rw [this, floor_div_three]⟩
  · intro h1
    obtain ⟨-, -, u3⟩ := cellAt_type 1 g row col
    have := (u3 h1).1
    rw [this]
    norm_num

/-- Witness of C16: the first cell of level 1 on the stream of zero draws. -/
theorem generateLevel_cell_types_witness :
    (generateLevel 1 sampleRng).1.get? (0 * COLS + 0) = some (cellAt 1 sampleRng 0 0) :=
  (generateLevel_cell_types 1 sampleRng 0 0 (by decide) (by decide)).1

theorem cellAt_x (level : Int) (g : Rng α) (row col : Nat) :
    (cellAt level g row col).x = -20 / 11 + (col : α) * (548 / 11) ∧
      (cellAt level g row col).width = 50 := by
  have hx : (CANVAS_WIDTH α - (COLS : α) * BLOCK_WIDTH α) / ((COLS : α) + 1)
      + (col : α) * (BLOCK_WIDTH α
          + (CANVAS_WIDTH α - (COLS : α) * BLOCK_WIDTH α) / ((COLS : α) + 1) / (COLS : α))
      = -20 / 11 + (col : α) * (548 / 11) := by
    simp only [CANVAS_WIDTH, BLOCK_WIDTH, COLS]
    norm_num
  simp only [cellAt, generateCell, Rng.random]
  split_ifs <;> (simp only [new_fields]; exact ⟨hx, rfl⟩)

/-- C17, the code on every level: `generateLevel` makes 60 blocks, each 50
wide, and in every row column `col` is at `x = -20/11 + col * 548/11`.  So
the first block of the level and of every row starts left of the playfield
(`x = -20/11 < 0`), the block of column 9 ends right of it
(`5462/11 > CANVAS_WIDTH = 480`), the left margin differs from the right
margin, and each block overlaps the next one by `2/11` (the common gap is
`-2/11`). -/
theorem grid_off_centre (level : Int) (g : Rng α) (row : Nat) :
    (generateLevel level g).1.length = 60 ∧
    (generateLevel level g).1.get? 0 = some (cellAt level g 0 0) ∧
    (∀ col : Nat, (cellAt level g row col).x = -20 / 11 + (col : α) * (548 / 11) ∧
      (cellAt level g row col).width = 50) ∧
    (cellAt level g row 0).x < 0 ∧
    (cellAt level g row 9).x + (cellAt level g row 9).width = 5462 / 11 ∧
    CANVAS_WIDTH α < (cellAt level g row 9).x + (cellAt level g row 9).width ∧
    (cellAt level g row 0).x
      ≠ CANVAS_WIDTH α - ((cellAt level g row 9).x + (cellAt level g row 9).width) ∧
    (∀ col : Nat, (cellAt level g row (col + 1)).x
        - ((cellAt level g row col).x + (cellAt level g row col).width) = -2 / 11) := by
  refine ⟨?_, generateLevel_get level g 0 0 (by decide) (by decide), cellAt_x level g row,
    ?_, ?_, ?_, ?_, ?_⟩
  · rw [generateLevel_blocks]
    simp [ROWS, COLS]
  · rw [(cellAt_x level g row 0).1]
    norm_num
  · rw [(cellAt_x level g row 9).1, (cellAt_x level g row 9).2]
    norm_num
  · rw [(cellAt_x level g row 9).1, (cellAt_x level g row 9).2]
    norm_num [CANVAS_WIDTH]
  · rw [(cellAt_x level g row 9).1, (cellAt_x level g row 9).2, (cellAt_x level g row 0).1]
    norm_num [CANVAS_WIDTH]
  · intro col
    rw [(cellAt_x level g row (col + 1)).1, (cellAt_x level g row col).1,
      (cellAt_x level g row col).2]
    push_cast
    ring

end GeneratorProperties

section FlowProperties

variable {α : Type} [LinearOrderedField α] [FloorRing α]

/-- C18: `Game.ballLost()` takes exactly 1 from `ballsRemaining`.  If the
result is `≤ 0` it returns the game with that count and the state
`GAME_OVER`, everything else (score and level included) unchanged.
Otherwise, on a game with a paddle, it returns the game with that count,
the state `READY` and a fresh ball from `createBall`, everything else
unchanged; the fresh ball is not launched, has zero velocity, is centred on
the paddle and rests on its top edge.  From `ballsRemaining = 1` the
result is `GAME_OVER` with the score unchanged. -/
theorem ballLost_spec (gm : Game α) :
    (gm.ballsRemaining - 1 ≤ 0 →
      gm.ballLost = some { gm with ballsRemaining := gm.ballsRemaining - 1,
                                   state := GameStatus.gameOver }) ∧
    (∀ p : Paddle α, gm.paddle = some p → ¬ gm.ballsRemaining - 1 ≤ 0 →
      gm.ballLost = some { gm with ballsRemaining := gm.ballsRemaining - 1,
                                   state := GameStatus.ready,
                                   ball := some (createBall p) } ∧
      (createBall p).isLaunched = false ∧
      (createBall p).velocityX = 0 ∧ (createBall p).velocityY = 0 ∧
      (createBall p).x = p.x + p.width / 2 ∧
      (createBall p).y + (createBall p).radius = p.y) ∧
    (gm.ballsRemaining = 1 →
      gm.ballLost = some { gm with ballsRemaining := 0, state := GameStatus.gameOver } ∧
      (gm.ballLost.map fun g1 => g1.score) = some gm.score) := by
  refine ⟨?_, ?_, ?_⟩
  · intro h
    simp [Game.ballLost, h, Game.gameOver]
  · intro p hp h
    refine ⟨?_, rfl, rfl, rfl, rfl, ?_⟩
    · simp [Game.ballLost, h, hp]
    · simp [createBall, Ball.new]
  · intro h1
    have h : gm.ballsRemaining - 1 ≤ 0 := by omega
    have h0 : gm.ballsRemaining - 1 = 0 := by omega
    have e : gm.ballLost
        = some { gm with ballsRemaining := 0, state := GameStatus.gameOver } := by
      simp [Game.ballLost, h, Game.gameOver, h0]
    exact ⟨e, by rw [e]; rfl⟩

/-- C20: `Game.startNextLevel()` returns the game with `level + 1`,
`score + 50`, the state `READY`, and the blocks, the paddle and the random
stream of `generateLevel(level + 1)` with a fresh ball from `createBall` on
that paddle; `ballsRemaining` (like the aim angle and the input) is
unchanged.  The new paddle is the start paddle (`x = 190`, `y = 590`, 100
wide), there are 60 new blocks, and the new ball is not launched, has zero
velocity, is centred on the paddle and rests on its top edge. -/
theorem startNextLevel_spec (gm : Game α) :
    gm.startNextLevel
      = { gm with
          level := gm.level + 1
          score := gm.score + 50
          state := GameStatus.ready
          blocks := (generateLevel (gm.level + 1) gm.rng).1
          paddle := some (generateLevel (gm.level + 1) gm.rng).2.1
          ball := some (createBall (generateLevel (gm.level + 1) gm.rng).2.1)
          rng := (generateLevel (gm.level + 1) gm.rng).2.2 } ∧
    gm.startNextLevel.ballsRemaining = gm.ballsRemaining ∧
    gm.startNextLevel.level = gm.level + 1 ∧
    gm.startNextLevel.score = gm.score + 50 ∧
    gm.startNextLevel.state = GameStatus.ready ∧
    gm.startNextLevel.blocks.length = 60 ∧
    (generateLevel (gm.level + 1) gm.rng).2.1 = Paddle.new 190 590 100 15 ∧
    (createBall (generateLevel (gm.level + 1) gm.rng).2.1).isLaunched = false ∧
    (createBall (generateLevel (gm.level + 1) gm.rng).2.1).velocityX = 0 ∧
    (createBall (generateLevel (gm.level + 1) gm.rng).2.1).velocityY = 0 ∧
    (createBall (generateLevel (gm.level + 1) gm.rng).2.1).x
      = (generateLevel (gm.level + 1) gm.rng).2.1.x
        + (generateLevel (gm.level + 1) gm.rng).2.1.width / 2 ∧
    (createBall (generateLevel (gm.level + 1) gm.rng).2.1).y
        + (createBall (generateLevel (gm.level + 1) gm.rng).2.1).radius
      = (generateLevel (gm.level + 1) gm.rng).2.1.y := by
  have e : gm.startNextLevel
      = { gm with
          level := gm.level + 1
          score := gm.score + 50
          state := GameStatus.ready
          blocks := (generateLevel (gm.level + 1) gm.rng).1
          paddle := some (generateLevel (gm.level + 1) gm.rng).2.1
          ball := some (createBall (generateLevel (gm.level + 1) gm.rng).2.1)
          rng := (generateLevel (gm.level + 1) gm.rng).2.2 } := by
    simp only [Game.startNextLevel, Game.loadLevel]
  have hp : (generateLevel (gm.level + 1) gm.rng).2.1 = Paddle.new 190 590 100 15 := by
    simp only [generateLevel, CANVAS_WIDTH, CANVAS_HEIGHT, PADDLE_WIDTH, PADDLE_HEIGHT]
    norm_num
  refine ⟨e, ?_, ?_, ?_, ?_, ?_, hp, rfl, rfl, rfl, rfl, ?_⟩
  · rw [e]
  · rw [e]
  · rw [e]
  · rw [e]
  · rw [e]
    show (generateLevel (gm.level + 1) gm.rng).1.length = 60
    rw [generateLevel_blocks]
    simp [ROWS, COLS]
  · simp [createBall, Ball.new]

end FlowProperties

section LaunchProperties

/-- C19: `Game.launchBall()` returns the game unchanged whenever the state is
not `READY` or there is no ball; when the state is `READY` and there is a
ball, it returns the game with the state `PLAYING` and the ball launched
with velocity `(cos(aimAngle) * speed, -sin(aimAngle) * speed)`, everything
else unchanged; with `aimAngle = π/2` that velocity is `(0, -speed)`,
straight up. -/
theorem launchBall_spec (gm : Game ℝ) :
    ((gm.state ≠ GameStatus.ready ∨ gm.ball = none) → gm.launchBall realMath = gm) ∧
    (∀ b : Ball ℝ, gm.state = GameStatus.ready → gm.ball = some b →
      gm.launchBall realMath
        = { gm with
            state := GameStatus.playing
            ball := some { b with
              velocityX := Real.cos gm.aimAngle * b.speed
              velocityY := -Real.sin gm.aimAngle * b.speed
              isLaunched := true } }) ∧
    (∀ b : Ball ℝ, gm.state = GameStatus.ready → gm.ball = some b →
      gm.aimAngle = Real.pi / 2 →
      gm.launchBall realMath
        = { gm with
            state := GameStatus.playing
            ball := some { b with
              velocityX := 0
              velocityY := -b.speed
              isLaunched := true } }) := by
  have main : ∀ b : Ball ℝ, gm.state = GameStatus.ready → gm.ball = some b →
      gm.launchBall realMath
        = { gm with
            state := GameStatus.playing
            ball := some { b with
              velocityX := Real.cos gm.aimAngle * b.speed
              velocityY := -Real.sin gm.aimAngle * b.speed
              isLaunched := true } } := by
    intro b hs hb
    simp [Game.launchBall, hb, hs, Ball.launch, realMath]
  refine ⟨?_, main, ?_⟩
  · rintro (h | h)
    · unfold Game.launchBall
      cases hb : gm.ball with
      | none => rfl
      | some b => simp [h]
    · simp [Game.launchBall, h]
  · intro b hs hb ha
    rw [main b hs hb, ha, Real.cos_pi_div_two, Real.sin_pi_div_two]
    simp

end LaunchProperties

section HitPointProperties

variable {α : Type} [LinearOrderedField α] [FloorRing α]

theorem hit_hitPoints (b : Block α) (g : Rng α) :
    (b.hit g).2.1.hitPoints = b.hitPoints - 1 := by
  by_cases h : b.hitPoints - 1 ≤ 0
  · simp only [Block.hit, h, if_true]
    exact (createBreakEffect_hitPoints _ g).1
  · simp only [Block.hit, h, if_false]

/-- C23 as amended: `Block.hit()` does not clamp; on every block (any hit
points, active or not) it takes exactly 1 from `hitPoints`.  So after
`hit()` the hit points are `≥ 0` for every block that had at least 1 hit
point, as has every block the collision system hits (it skips inactive
blocks, and a block stays active only while its hit points are positive). -/
theorem hit_nonneg_of_pos (b : Block α) (g : Rng α) (h : 1 ≤ b.hitPoints) :
    0 ≤ (b.hit g).2.1.hitPoints ∧ (b.hit g).2.1.hitPoints = b.hitPoints - 1 := by
  rw [hit_hitPoints]
  exact ⟨by omega, rfl⟩

/-- Witness of C23 as amended: a fresh hard block with 2 hit points. -/
theorem hit_nonneg_of_pos_witness :
    0 ≤ ((Block.new sampleRng 0 0 50 20 BlockType.hard 2).1.hit sampleRng).2.1.hitPoints ∧
      ((Block.new sampleRng 0 0 50 20 BlockType.hard 2).1.hit sampleRng).2.1.hitPoints
        = (Block.new sampleRng 0 0 50 20 BlockType.hard 2).1.hitPoints - 1 :=
  hit_nonneg_of_pos (Block.new sampleRng 0 0 50 20 BlockType.hard 2).1 sampleRng
    (by simp [Block.new, Rng.random])

/-- Counterexample to C23 as stated: `hit()` on a block whose hit points are
0 (a destroyed normal block: built with 1 hit point and hit once) leaves
`hitPoints = -1`, below 0. -/
theorem hit_goes_negative :
    ((Block.new sampleRng 0 0 50 20 BlockType.normal 1).1.hit sampleRng).2.1.hitPoints = 0 ∧
    ((Block.new sampleRng 0 0 50 20 BlockType.normal 1).1.hit sampleRng).2.1.isActive = false ∧
    ((((Block.new sampleRng 0 0 50 20 BlockType.normal 1).1.hit sampleRng).2.1.hit
        sampleRng).2.1.hitPoints = -1) ∧
    ¬ (0 ≤ (((Block.new sampleRng 0 0 50 20 BlockType.normal 1).1.hit sampleRng).2.1.hit
        sampleRng).2.1.hitPoints) := by
  have h1 : ((Block.new sampleRng 0 0 50 20 BlockType.normal 1).1.hit sampleRng).2.1.hitPoints
      = 0 := by
    rw [hit_hitPoints]
    simp [Block.new, Rng.random]
  have h2 : ((((Block.new sampleRng 0 0 50 20 BlockType.normal 1).1.hit sampleRng).2.1.hit
      sampleRng).2.1.hitPoints = -1) := by
    rw [hit_hitPoints, h1]
    rfl
  refine ⟨h1, ?_, h2, ?_⟩
  · have hle : (Block.new sampleRng 0 0 50 20 BlockType.normal 1).1.hitPoints - 1 ≤ 0 := by
      simp [Block.new, Rng.random]
    simp only [Block.hit, hle, if_true]
    exact (createBreakEffect_hitPoints _ sampleRng).2
  · rw [h2]
    decide

end HitPointProperties

section UnlaunchedProperties

variable {α : Type} [LinearOrderedField α] [FloorRing α]

theorem collideBlock_inactive (m : JSMath α) (gm : Game α) (block : Block α)
    (h : block.isActive = false) : Game.collideBlock m gm block = some (gm, block) := by
  unfold Game.collideBlock
  cases hb : gm.ball with
  | none => simp [h]
  | some ball =>
    simp only [handleBallBlockCollision, h, Bool.not_false, Bool.true_or, if_true]
    simp only [Bool.false_eq_true, if_false]
    have : ({ gm with ball := some ball } : Game α) = gm := by
      cases gm
      simp_all
    rw [this]

/-- C26: when the block is inactive or the ball is not launched,
`handleBallBlockCollision` returns `false`, leaves the ball, the block and
the random stream as they were and does not run the destroy callback, and
one iteration of the sweep on an inactive block leaves the whole game and
the block unchanged (no hit, no score); `Ball.update()` and
`handleBallPaddleCollision` return an unlaunched ball unchanged, the latter
with the result `false`. -/
theorem unlaunched_or_inactive_untouched (m : JSMath α) (ball : Ball α) (block : Block α)
    (paddle : Paddle α) (g : Rng α) :
    ((block.isActive = false ∨ ball.isLaunched = false) →
      handleBallBlockCollision ball block g
        = { collided := false, ball := ball, block := block, rng := g, destroyed := false }) ∧
    (∀ gm : Game α, block.isActive = false → Game.collideBlock m gm block = some (gm, block)) ∧
    (ball.isLaunched = false → ball.update m = ball) ∧
    (ball.isLaunched = false → handleBallPaddleCollision m ball paddle = (false, ball)) := by
  refine ⟨?_, fun gm h => collideBlock_inactive m gm block h, ?_, ?_⟩
  · rintro (h | h)
    · simp [handleBallBlockCollision, h]
    · simp [handleBallBlockCollision, h]
  · intro h
    simp [Ball.update, h]
  · intro h
    simp [handleBallPaddleCollision, h]

end UnlaunchedProperties

section EasingProperties

variable {α : Type} [LinearOrderedField α] [FloorRing α]

/-- C27: for every paddle whose `x` and `targetX` both lie in
`[0, CANVAS_WIDTH - width]`, `Paddle.update()` sets `x` to
`x + 0.2 * (targetX - x)`; the remaining distance to the target is exactly
0.8 of what it was; the new `x` lies between the old `x` and the target (no
overshoot); and it equals the target only if the old `x` did. -/
theorem paddle_update_eases (p : Paddle α) (hx0 : 0 ≤ p.x)
    (hx1 : p.x ≤ CANVAS_WIDTH α - p.width) (ht0 : 0 ≤ p.targetX)
    (ht1 : p.targetX ≤ CANVAS_WIDTH α - p.width) :
    p.update.x = p.x + 0.2 * (p.targetX - p.x) ∧
    p.targetX - p.update.x = 0.8 * (p.targetX - p.x) ∧
    |p.targetX - p.update.x| = 0.8 * |p.targetX - p.x| ∧
    (p.x ≤ p.targetX → p.x ≤ p.update.x ∧ p.update.x ≤ p.targetX) ∧
    (p.targetX ≤ p.x → p.targetX ≤ p.update.x ∧ p.update.x ≤ p.x) ∧
    (p.update.x = p.targetX ↔ p.x = p.targetX) ∧
    p.update.targetX = p.targetX := by
  have e2 : (0.2 : α) = 1 / 5 := by norm_num
  have e8 : (0.8 : α) = 4 / 5 := by norm_num
  have hlo : 0 ≤ p.x + (p.targetX - p.x) * 0.2 := by
    rw [e2]
    linarith
  have hhi : p.x + (p.targetX - p.x) * 0.2 ≤ CANVAS_WIDTH α - p.width := by
    rw [e2]
    linarith
  have hx : p.update.x = p.x + (p.targetX - p.x) * 0.2 := by
    simp only [Paddle.update]
    rw [min_eq_right hhi, max_eq_right hlo]
  have hrem : p.targetX - p.update.x = 0.8 * (p.targetX - p.x) := by
    rw [hx, e2, e8]
    ring
  refine ⟨?_, hrem, ?_, ?_, ?_, ?_, rfl⟩
  · rw [hx]
    ring
  · rw [hrem, abs_mul, abs_of_pos (by norm_num : (0 : α) < 0.8)]
  · intro h
    rw [hx, e2]
    constructor <;> linarith
  · intro h
    rw [hx, e2]
    constructor <;> linarith
  · rw [hx, e2]
    constructor
    · intro h
      linarith
    · intro h
      rw [h]
      ring

/-- Witness of C27: the paddle of a fresh level with the target 100. -/
theorem paddle_update_eases_witness :
    ({ levelPaddle ℚ with targetX := 100 } : Paddle ℚ).update.x
      = (levelPaddle ℚ).x + 0.2 * (100 - (levelPaddle ℚ).x) :=
  (paddle_update_eases ({ levelPaddle ℚ with targetX := 100 } : Paddle ℚ)
    (by norm_num [levelPaddle, Paddle.new])
    (by norm_num [levelPaddle, Paddle.new, CANVAS_WIDTH])
    (by norm_num [levelPaddle, Paddle.new])
    (by norm_num [levelPaddle, Paddle.new, CANVAS_WIDTH])).1

/-- C29: whenever `input.mouseX` is defined, `handlePaddleControl` returns
the paddle with `targetX = input.mouseX - paddle.width / 2` and every other
field as it was, whatever the left/right flags and the previous `targetX`
are; that target is not clamped: it is negative when the pointer is less than
half a paddle width from the left edge and beyond `CANVAS_WIDTH - width` when
it is less than half a paddle width from the right edge. -/
theorem pointer_overrides_keys (paddle : Paddle α) (input : Input α) (mouseX : α)
    (h : input.mouseX = some mouseX) :
    handlePaddleControl paddle input = { paddle with targetX := mouseX - paddle.width / 2 } ∧
    (handlePaddleControl paddle input).targetX = mouseX - paddle.width / 2 ∧
    (∀ left right : Bool, ∀ t : α,
      handlePaddleControl { paddle with targetX := t }
          { input with left := left, right := right }
        = handlePaddleControl paddle input) ∧
    (mouseX < paddle.width / 2 → (handlePaddleControl paddle input).targetX < 0) ∧
    (CANVAS_WIDTH α - paddle.width / 2 < mouseX →
      CANVAS_WIDTH α - paddle.width < (handlePaddleControl paddle input).targetX) := by
  have key : ∀ (q : Paddle α) (inp : Input α), inp.mouseX = some mouseX →
      q.width = paddle.width → q.x = paddle.x → q.y = paddle.y → q.height = paddle.height →
      q.speed = paddle.speed → q.normalWidth = paddle.normalWidth →
      handlePaddleControl q inp = { paddle with targetX := mouseX - paddle.width / 2 } := by
    intro q inp hm h1 h2 h3 h4 h5 h6
    cases q
    cases paddle
    simp only at h1 h2 h3 h4 h5 h6
    subst h1 h2 h3 h4 h5 h6
    cases hl : inp.left <;> cases hr : inp.right <;>
      simp [handlePaddleControl, hm, hl, hr, Paddle.move, Paddle.setTargetX]
  have e := key paddle input h rfl rfl rfl rfl rfl rfl
  refine ⟨e, by rw [e], ?_, ?_, ?_⟩
  · intro left right t
    rw [e]
    exact key _ _ h rfl rfl rfl rfl rfl rfl
  · intro hlt
    rw [e]
    show mouseX - paddle.width / 2 < 0
    linarith
  · intro hgt
    rw [e]
    show CANVAS_WIDTH α - paddle.width < mouseX - paddle.width / 2
    linarith

/-- Witness of C29: the paddle of a fresh level, both arrow keys held, the
pointer at `x = 0`. -/
theorem pointer_overrides_keys_witness :
    (handlePaddleControl (levelPaddle ℚ)
        { left := true, right := true, mouseX := some 0, mouseY := 0, mouseDown := false }).targetX
      = 0 - (levelPaddle ℚ).width / 2 :=
  (pointer_overrides_keys (levelPaddle ℚ)
    { left := true, right := true, mouseX := some 0, mouseY := 0, mouseDown := false } 0 rfl).2.1

end EasingProperties

section BoundaryProperties

theorem normalizeVelocity_pos (c : Ball ℝ) (hs : 0 < c.speed) :
    (c.normalizeVelocity realMath).x = c.x ∧ (c.normalizeVelocity realMath).y = c.y ∧
    (c.normalizeVelocity realMath).radius = c.radius ∧
    (0 < c.velocityX → 0 < (c.normalizeVelocity realMath).velocityX) ∧
    (c.velocityX < 0 → (c.normalizeVelocity realMath).velocityX < 0) ∧
    (c.velocityX = 0 → (c.normalizeVelocity realMath).velocityX = 0) ∧
    (0 < c.velocityY → 0 < (c.normalizeVelocity realMath).velocityY) ∧
    (c.velocityY < 0 → (c.normalizeVelocity realMath).velocityY < 0) ∧
    (c.velocityY = 0 → (c.normalizeVelocity realMath).velocityY = 0) := by
  by_cases hcs : realMath.sqrt (c.velocityX * c.velocityX + c.velocityY * c.velocityY) > 0
  · have hpos : 0 < c.speed
        / realMath.sqrt (c.velocityX * c.velocityX + c.velocityY * c.velocityY) :=
      div_pos hs hcs
    have ex : c.velocityX
        / realMath.sqrt (c.velocityX * c.velocityX + c.velocityY * c.velocityY) * c.speed
        = c.velocityX * (c.speed
          / realMath.sqrt (c.velocityX * c.velocityX + c.velocityY * c.velocityY)) := by
      ring
    have ey : c.velocityY
        / realMath.sqrt (c.velocityX * c.velocityX + c.velocityY * c.velocityY) * c.speed
        = c.velocityY * (c.speed
          / realMath.sqrt (c.velocityX * c.velocityX + c.velocityY * c.velocityY)) := by
      ring
    simp only [Ball.normalizeVelocity, hcs, if_true, ex, ey]
    refine ⟨trivial, trivial, trivial, ?_, ?_, ?_, ?_, ?_, ?_⟩
    · intro h; exact mul_pos h hpos
    · intro h; exact mul_neg_of_neg_of_pos h hpos
    · intro h; rw [h, zero_mul]
    · intro h; exact mul_pos h hpos
    · intro h; exact mul_neg_of_neg_of_pos h hpos
    · intro h; rw [h, zero_mul]
  · simp only [Ball.normalizeVelocity, hcs, if_false]
    exact ⟨trivial, trivial, trivial, id, id, id, id, id, id⟩

theorem normalizeVelocity_position (m : JSMath ℝ) (c : Ball ℝ) :
    (c.normalizeVelocity m).x = c.x ∧ (c.normalizeVelocity m).y = c.y ∧
    (c.normalizeVelocity m).radius = c.radius := by
  by_cases hcs : m.sqrt (c.velocityX * c.velocityX + c.velocityY * c.velocityY) > 0
  · simp [Ball.normalizeVelocity, hcs]
  · simp [Ball.normalizeVelocity, hcs]

theorem checkBoundaries_eq (a : Ball ℝ) :
    a.checkBoundaries
      = { a with
          x := if a.x - a.radius < 0 then a.radius
            else if a.x + a.radius > CANVAS_WIDTH ℝ then CANVAS_WIDTH ℝ - a.radius else a.x
          velocityX := if a.x - a.radius < 0 ∨ a.x + a.radius > CANVAS_WIDTH ℝ
            then -a.velocityX else a.velocityX
          y := if a.y - a.radius < 0 then a.radius else a.y
          velocityY := if a.y - a.radius < 0 then -a.velocityY else a.velocityY } := by
  unfold Ball.checkBoundaries
  by_cases h1 : a.x - a.radius < 0 <;> by_cases h2 : a.x + a.radius > CANVAS_WIDTH ℝ <;>
    by_cases h3 : a.y - a.radius < 0 <;> simp [h1, h2, h3]

theorem checkBoundaries_x (a : Ball ℝ) :
    a.checkBoundaries.radius = a.radius ∧
    (a.radius ≤ CANVAS_WIDTH ℝ / 2 →
      a.radius ≤ a.checkBoundaries.x ∧ a.checkBoundaries.x ≤ CANVAS_WIDTH ℝ - a.radius) ∧
    ((a.x - a.radius < 0 ∨ a.x + a.radius > CANVAS_WIDTH ℝ) →
      a.checkBoundaries.velocityX = -a.velocityX) := by
  rw [checkBoundaries_eq]
  refine ⟨rfl, ?_, ?_⟩
  · intro hr
    show a.radius ≤ (if a.x - a.radius < 0 then a.radius
        else if a.x + a.radius > CANVAS_WIDTH ℝ then CANVAS_WIDTH ℝ - a.radius else a.x) ∧
      (if a.x - a.radius < 0 then a.radius
        else if a.x + a.radius > CANVAS_WIDTH ℝ then CANVAS_WIDTH ℝ - a.radius else a.x)
        ≤ CANVAS_WIDTH ℝ - a.radius
    split_ifs <;> constructor <;> linarith
  · intro hc
    show (if a.x - a.radius < 0 ∨ a.x + a.radius > CANVAS_WIDTH ℝ
      then -a.velocityX else a.velocityX) = -a.velocityX
    rw [if_pos hc]

theorem checkBoundaries_y (a : Ball ℝ) :
    a.radius ≤ a.checkBoundaries.y ∧
    (a.y - a.radius < 0 → a.checkBoundaries.velocityY = -a.velocityY) ∧
    (¬ a.y - a.radius < 0 → a.checkBoundaries.y = a.y) ∧
    a.checkBoundaries.y ≤ max a.y a.radius := by
  rw [checkBoundaries_eq]
  refine ⟨?_, ?_, ?_, ?_⟩
  · show a.radius ≤ (if a.y - a.radius < 0 then a.radius else a.y)
    split_ifs <;> linarith
  · intro hc
    show (if a.y - a.radius < 0 then -a.velocityY else a.velocityY) = -a.velocityY
    rw [if_pos hc]
  · intro hc
    show (if a.y - a.radius < 0 then a.radius else a.y) = a.y
    rw [if_neg hc]
  · show (if a.y - a.radius < 0 then a.radius else a.y) ≤ max a.y a.radius
    split_ifs
    · exact le_max_right _ _
    · exact le_max_left _ _

/-- C24: for every launched ball with `radius ≤ CANVAS_WIDTH / 2`, after
`Ball.update()` the position satisfies `radius ≤ x ≤ CANVAS_WIDTH - radius`
and `y ≥ radius`.  For a ball of positive speed, if the advanced position
crossed the left or right edge, `velocityX` has the opposite sign of before
(and is 0 if it was 0), and if it crossed the top edge the same holds for
`velocityY`.  When the advanced `y` is not above the top edge it is kept as
it is, however large: no bound is imposed at the bottom edge. -/
theorem ball_update_bounds (b : Ball ℝ) (hl : b.isLaunched = true)
    (hr : b.radius ≤ CANVAS_WIDTH ℝ / 2) :
    (b.radius ≤ (b.update realMath).x ∧ (b.update realMath).x ≤ CANVAS_WIDTH ℝ - b.radius ∧
      b.radius ≤ (b.update realMath).y) ∧
    (0 < b.speed →
      (b.x + b.velocityX - b.radius < 0 ∨ b.x + b.velocityX + b.radius > CANVAS_WIDTH ℝ) →
      (0 < b.velocityX → (b.update realMath).velocityX < 0) ∧
      (b.velocityX < 0 → 0 < (b.update realMath).velocityX) ∧
      (b.velocityX = 0 → (b.update realMath).velocityX = 0)) ∧
    (0 < b.speed → b.y + b.velocityY - b.radius < 0 →
      (0 < b.velocityY → (b.update realMath).velocityY < 0) ∧
      (b.velocityY < 0 → 0 < (b.update realMath).velocityY) ∧
      (b.velocityY = 0 → (b.update realMath).velocityY = 0)) ∧
    (¬ b.y + b.velocityY - b.radius < 0 → (b.update realMath).y = b.y + b.velocityY) := by
  rw [update_eq realMath b hl]
  obtain ⟨x1, x2, x3⟩ := checkBoundaries_x
    { b.updateTrail with x := b.x + b.velocityX, y := b.y + b.velocityY }
  obtain ⟨y1, y2, y3, -⟩ := checkBoundaries_y
    { b.updateTrail with x := b.x + b.velocityX, y := b.y + b.velocityY }
  obtain ⟨p1, p2, -⟩ := normalizeVelocity_position realMath (Ball.checkBoundaries
    { b.updateTrail with x := b.x + b.velocityX, y := b.y + b.velocityY })
  have er : ({ b.updateTrail with x := b.x + b.velocityX, y := b.y + b.velocityY } :
      Ball ℝ).radius = b.radius := rfl
  have ex : ({ b.updateTrail with x := b.x + b.velocityX, y := b.y + b.velocityY } :
      Ball ℝ).x = b.x + b.velocityX := rfl
  have ey : ({ b.updateTrail with x := b.x + b.velocityX, y := b.y + b.velocityY } :
      Ball ℝ).y = b.y + b.velocityY := rfl
  have evx : ({ b.updateTrail with x := b.x + b.velocityX, y := b.y + b.velocityY } :
      Ball ℝ).velocityX = b.velocityX := rfl
  have evy : ({ b.updateTrail with x := b.x + b.velocityX, y := b.y + b.velocityY } :
      Ball ℝ).velocityY = b.velocityY := rfl
  rw [er] at x1 x2 x3 y1 y2 y3
  rw [ex] at x3
  rw [ey] at y2 y3
  rw [evx] at x3
  rw [evy] at y2
  have hsp : (Ball.checkBoundaries
      { b.updateTrail with x := b.x + b.velocityX, y := b.y + b.velocityY }).speed = b.speed := by
    rw [checkBoundaries_eq]
    rfl
  refine ⟨?_, ?_, ?_, ?_⟩
  · rw [p1, p2]
    exact ⟨(x2 hr).1, (x2 hr).2, y1⟩
  · intro hs hc
    obtain ⟨-, -, -, n1, n2, n3, -, -, -⟩ := normalizeVelocity_pos (Ball.checkBoundaries
      { b.updateTrail with x := b.x + b.velocityX, y := b.y + b.velocityY })
      (by rw [hsp]; exact hs)
    rw [x3 hc] at n1 n2 n3
    refine ⟨fun h => n2 (by linarith), fun h => n1 (by linarith), fun h => n3 (by rw [h]; ring)⟩
  · intro hs hc
    obtain ⟨-, -, -, -, -, -, n1, n2, n3⟩ := normalizeVelocity_pos (Ball.checkBoundaries
      { b.updateTrail with x := b.x + b.velocityX, y := b.y + b.velocityY })
      (by rw [hsp]; exact hs)
    rw [y2 hc] at n1 n2 n3
    refine ⟨fun h => n2 (by linarith), fun h => n1 (by linarith), fun h => n3 (by rw [h]; ring)⟩
  · intro hc
    rw [p2, y3 hc]

/-- Witness of C24: the launched ball `centreBall`, of radius 10. -/
theorem ball_update_bounds_witness :
    (centreBall ℝ).radius ≤ ((centreBall ℝ).update realMath).x ∧
      ((centreBall ℝ).update realMath).x ≤ CANVAS_WIDTH ℝ - (centreBall ℝ).radius ∧
      (centreBall ℝ).radius ≤ ((centreBall ℝ).update realMath).y :=
  (ball_update_bounds (centreBall ℝ) rfl
    (by norm_num [centreBall, Ball.new, CANVAS_WIDTH])).1

end BoundaryProperties

section SweepProperties

variable {α : Type} [LinearOrderedField α] [FloorRing α]

theorem pushParticle_shape (b : Block α) (g : Rng α) :
    (b.pushParticle g).1.x = b.x ∧ (b.pushParticle g).1.y = b.y ∧
    (b.pushParticle g).1.width = b.width ∧ (b.pushParticle g).1.height = b.height ∧
    (b.pushParticle g).1.type = b.type ∧ (b.pushParticle g).1.scoreValue = b.scoreValue ∧
    (b.pushParticle g).1.bonusType = b.bonusType := by
  simp [Block.pushParticle, Rng.random]

theorem createBreakEffect_shape (b : Block α) (g : Rng α) :
    (b.createBreakEffect g).1.x = b.x ∧ (b.createBreakEffect g).1.y = b.y ∧
    (b.createBreakEffect g).1.width = b.width ∧ (b.createBreakEffect g).1.height = b.height ∧
    (b.createBreakEffect g).1.type = b.type ∧
    (b.createBreakEffect g).1.scoreValue = b.scoreValue ∧
    (b.createBreakEffect g).1.bonusType = b.bonusType := by
  unfold Block.createBreakEffect
  generalize List.range 15 = l
  induction l using List.reverseRecOn with
  | nil => simp
  | append_singleton l a ih =>
    rw [List.foldl_append]
    simp only [List.foldl_cons, List.foldl_nil]
    obtain ⟨h1, h2, h3, h4, h5, h6, h7⟩ := pushParticle_shape
      (List.foldl (fun (s : Block α × Rng α) _ => s.1.pushParticle s.2) (b, g) l).1
      (List.foldl (fun (s : Block α × Rng α) _ => s.1.pushParticle s.2) (b, g) l).2
    exact ⟨h1.trans ih.1, h2.trans ih.2.1, h3.trans ih.2.2.1, h4.trans ih.2.2.2.1,
      h5.trans ih.2.2.2.2.1, h6.trans ih.2.2.2.2.2.1, h7.trans ih.2.2.2.2.2.2⟩

theorem hit_shape (b : Block α) (g : Rng α) (ha : b.isActive = true) :
    Block.sameShape b (b.hit g).2.1 ∧ (b.hit g).2.1.bonusType = b.bonusType ∧
      (b.hit g).1 = (b.isActive && !(b.hit g).2.1.isActive) := by
  by_cases h : b.hitPoints - 1 ≤ 0
  · obtain ⟨s1, s2, s3, s4, s5, s6, s7⟩ := createBreakEffect_shape
      { b with hitAnimation := 10, hitPoints := b.hitPoints - 1, isActive := false } g
    obtain ⟨-, a2⟩ := createBreakEffect_hitPoints
      { b with hitAnimation := 10, hitPoints := b.hitPoints - 1, isActive := false } g
    simp only [Block.hit, h, if_true, Block.sameShape]
    refine ⟨⟨s1, s2, s3, s4, s5, s6, fun _ => ha⟩, s7, ?_⟩
    rw [a2, ha]
    rfl
  · simp only [Block.hit, h, if_false, Block.sameShape]
    refine ⟨⟨trivial, trivial, trivial, trivial, trivial, trivial, fun _ => ha⟩, trivial, ?_⟩
    rw [ha]
    rfl

theorem sameShape_refl (blk : Block α) : Block.sameShape blk blk :=
  ⟨rfl, rfl, rfl, rfl, rfl, rfl, id⟩

theorem rebound_position (ball : Ball α) (d : Direction) :
    (handleBallRebound ball d).x = ball.x ∧ (handleBallRebound ball d).y = ball.y ∧
    (handleBallRebound ball d).radius = ball.radius ∧
    (handleBallRebound ball d).isLaunched = ball.isLaunched ∧
    (handleBallRebound ball d).speed = ball.speed := by
  cases d <;> simp [handleBallRebound]

theorem blockCollision_spec (ball : Ball α) (blk : Block α) (g : Rng α) :
    (handleBallBlockCollision ball blk g).ball.x = ball.x ∧
    (handleBallBlockCollision ball blk g).ball.y = ball.y ∧
    (handleBallBlockCollision ball blk g).ball.radius = ball.radius ∧
    (handleBallBlockCollision ball blk g).ball.isLaunched = ball.isLaunched ∧
    (handleBallBlockCollision ball blk g).ball.speed = ball.speed ∧
    Block.sameShape blk (handleBallBlockCollision ball blk g).block ∧
    (handleBallBlockCollision ball blk g).block.bonusType = blk.bonusType ∧
    (handleBallBlockCollision ball blk g).destroyed
      = (blk.isActive && !(handleBallBlockCollision ball blk g).block.isActive) := by
  unfold handleBallBlockCollision
  split
  · refine ⟨rfl, rfl, rfl, rfl, rfl, sameShape_refl blk, rfl, ?_⟩
    cases blk.isActive <;> rfl
  · rename_i hskip
    have ha : blk.isActive = true := by
      cases h : blk.isActive
      · simp [h] at hskip
      · rfl
    split
    · rename_i d _
      obtain ⟨r1, r2, r3, r4, r5⟩ := rebound_position ball d
      obtain ⟨s1, s2, s3⟩ := hit_shape blk g ha
      exact ⟨r1, r2, r3, r4, r5, s1, s2, s3⟩
    · refine ⟨rfl, rfl, rfl, rfl, rfl, sameShape_refl blk, rfl, ?_⟩
      cases blk.isActive <;> rfl

theorem sweptFrom_refl (gm : Game α) : Game.sweptFrom gm gm :=
  ⟨rfl, rfl, rfl, rfl, rfl, le_refl _, le_max_left _ _,
    fun b hb => ⟨b, hb, rfl, rfl, rfl, rfl, id⟩, fun p hp => ⟨p, hp, rfl, rfl⟩⟩

theorem sweptFrom_trans (gm g1 g2 : Game α) (h1 : Game.sweptFrom gm g1)
    (h2 : Game.sweptFrom g1 g2) : Game.sweptFrom gm g2 := by
  obtain ⟨a1, a2, a3, a4, a5, a6, a7, a8, a9⟩ := h1
  obtain ⟨b1, b2, b3, b4, b5, b6, b7, b8, b9⟩ := h2
  refine ⟨b1.trans a1, b2.trans a2, b3.trans a3, b4.trans a4, b5.trans a5, le_trans a6 b6,
    ?_, ?_, ?_⟩
  · refine le_trans b7 (max_le (le_trans a7 (le_refl _)) (le_max_right _ _))
  · intro b hb
    obtain ⟨c, hc, c1, c2, c3, c4, c5⟩ := a8 b hb
    obtain ⟨d, hd, d1, d2, d3, d4, d5⟩ := b8 c hc
    exact ⟨d, hd, d1.trans c1, d2.trans c2, d3.trans c3, d4.trans c4, fun h => d5 (c5 h)⟩
  · intro p hp
    obtain ⟨q, hq, q1, q2⟩ := a9 p hp
    obtain ⟨r, hr, r1, r2⟩ := b9 q hq
    exact ⟨r, hr, r1.trans q1, r2.trans q2⟩

theorem normalizeVelocity_body (m : JSMath α) (c : Ball α) :
    (c.normalizeVelocity m).x = c.x ∧ (c.normalizeVelocity m).y = c.y ∧
    (c.normalizeVelocity m).radius = c.radius ∧
    (c.normalizeVelocity m).isLaunched = c.isLaunched ∧
    (c.normalizeVelocity m).speed = c.speed := by
  by_cases hcs : m.sqrt (c.velocityX * c.velocityX + c.velocityY * c.velocityY) > 0
  · simp [Ball.normalizeVelocity, hcs]
  · simp [Ball.normalizeVelocity, hcs]

theorem resize_y (p : Paddle α) (f : α) :
    (p.resize f).y = p.y ∧ (p.resize f).height = p.height := by
  simp [Paddle.resize]

theorem applyBonus_swept (m : JSMath α) (bt : BonusType) (gm : Game α) (b : Ball α)
    (p : Paddle α) (hb : gm.ball = some b) (hp : gm.paddle = some p) :
    ∃ g1, applyBonus m bt gm = some g1 ∧ Game.sweptFrom gm g1 ∧ g1.score = gm.score := by
  cases bt with
  | extraBall =>
    by_cases hc : gm.ballsRemaining < MAX_BALLS
    · simp only [applyBonus, hc, if_true]
      refine ⟨_, rfl, ⟨rfl, rfl, rfl, rfl, rfl, ?_, ?_, ?_, ?_⟩, rfl⟩
      · show gm.ballsRemaining ≤ gm.ballsRemaining + 1
        omega
      · show gm.ballsRemaining + 1 ≤ max gm.ballsRemaining MAX_BALLS
        exact le_trans (by omega) (le_max_right _ _)
      · intro b0 hb0
        exact ⟨b0, hb0, rfl, rfl, rfl, rfl, id⟩
      · intro p0 hp0
        exact ⟨p0, hp0, rfl, rfl⟩
    · simp only [applyBonus, hc, if_false]
      exact ⟨_, rfl, sweptFrom_refl gm, rfl⟩
  | enlargePaddle =>
    simp only [applyBonus, hp, Option.map_some']
    refine ⟨_, rfl, ⟨rfl, rfl, rfl, rfl, rfl, le_refl _, le_max_left _ _, ?_, ?_⟩, rfl⟩
    · intro b0 hb0
      exact ⟨b0, hb0, rfl, rfl, rfl, rfl, id⟩
    · intro p0 hp0
      have e : p = p0 := Option.some.inj (hp.symm.trans hp0)
      subst e
      exact ⟨_, rfl, (resize_y p 1.5).1, (resize_y p 1.5).2⟩
  | shrinkPaddle =>
    simp only [applyBonus, hp, Option.map_some']
    refine ⟨_, rfl, ⟨rfl, rfl, rfl, rfl, rfl, le_refl _, le_max_left _ _, ?_, ?_⟩, rfl⟩
    · intro b0 hb0
      exact ⟨b0, hb0, rfl, rfl, rfl, rfl, id⟩
    · intro p0 hp0
      have e : p = p0 := Option.some.inj (hp.symm.trans hp0)
      subst e
      exact ⟨_, rfl, (resize_y p 0.75).1, (resize_y p 0.75).2⟩
  | speedUp =>
    simp only [applyBonus, hb, Option.map_some']
    obtain ⟨n1, n2, n3, n4, n5⟩ := normalizeVelocity_body m { b with speed := b.speed * 1.2 }
    refine ⟨_, rfl, ⟨rfl, rfl, rfl, rfl, rfl, le_refl _, le_max_left _ _, ?_, ?_⟩, rfl⟩
    · intro b0 hb0
      have e : b = b0 := Option.some.inj (hb.symm.trans hb0)
      subst e
      refine ⟨_, rfl, n1, n2, n3, n4, ?_⟩
      intro hs
      rw [n5]
      exact mul_pos hs (by norm_num)
    · intro p0 hp0
      exact ⟨p0, hp0, rfl, rfl⟩
  | speedDown =>
    simp only [applyBonus, hb, Option.map_some']
    obtain ⟨n1, n2, n3, n4, n5⟩ := normalizeVelocity_body m { b with speed := b.speed * 0.8 }
    refine ⟨_, rfl, ⟨rfl, rfl, rfl, rfl, rfl, le_refl _, le_max_left _ _, ?_, ?_⟩, rfl⟩
    · intro b0 hb0
      have e : b = b0 := Option.some.inj (hb.symm.trans hb0)
      subst e
      refine ⟨_, rfl, n1, n2, n3, n4, ?_⟩
      intro hs
      rw [n5]
      exact mul_pos hs (by norm_num)
    · intro p0 hp0
      exact ⟨p0, hp0, rfl, rfl⟩

theorem onBlockHit_swept (m : JSMath α) (gm : Game α) (blk : Block α) (b : Ball α)
    (p : Paddle α) (hb : gm.ball = some b) (hp : gm.paddle = some p) :
    ∃ g1, Game.onBlockHit m gm blk = some g1 ∧ Game.sweptFrom gm g1 ∧
      g1.score = gm.score + blk.scoreValue := by
  have base : Game.sweptFrom gm ({ gm with score := gm.score + blk.scoreValue } : Game α) :=
    ⟨rfl, rfl, rfl, rfl, rfl, le_refl _, le_max_left _ _,
      fun b0 hb0 => ⟨b0, hb0, rfl, rfl, rfl, rfl, id⟩, fun p0 hp0 => ⟨p0, hp0, rfl, rfl⟩⟩
  unfold Game.onBlockHit
  cases hbt : blk.bonusType with
  | none => exact ⟨_, rfl, base, rfl⟩
  | some bt =>
    by_cases ht : blk.type = BlockType.bonus
    · simp only [ht, if_true]
      obtain ⟨g1, e1, s1, c1⟩ := applyBonus_swept m bt
        ({ gm with score := gm.score + blk.scoreValue } : Game α) b p hb hp
      exact ⟨g1, e1, sweptFrom_trans _ _ _ base s1, c1⟩
    · simp only [ht, if_false]
      exact ⟨_, rfl, base, rfl⟩

theorem collideBlock_swept (m : JSMath α) (gm : Game α) (blk : Block α) (b : Ball α)
    (p : Paddle α) (hb : gm.ball = some b) (hp : gm.paddle = some p) :
    ∃ g1 blk1, Game.collideBlock m gm blk = some (g1, blk1) ∧ Game.sweptFrom gm g1 ∧
      Block.sameShape blk blk1 ∧
      g1.score = gm.score + (if (blk.isActive && !blk1.isActive) = true
        then blk.scoreValue else 0) := by
  obtain ⟨c1, c2, c3, c4, c5, c6, c7, c8⟩ := blockCollision_spec b blk gm.rng
  have base : Game.sweptFrom gm
      ({ gm with
          ball := some (handleBallBlockCollision b blk gm.rng).ball
          rng := (handleBallBlockCollision b blk gm.rng).rng } : Game α) := by
    refine ⟨rfl, rfl, rfl, rfl, rfl, le_refl _, le_max_left _ _, ?_, fun p0 hp0 => ⟨p0, hp0, rfl, rfl⟩⟩
    intro b0 hb0
    have e : b = b0 := Option.some.inj (hb.symm.trans hb0)
    subst e
    exact ⟨_, rfl, c1, c2, c3, c4, fun h => by rw [c5]; exact h⟩
  unfold Game.collideBlock
  simp only [hb]
  by_cases hd : (handleBallBlockCollision b blk gm.rng).destroyed = true
  · obtain ⟨g2, e2, s2, sc2⟩ := onBlockHit_swept m
      ({ gm with
          ball := some (handleBallBlockCollision b blk gm.rng).ball
          rng := (handleBallBlockCollision b blk gm.rng).rng } : Game α)
      (handleBallBlockCollision b blk gm.rng).block _ p rfl hp
    simp only [hd, if_true, e2, Option.map_some']
    refine ⟨g2, _, rfl, sweptFrom_trans _ _ _ base s2, c6, ?_⟩
    rw [sc2, ← c8, hd, if_pos rfl, c6.2.2.2.2.2.1]
  · simp only [hd, Bool.false_eq_true, if_false]
    refine ⟨_, _, rfl, base, c6, ?_⟩
    rw [← c8]
    simp [hd]

theorem destroyedScore_cons (blk blk1 : Block α) (bs bs1 : List (Block α)) :
    destroyedScore (blk :: bs) (blk1 :: bs1)
      = (if (blk.isActive && !blk1.isActive) = true then blk.scoreValue else 0)
        + destroyedScore bs bs1 := by
  unfold destroyedScore
  by_cases h : (blk.isActive && !blk1.isActive) = true
  · simp [List.zip_cons_cons, List.filter_cons, h]
  · simp [List.zip_cons_cons, List.filter_cons, h]

theorem sweepBlocks_swept (m : JSMath α) (blocks : List (Block α)) :
    ∀ (gm : Game α) (b : Ball α) (p : Paddle α), gm.ball = some b → gm.paddle = some p →
      ∃ g2 blocks2, Game.sweepBlocks m gm blocks = some (g2, blocks2) ∧ Game.sweptFrom gm g2 ∧
        List.Forall₂ Block.sameShape blocks blocks2 ∧
        g2.score = gm.score + destroyedScore blocks blocks2 := by
  induction blocks with
  | nil =>
    intro gm b p _ _
    exact ⟨gm, [], rfl, sweptFrom_refl gm, List.Forall₂.nil, by simp [destroyedScore]⟩
  | cons blk rest ih =>
    intro gm b p hb hp
    obtain ⟨g1, blk1, e1, s1, sh1, sc1⟩ := collideBlock_swept m gm blk b p hb hp
    obtain ⟨b1, hb1, -⟩ := s1.2.2.2.2.2.2.2.1 b hb
    obtain ⟨p1, hp1, -⟩ := s1.2.2.2.2.2.2.2.2 p hp
    obtain ⟨g2, rest2, e2, s2, sh2, sc2⟩ := ih g1 b1 p1 hb1 hp1
    simp only [Game.sweepBlocks, e1, e2]
    refine ⟨g2, blk1 :: rest2, rfl, sweptFrom_trans _ _ _ s1 s2, List.Forall₂.cons sh1 sh2, ?_⟩
    rw [sc2, sc1, destroyedScore_cons]
    ring

theorem checkBlockCollisions_swept (m : JSMath α) (gm : Game α) (b : Ball α) (p : Paddle α)
    (hb : gm.ball = some b) (hp : gm.paddle = some p) :
    ∃ g1, Game.checkBlockCollisions m gm = some g1 ∧
      Game.sweptFrom gm { g1 with blocks := gm.blocks } ∧
      List.Forall₂ Block.sameShape gm.blocks g1.blocks ∧
      g1.score = gm.score + destroyedScore gm.blocks g1.blocks := by
  obtain ⟨g2, blocks2, e2, s2, sh2, sc2⟩ := sweepBlocks_swept m gm.blocks gm b p hb hp
  simp only [Game.checkBlockCollisions, e2, Option.map_some']
  refine ⟨_, rfl, ?_, sh2, sc2⟩
  obtain ⟨a1, a2, a3, a4, a5, a6, a7, a8, a9⟩ := s2
  exact ⟨a1, a2, a3, a4, rfl, a6, a7, a8, a9⟩

end SweepProperties

section ScoreProperties

variable {α : Type} [LinearOrderedField α] [FloorRing α]

theorem destroyedScore_nonneg (before : List (Block α)) :
    ∀ after : List (Block α), (∀ blk ∈ before, 0 ≤ blk.scoreValue) →
      0 ≤ destroyedScore before after := by
  induction before with
  | nil => intro after _; simp [destroyedScore]
  | cons blk rest ih =>
    intro after h
    cases after with
    | nil => simp [destroyedScore]
    | cons blk1 rest1 =>
      rw [destroyedScore_cons]
      have h1 : 0 ≤ blk.scoreValue := h blk (List.mem_cons_self _ _)
      have h2 := ih rest1 (fun q hq => h q (List.mem_cons_of_mem _ hq))
      split <;> omega

/-- C25: on a game with a ball and a paddle, one `Game.checkBlockCollisions`
sweep returns a game whose score is the old score plus the sum of
`scoreValue` over the blocks destroyed in the sweep (active before, inactive
after); the block list keeps its length; an iteration that leaves its block
active adds nothing; and when every block has the score value the
constructor gives (30 for bonus blocks, 10 for normal and hard ones) the
score does not decrease. -/
theorem sweep_score (m : JSMath α) (gm : Game α) (b : Ball α) (p : Paddle α)
    (hb : gm.ball = some b) (hp : gm.paddle = some p) :
    (Game.checkBlockCollisions m gm).isSome = true ∧
    (∀ g1, Game.checkBlockCollisions m gm = some g1 →
      g1.score = gm.score + destroyedScore gm.blocks g1.blocks ∧
      g1.blocks.length = gm.blocks.length ∧
      ((∀ blk ∈ gm.blocks, blk.scoreValue = if blk.type = BlockType.bonus then 30 else 10) →
        gm.score ≤ g1.score)) ∧
    (∀ (blk : Block α) (g1 : Game α) (blk1 : Block α),
      Game.collideBlock m gm blk = some (g1, blk1) →
      g1.score = gm.score + (if (blk.isActive && !blk1.isActive) = true
        then blk.scoreValue else 0) ∧
      (blk1.isActive = true → g1.score = gm.score)) ∧
    (∀ (g : Rng α) (x y w h : α) (t : BlockType) (n : Int),
      (Block.new g x y w h t n).1.scoreValue = if t = BlockType.bonus then 30 else 10) := by
  obtain ⟨g1, e1, -, sh1, sc1⟩ := checkBlockCollisions_swept m gm b p hb hp
  refine ⟨by rw [e1]; rfl, ?_, ?_, ?_⟩
  · intro g2 e2
    have e : g1 = g2 := Option.some.inj (e1.symm.trans e2)
    subst e
    refine ⟨sc1, (List.Forall₂.length_eq sh1).symm, ?_⟩
    intro hv
    have hnn : ∀ blk ∈ gm.blocks, 0 ≤ blk.scoreValue := by
      intro blk hblk
      rw [hv blk hblk]
      split <;> decide
    have := destroyedScore_nonneg gm.blocks g1.blocks hnn
    omega
  · intro blk g2 blk2 e2
    obtain ⟨g3, blk3, e3, -, -, sc3⟩ := collideBlock_swept m gm blk b p hb hp
    have e : (g3, blk3) = (g2, blk2) := Option.some.inj (e3.symm.trans e2)
    obtain ⟨rfl, rfl⟩ := Prod.mk.inj e
    refine ⟨sc3, ?_⟩
    intro ha
    rw [sc3, ha]
    simp
  · intro g x y w h t n
    unfold Block.new
    simp only [Rng.random]
    split <;> simp [*]

/-- Witness of C25: the sweep of `sampleGame`. -/
theorem sweep_score_witness : (Game.checkBlockCollisions realMath sampleGame).isSome = true :=
  (sweep_score realMath sampleGame (centreBall ℝ) (levelPaddle ℝ) rfl rfl).1

theorem update_of_afterSweep (m : JSMath α) (gm g1 : Game α)
    (hst : gm.state = GameStatus.playing) (h : gm.afterSweep m = some g1) :
    gm.update m
      = (match g1.ball with
          | none => none
          | some ball3 =>
            (if ball3.y - ball3.radius > CANVAS_HEIGHT α then g1.ballLost else some g1).map
              fun (g3 : Game α) => if isLevelComplete g3.blocks then g3.completeLevel else g3).map
          fun (g3 : Game α) => { g3 with blocks := g3.blocks.map Block.update } := by
  unfold Game.afterSweep at h
  cases hp : gm.paddle with
  | none =>
    rw [hp] at h
    cases hb : gm.ball <;> simp [hb] at h
  | some p =>
    cases hb : gm.ball with
    | none => simp [hb] at h
    | some b =>
      simp only [hp, hb, hst] at h
      simp only [Game.update, hp, hst, if_true, Game.updatePlaying, hb, h]

/-- C30: for every game in state `PLAYING` in which, after the collision
sweep of the tick, the ball is below the bottom edge, `ballsRemaining` is 1,
no normal or bonus block is active and `level < MAX_LEVELS`, the tick
`Game.update()` returns the swept game with `ballsRemaining = 0` and the
state `LEVEL_COMPLETE` (not `GAME_OVER`): the level-complete check runs
after the lost-ball handling without testing the state again. -/
theorem lost_last_ball_completes_level (m : JSMath α) (gm g1 : Game α) (ball3 : Ball α)
    (hst : gm.state = GameStatus.playing) (hsw : gm.afterSweep m = some g1)
    (hb : g1.ball = some ball3) (hlost : ball3.y - ball3.radius > CANVAS_HEIGHT α)
    (hbr : g1.ballsRemaining = 1)
    (hdone : ∀ blk ∈ g1.blocks,
      ¬ (blk.isActive = true ∧ (blk.type = BlockType.normal ∨ blk.type = BlockType.bonus)))
    (hlv : g1.level < MAX_LEVELS) :
    gm.update m
      = some { g1 with
          ballsRemaining := 0
          state := GameStatus.levelComplete
          blocks := g1.blocks.map Block.update } ∧
    (gm.update m).map (fun g => g.state) = some GameStatus.levelComplete ∧
    (gm.update m).map (fun g => g.state) ≠ some GameStatus.gameOver ∧
    (gm.update m).map (fun g => g.ballsRemaining) = some 0 := by
  have hc : isLevelComplete g1.blocks = true := (isLevelComplete_eq_true g1.blocks).mpr hdone
  have hle : g1.ballsRemaining - 1 ≤ 0 := by omega
  have h0 : g1.ballsRemaining - 1 = 0 := by omega
  have hnl : ¬ g1.level ≥ MAX_LEVELS := not_le.mpr hlv
  have e : gm.update m
      = some { g1 with
          ballsRemaining := 0
          state := GameStatus.levelComplete
          blocks := g1.blocks.map Block.update } := by
    rw [update_of_afterSweep m gm g1 hst hsw]
    simp [hb, hlost, Game.ballLost, hle, Game.gameOver, hc, Game.completeLevel, hnl, h0]
  refine ⟨e, ?_, ?_, ?_⟩
  · rw [e]; rfl
  · rw [e]
    simp
  · rw [e]; rfl

end ScoreProperties

section LostBallExample

theorem lostBall_update_y :
    ((lostBall ℝ).update realMath).y = 706 ∧ ((lostBall ℝ).update realMath).radius = 10 ∧
      ((lostBall ℝ).update realMath).isLaunched = true := by
  rw [update_eq realMath (lostBall ℝ) rfl]
  obtain ⟨-, n2, n3, n4, -⟩ := normalizeVelocity_body realMath (Ball.checkBoundaries
    { (lostBall ℝ).updateTrail with
      x := (lostBall ℝ).x + (lostBall ℝ).velocityX
      y := (lostBall ℝ).y + (lostBall ℝ).velocityY })
  rw [n2, n3, n4, checkBoundaries_eq]
  norm_num [lostBall, Ball.new, Ball.updateTrail]

theorem lostBall_after_paddle :
    (handleBallPaddleCollision realMath ((lostBall ℝ).update realMath)
        (handlePaddleControl (levelPaddle ℝ).update lostBallGame.input)).2
      = (lostBall ℝ).update realMath := by
  obtain ⟨hy, hr, hl⟩ := lostBall_update_y
  have hpy : (handlePaddleControl (levelPaddle ℝ).update lostBallGame.input).y = 590 := by
    simp [handlePaddleControl, lostBallGame, Game.new, Paddle.setTargetX, Paddle.move,
      Paddle.update, levelPaddle, Paddle.new]
  have hph : (handlePaddleControl (levelPaddle ℝ).update lostBallGame.input).height = 15 := by
    simp [handlePaddleControl, lostBallGame, Game.new, Paddle.setTargetX, Paddle.move,
      Paddle.update, levelPaddle, Paddle.new]
  have hno : ballPaddleOverlap ((lostBall ℝ).update realMath)
      (handlePaddleControl (levelPaddle ℝ).update lostBallGame.input) = false := by
    simp only [ballPaddleOverlap, hy, hr, hpy, hph]
    norm_num
  simp [handleBallPaddleCollision, hl, hno]

theorem lostBallGame_afterSweep : lostBallGame.afterSweep realMath = some lostBallSwept := by
  simp [Game.afterSweep, lostBallGame, lostBallSwept, Game.checkBlockCollisions,
    Game.sweepBlocks, Game.new]

/-- Witness of C30: `lostBallGame`, whose last ball is below the bottom edge
of an empty board at level 1; its tick ends in `LEVEL_COMPLETE` with no ball
left. -/
theorem lost_last_ball_completes_level_witness :
    (lostBallGame.update realMath).map (fun g => g.state) = some GameStatus.levelComplete ∧
      (lostBallGame.update realMath).map (fun g => g.ballsRemaining) = some 0 :=
  ⟨(lost_last_ball_completes_level realMath lostBallGame lostBallSwept
      ((lostBall ℝ).update realMath) rfl lostBallGame_afterSweep
      (by rw [← lostBall_after_paddle]; rfl)
      (by rw [lostBall_update_y.1, lostBall_update_y.2.1]; norm_num [CANVAS_HEIGHT])
      rfl (by intro blk hblk; simp [lostBallSwept, lostBallGame, Game.new] at hblk)
      (by decide)).2.1,
    (lost_last_ball_completes_level realMath lostBallGame lostBallSwept
      ((lostBall ℝ).update realMath) rfl lostBallGame_afterSweep
      (by rw [← lostBall_after_paddle]; rfl)
      (by rw [lostBall_update_y.1, lostBall_update_y.2.1]; norm_num [CANVAS_HEIGHT])
      rfl (by intro blk hblk; simp [lostBallSwept, lostBallGame, Game.new] at hblk)
      (by decide)).2.2.2⟩

end LostBallExample

section InvariantProperties

theorem paddle_control_y (p : Paddle ℝ) (input : Input ℝ) :
    (handlePaddleControl p.update input).y = p.y := by
  unfold handlePaddleControl
  cases input.left <;> cases input.right <;> cases input.mouseX <;>
    simp [Paddle.move, Paddle.setTargetX, Paddle.update]

theorem ball_update_frame (m : JSMath ℝ) (b : Ball ℝ) :
    (b.update m).radius = b.radius ∧ (b.update m).speed = b.speed ∧
    (b.radius ≤ 580 → b.y ≤ 580 → b.velocityY ≤ 0 → (b.update m).y ≤ 580) := by
  by_cases hl : b.isLaunched = true
  · rw [update_eq m b hl]
    obtain ⟨-, n2, n3, -, n5⟩ := normalizeVelocity_body m (Ball.checkBoundaries
      { b.updateTrail with x := b.x + b.velocityX, y := b.y + b.velocityY })
    obtain ⟨-, -, c3, -⟩ := checkBoundaries_frame
      { b.updateTrail with x := b.x + b.velocityX, y := b.y + b.velocityY }
    obtain ⟨-, -, -, y4⟩ := checkBoundaries_y
      { b.updateTrail with x := b.x + b.velocityX, y := b.y + b.velocityY }
    have hr : (Ball.checkBoundaries
        { b.updateTrail with x := b.x + b.velocityX, y := b.y + b.velocityY }).radius
        = b.radius := by
      rw [checkBoundaries_eq]
      rfl
    refine ⟨n3.trans hr, n5.trans c3, ?_⟩
    intro h1 h2 h3
    rw [n2]
    refine le_trans y4 (max_le ?_ h1)
    show b.y + b.velocityY ≤ 580
    linarith
  · have e : b.update m = b := by simp [Ball.update, hl]
    rw [e]
    exact ⟨rfl, rfl, fun _ h2 _ => h2⟩

theorem paddle_collision_body (m : JSMath ℝ) (b : Ball ℝ) (p : Paddle ℝ) :
    (handleBallPaddleCollision m b p).2.radius = b.radius ∧
    (handleBallPaddleCollision m b p).2.speed = b.speed ∧
    ((handleBallPaddleCollision m b p).2.y = b.y ∨
      (handleBallPaddleCollision m b p).2.y = p.y - b.radius) := by
  unfold handleBallPaddleCollision
  split_ifs <;> simp

theorem collision_far (c : Circle ℝ) (r : Rect ℝ) (hr : 0 ≤ c.radius) (hh : 0 ≤ r.height)
    (hfar : r.y + r.height + c.radius < c.y) : checkCircleRectCollision c r = none := by
  have hmin : min c.y (r.y + r.height) = r.y + r.height := min_eq_right (by linarith)
  have hcl : closestY c r = r.y + r.height := by
    simp only [closestY, hmin]
    exact max_eq_right (by linarith)
  have hd : distanceY c r = c.y - (r.y + r.height) := by simp only [distanceY, hcl]
  have hgt : c.radius < distanceY c r := by
    rw [hd]
    linarith
  have h1 : c.radius * c.radius < distanceY c r * distanceY c r :=
    mul_self_lt_mul_self hr hgt
  have h2 : ¬ distanceSquared c r ≤ c.radius * c.radius := by
    simp only [distanceSquared]
    have := mul_self_nonneg (distanceX c r)
    linarith
  simp [checkCircleRectCollision, h2]

theorem collideBlock_far (m : JSMath ℝ) (gm : Game ℝ) (blk : Block ℝ) (b : Ball ℝ)
    (hb : gm.ball = some b) (hr : 0 ≤ b.radius) (hh : 0 ≤ blk.height)
    (hfar : blk.y + blk.height + b.radius < b.y) :
    Game.collideBlock m gm blk = some (gm, blk) := by
  have hn : checkCircleRectCollision b.toCircle blk.toRect = none :=
    collision_far _ _ hr hh hfar
  have hc : handleBallBlockCollision b blk gm.rng
      = { collided := false, ball := b, block := blk, rng := gm.rng, destroyed := false } := by
    unfold handleBallBlockCollision
    split
    · rfl
    · rw [hn]
  cases gm
  simp only at hb
  subst hb
  simp [Game.collideBlock, hc]

theorem sweepBlocks_far (m : JSMath ℝ) (gm : Game ℝ) (b : Ball ℝ) (hb : gm.ball = some b)
    (hr : 0 ≤ b.radius) (blocks : List (Block ℝ))
    (hfar : ∀ blk ∈ blocks, 0 ≤ blk.height ∧ blk.y + blk.height + b.radius < b.y) :
    Game.sweepBlocks m gm blocks = some (gm, blocks) := by
  induction blocks with
  | nil => rfl
  | cons blk rest ih =>
    have h1 := hfar blk (List.mem_cons_self _ _)
    have h2 := ih (fun q hq => hfar q (List.mem_cons_of_mem _ hq))
    simp only [Game.sweepBlocks, collideBlock_far m gm blk b hb hr h1.1 h1.2, h2]

theorem checkBlockCollisions_far (m : JSMath ℝ) (gm : Game ℝ) (b : Ball ℝ)
    (hb : gm.ball = some b) (hr : 0 ≤ b.radius)
    (hfar : ∀ blk ∈ gm.blocks, 0 ≤ blk.height ∧ blk.y + blk.height + b.radius < b.y) :
    Game.checkBlockCollisions m gm = some gm := by
  simp only [Game.checkBlockCollisions, sweepBlocks_far m gm b hb hr gm.blocks hfar,
    Option.map_some']

theorem block_update_frame (b : Block ℝ) :
    b.update.type = b.type ∧ b.update.isActive = b.isActive ∧ b.update.y = b.y ∧
      b.update.height = b.height := by
  unfold Block.update
  split_ifs <;> simp only [] <;> split_ifs <;> simp

theorem isLevelComplete_update (blocks : List (Block ℝ)) :
    isLevelComplete (blocks.map Block.update) = isLevelComplete blocks := by
  induction blocks with
  | nil => rfl
  | cons blk rest ih =>
    obtain ⟨h1, h2, -, -⟩ := block_update_frame blk
    simp only [isLevelComplete, List.map_cons, List.any_cons, Bool.not_or, h1, h2] at ih ⊢
    rw [ih]

theorem cellAt_y (level : Int) (g : Rng ℝ) (row col : Nat) :
    (cellAt level g row col).y = 50 + (row : ℝ) * 30 ∧ (cellAt level g row col).height = 20 := by
  simp only [cellAt, generateCell, Rng.random]
  split_ifs <;> (simp only [new_fields, BLOCK_HEIGHT]; norm_num)

theorem generateLevel_geometry (level : Int) (g : Rng ℝ) :
    ∀ blk ∈ (generateLevel level g).1, blk.y ≤ 200 ∧ blk.height = 20 := by
  intro blk hblk
  rw [generateLevel_blocks, List.mem_map] at hblk
  obtain ⟨i, hi, rfl⟩ := hblk
  rw [List.mem_range] at hi
  obtain ⟨hy, hh⟩ := cellAt_y level g (i / COLS) (i % COLS)
  refine ⟨?_, hh⟩
  rw [hy]
  have h5 : i / COLS ≤ 5 := by
    simp only [ROWS, COLS] at *
    omega
  have h5r : ((i / COLS : Nat) : ℝ) ≤ 5 := by exact_mod_cast h5
  linarith

theorem forall₂_mem_right {β : Type} (R : β → β → Prop) (l1 l2 : List β)
    (h : List.Forall₂ R l1 l2) : ∀ y ∈ l2, ∃ x ∈ l1, R x y := by
  induction h with
  | nil => intro y hy; simp at hy
  | cons hr _ ih =>
    intro y hy
    rcases List.mem_cons.mp hy with rfl | hy1
    · exact ⟨_, List.mem_cons_self _ _, hr⟩
    · obtain ⟨x, hx, hxy⟩ := ih y hy1
      exact ⟨x, List.mem_cons_of_mem _ hx, hxy⟩

end InvariantProperties

section InvariantSteps

theorem inv_new (g : Rng ℝ) : (Game.new realMath g).Inv := by
  refine ⟨?_, ?_, ?_, ?_, ?_, ?_, ?_, ?_, ?_, ?_, ?_, ?_⟩
  · show 0 ≤ Real.pi / 2
    linarith [Real.pi_pos]
  · show Real.pi / 2 ≤ Real.pi
    linarith [Real.pi_pos]
  · show (0 : Int) ≤ INITIAL_BALLS
    decide
  · show INITIAL_BALLS ≤ MAX_BALLS
    decide
  · intro p hp
    simp [Game.new] at hp
  · intro b hb
    simp [Game.new] at hb
  · intro blk hblk
    simp [Game.new] at hblk
  · intro _
    exact ⟨rfl, rfl, rfl⟩
  · intro hs
    simp [Game.new] at hs
  · intro hs
    simp [Game.new] at hs
  · intro hs
    simp [Game.new] at hs
  · intro hs
    simp [Game.new] at hs

theorem inv_setInput (gm : Game ℝ) (inp : Input ℝ) (h : gm.Inv) :
    ({ gm with input := inp } : Game ℝ).Inv :=
  ⟨h.aim_lo, h.aim_hi, h.balls_lo, h.balls_hi, h.paddle_y, h.ball_ok, h.blocks_ok, h.menu,
    h.live, h.ready, h.playing, h.levelComplete⟩

theorem inv_updateBlocks (gm : Game ℝ) (h : gm.Inv) :
    ({ gm with blocks := gm.blocks.map Block.update } : Game ℝ).Inv := by
  refine ⟨h.aim_lo, h.aim_hi, h.balls_lo, h.balls_hi, h.paddle_y, h.ball_ok, ?_, h.menu,
    h.live, h.ready, ?_, h.levelComplete⟩
  · intro blk hblk
    obtain ⟨q, hq, rfl⟩ := List.mem_map.mp hblk
    obtain ⟨-, -, h3, h4⟩ := block_update_frame q
    rw [h3, h4]
    exact h.blocks_ok q hq
  · intro hs
    refine ⟨(h.playing hs).1, ?_⟩
    show isLevelComplete (gm.blocks.map Block.update) = false ∨ _
    rw [isLevelComplete_update]
    exact (h.playing hs).2

theorem updateAimAngle_some (m : JSMath ℝ) (gm : Game ℝ) (b : Ball ℝ) (hb : gm.ball = some b) :
    gm.updateAimAngle m
      = { gm with
          aimAngle := max 0 (min m.PI
            (m.atan2 (b.y - gm.input.mouseY) (gm.input.mouseX.getD 0 - b.x))) } := by
  unfold Game.updateAimAngle
  simp only [hb]

theorem updateAimAngle_none (m : JSMath ℝ) (gm : Game ℝ) (hb : gm.ball = none) :
    gm.updateAimAngle m = gm := by
  unfold Game.updateAimAngle
  simp only [hb]

theorem inv_updateAimAngle (gm : Game ℝ) (h : gm.Inv) : (gm.updateAimAngle realMath).Inv := by
  cases hb : gm.ball with
  | none =>
    rw [updateAimAngle_none realMath gm hb]
    exact h
  | some b =>
    rw [updateAimAngle_some realMath gm b hb]
    have hpi : (0 : ℝ) ≤ realMath.PI := le_of_lt Real.pi_pos
    exact ⟨le_max_left _ _, max_le hpi (min_le_left _ _), h.balls_lo, h.balls_hi, h.paddle_y,
      h.ball_ok, h.blocks_ok, h.menu, h.live, h.ready, h.playing, h.levelComplete⟩

theorem launch_velocityY (b : Ball ℝ) (angle : ℝ) (h0 : 0 ≤ angle) (h1 : angle ≤ realMath.PI)
    (hs : 0 ≤ b.speed) : (b.launch realMath angle).velocityY ≤ 0 := by
  show -Real.sin angle * b.speed ≤ 0
  have := Real.sin_nonneg_of_nonneg_of_le_pi h0 h1
  nlinarith [mul_nonneg this hs]

theorem inv_launchBall (gm : Game ℝ) (h : gm.Inv) : (gm.launchBall realMath).Inv := by
  unfold Game.launchBall
  cases hb : gm.ball with
  | none => exact h
  | some b =>
    by_cases hs : gm.state = GameStatus.ready
    · simp only [hs, ne_eq, not_true_eq_false, if_false]
      obtain ⟨hrad, hspd⟩ := h.ball_ok b hb
      obtain ⟨hbr, hy⟩ := h.ready hs
      refine ⟨h.aim_lo, h.aim_hi, h.balls_lo, h.balls_hi, h.paddle_y, ?_, h.blocks_ok, ?_, ?_,
        ?_, ?_, ?_⟩
      · intro b1 hb1
        have e : b.launch realMath gm.aimAngle = b1 := Option.some.inj hb1
        rw [← e]
        exact ⟨hrad, hspd⟩
      · intro hc
        simp at hc
      · intro _
        exact ⟨(h.live (Or.inl hs)).1, _, rfl⟩
      · intro hc
        simp at hc
      · intro _
        refine ⟨hbr, Or.inr ?_⟩
        intro b1 hb1
        have e : b.launch realMath gm.aimAngle = b1 := Option.some.inj hb1
        rw [← e]
        refine ⟨?_, launch_velocityY b gm.aimAngle h.aim_lo h.aim_hi (le_of_lt hspd)⟩
        show b.y ≤ 580
        rw [hy b hb]
      · intro hc
        simp at hc
    · simp only [hs, ne_eq, not_false_eq_true, if_true]
      exact h

theorem createBall_fields (p : Paddle ℝ) (hp : p.y = 590) :
    (createBall p).radius = 10 ∧ 0 < (createBall p).speed ∧ (createBall p).y = 580 := by
  refine ⟨rfl, ?_, ?_⟩
  · show (0 : ℝ) < 6
    norm_num
  · show p.y - BALL_RADIUS ℝ = 580
    rw [hp]
    norm_num [BALL_RADIUS]

theorem inv_loadLevel (gm : Game ℝ) (level : Int) (hs : gm.state = GameStatus.ready)
    (ha0 : 0 ≤ gm.aimAngle) (ha1 : gm.aimAngle ≤ realMath.PI) (hb1 : 1 ≤ gm.ballsRemaining)
    (hb2 : gm.ballsRemaining ≤ MAX_BALLS) : (gm.loadLevel level).Inv := by
  have hpy : (generateLevel level gm.rng).2.1.y = 590 := by
    show CANVAS_HEIGHT ℝ - 50 = 590
    norm_num [CANVAS_HEIGHT]
  obtain ⟨c1, c2, c3⟩ := createBall_fields (generateLevel level gm.rng).2.1 hpy
  have e : gm.loadLevel level
      = { gm with
          blocks := (generateLevel level gm.rng).1
          paddle := some (generateLevel level gm.rng).2.1
          ball := some (createBall (generateLevel level gm.rng).2.1)
          rng := (generateLevel level gm.rng).2.2 } := rfl
  rw [e]
  have hb0 : 0 ≤ gm.ballsRemaining := by omega
  refine ⟨ha0, ha1, hb0, hb2, ?_, ?_, generateLevel_geometry level gm.rng, ?_, ?_, ?_, ?_, ?_⟩
  · intro p hp
    have e1 : (generateLevel level gm.rng).2.1 = p := Option.some.inj hp
    rw [← e1]
    exact hpy
  · intro b hb
    have e1 : createBall (generateLevel level gm.rng).2.1 = b := Option.some.inj hb
    rw [← e1]
    exact ⟨c1, c2⟩
  · intro hc
    have hc1 : gm.state = GameStatus.menu := hc
    rw [hs] at hc1
    exact absurd hc1 (by decide)
  · intro _
    exact ⟨⟨_, rfl⟩, _, rfl⟩
  · intro _
    refine ⟨hb1, ?_⟩
    intro b hb
    have e1 : createBall (generateLevel level gm.rng).2.1 = b := Option.some.inj hb
    rw [← e1]
    exact c3
  · intro hc
    have hc1 : gm.state = GameStatus.playing := hc
    rw [hs] at hc1
    exact absurd hc1 (by decide)
  · intro _
    exact hb1

theorem inv_resetGame (gm : Game ℝ) (h : gm.Inv) : gm.resetGame.Inv := by
  refine ⟨h.aim_lo, h.aim_hi, ?_, ?_, ?_, ?_, ?_, ?_, ?_, ?_, ?_, ?_⟩
  · show (0 : Int) ≤ INITIAL_BALLS
    decide
  · show INITIAL_BALLS ≤ MAX_BALLS
    decide
  · intro p hp
    simp [Game.resetGame] at hp
  · intro b hb
    simp [Game.resetGame] at hb
  · intro blk hblk
    simp [Game.resetGame] at hblk
  · intro _
    exact ⟨rfl, rfl, rfl⟩
  · intro hs
    simp [Game.resetGame] at hs
  · intro hs
    simp [Game.resetGame] at hs
  · intro hs
    simp [Game.resetGame] at hs
  · intro hs
    simp [Game.resetGame] at hs

theorem inv_startGame (gm : Game ℝ) (h : gm.Inv) (hs : gm.state = GameStatus.menu) :
    gm.startGame.Inv := by
  obtain ⟨-, -, hbr⟩ := h.menu hs
  have hb1 : (1 : Int) ≤ gm.ballsRemaining := by rw [hbr]; decide
  simp only [Game.startGame]
  exact inv_loadLevel _ _ rfl h.aim_lo h.aim_hi hb1 h.balls_hi

theorem inv_startNextLevel (gm : Game ℝ) (h : gm.Inv) (hs : gm.state = GameStatus.levelComplete) :
    gm.startNextLevel.Inv := by
  simp only [Game.startNextLevel]
  exact inv_loadLevel _ _ rfl h.aim_lo h.aim_hi (h.levelComplete hs) h.balls_hi

theorem inv_handleMouseDown (gm : Game ℝ) (h : gm.Inv) : (gm.handleMouseDown realMath).Inv := by
  unfold Game.handleMouseDown
  cases hs : gm.state with
  | menu => exact inv_startGame gm h hs
  | levelComplete => exact inv_startNextLevel gm h hs
  | gameOver => exact inv_startGame gm.resetGame (inv_resetGame gm h) rfl
  | ready => exact inv_launchBall gm h
  | playing => exact h

theorem inv_onKeyDown (gm : Game ℝ) (key : Key) (h : gm.Inv) :
    (gm.onKeyDown realMath key).Inv := by
  simp only [Game.onKeyDown]
  split_ifs <;>
    first
      | exact h
      | exact inv_setInput _ _ h
      | exact inv_launchBall _ h
      | exact inv_launchBall _ (inv_setInput _ _ h)
      | exact inv_setInput _ _ (inv_setInput _ _ h)
      | exact inv_launchBall _ (inv_setInput _ _ (inv_setInput _ _ h))

theorem inv_onKeyUp (gm : Game ℝ) (key : Key) (h : gm.Inv) : (gm.onKeyUp key).Inv := by
  simp only [Game.onKeyUp]
  split_ifs <;>
    first
      | exact h
      | exact inv_setInput _ _ h
      | exact inv_setInput _ _ (inv_setInput _ _ h)

theorem inv_onPointerMove (gm : Game ℝ) (x y : ℝ) (h : gm.Inv) :
    (gm.onPointerMove realMath x y).Inv := by
  simp only [Game.onPointerMove]
  split_ifs
  · exact inv_updateAimAngle _ (inv_setInput _ _ (inv_setInput _ _ h))
  · exact inv_setInput _ _ (inv_setInput _ _ h)

theorem inv_onMouseDown (gm : Game ℝ) (h : gm.Inv) : (gm.onMouseDown realMath).Inv :=
  inv_handleMouseDown _ (inv_setInput _ _ h)

theorem inv_onPointerUp (gm : Game ℝ) (h : gm.Inv) : gm.onPointerUp.Inv :=
  inv_setInput _ _ h

theorem inv_onTouchStart (gm : Game ℝ) (x y : ℝ) (h : gm.Inv) :
    (gm.onTouchStart realMath x y).Inv :=
  inv_handleMouseDown _ (inv_setInput _ _ (inv_setInput _ _ (inv_setInput _ _ h)))

end InvariantSteps

section InvariantTick

theorem inv_of_core (g1 : Game ℝ) (st : GameStatus) (ha0 : 0 ≤ g1.aimAngle)
    (ha1 : g1.aimAngle ≤ realMath.PI) (hb0 : 0 ≤ g1.ballsRemaining)
    (hb1 : g1.ballsRemaining ≤ MAX_BALLS) (hpad : ∀ p, g1.paddle = some p → p.y = 590)
    (hball : ∀ b, g1.ball = some b → b.radius = 10 ∧ 0 < b.speed)
    (hblk : ∀ blk ∈ g1.blocks, blk.y ≤ 200 ∧ blk.height = 20)
    (hst : st = GameStatus.gameOver ∨
      (st = GameStatus.levelComplete ∧ 1 ≤ g1.ballsRemaining) ∨
      (st = GameStatus.playing ∧ 1 ≤ g1.ballsRemaining ∧ isLevelComplete g1.blocks = false ∧
        (∃ p, g1.paddle = some p) ∧ ∃ b, g1.ball = some b) ∨
      (st = GameStatus.ready ∧ 1 ≤ g1.ballsRemaining ∧ (∃ p, g1.paddle = some p) ∧
        ∃ b, g1.ball = some b ∧ b.y = 580)) :
    ({ g1 with state := st } : Game ℝ).Inv := by
  rcases hst with rfl | ⟨rfl, h1⟩ | ⟨rfl, h1, h2, h3, h4⟩ | ⟨rfl, h1, h3, b, h4, h5⟩
  · refine ⟨ha0, ha1, hb0, hb1, hpad, hball, hblk, ?_, ?_, ?_, ?_, ?_⟩ <;> intro hc <;>
      simp at hc
  · refine ⟨ha0, ha1, hb0, hb1, hpad, hball, hblk, ?_, ?_, ?_, ?_, fun _ => h1⟩ <;> intro hc <;>
      simp at hc
  · refine ⟨ha0, ha1, hb0, hb1, hpad, hball, hblk, ?_, fun _ => ⟨h3, h4⟩, ?_,
      fun _ => ⟨h1, Or.inl h2⟩, ?_⟩ <;> intro hc <;> simp at hc
  · refine ⟨ha0, ha1, hb0, hb1, hpad, hball, hblk, ?_, fun _ => ⟨h3, b, h4⟩, ?_, ?_, ?_⟩
    · intro hc
      simp at hc
    · intro _
      refine ⟨h1, ?_⟩
      intro b1 hb1
      have e : g1.ball = some b1 := hb1
      rw [h4] at e
      rw [← Option.some.inj e]
      exact h5
    · intro hc
      simp at hc
    · intro hc
      simp at hc

theorem inv_update_ready (gm : Game ℝ) (h : gm.Inv) (hs : gm.state = GameStatus.ready) :
    ∃ g1, gm.update realMath = some g1 ∧ g1.Inv := by
  obtain ⟨⟨p, hp⟩, ⟨b, hb⟩⟩ := h.live (Or.inl hs)
  obtain ⟨hrad, hspd⟩ := h.ball_ok b hb
  obtain ⟨p1, hp1⟩ : ∃ p1, p1 = handlePaddleControl p.update gm.input := ⟨_, rfl⟩
  have hp1y : p1.y = 590 := by
    rw [hp1, paddle_control_y]
    exact h.paddle_y p hp
  obtain ⟨X, hX⟩ : ∃ X : Game ℝ, X
      = { ({ gm with
              paddle := some p1
              ball := some { b with x := p1.x + p1.width / 2, y := p1.y - b.radius } } : Game ℝ) with
          state := GameStatus.ready } := ⟨_, rfl⟩
  have e : gm.update realMath = some { X with blocks := X.blocks.map Block.update } := by
    rw [hX, hp1]
    simp [Game.update, hp, hs, Game.updateReady, hb]
  have hinv : X.Inv := by
    rw [hX]
    refine inv_of_core _ _ h.aim_lo h.aim_hi h.balls_lo h.balls_hi ?_ ?_ h.blocks_ok
      (Or.inr (Or.inr (Or.inr ⟨rfl, (h.ready hs).1, ⟨p1, rfl⟩, _, rfl, ?_⟩)))
    · intro q hq
      have e1 : p1 = q := Option.some.inj hq
      rw [← e1]
      exact hp1y
    · intro q hq
      have e1 : ({ b with x := p1.x + p1.width / 2, y := p1.y - b.radius } : Ball ℝ) = q :=
        Option.some.inj hq
      rw [← e1]
      exact ⟨hrad, hspd⟩
    · show p1.y - b.radius = 580
      rw [hp1y, hrad]
      norm_num
  exact ⟨_, e, inv_updateBlocks X hinv⟩

theorem inv_update_playing (gm : Game ℝ) (h : gm.Inv) (hs : gm.state = GameStatus.playing) :
    ∃ g1, gm.update realMath = some g1 ∧ g1.Inv := by
  obtain ⟨⟨p, hp⟩, ⟨b, hb⟩⟩ := h.live (Or.inr hs)
  obtain ⟨hrad, hspd⟩ := h.ball_ok b hb
  obtain ⟨hbr, hAB⟩ := h.playing hs
  obtain ⟨p1, hp1⟩ : ∃ p1, p1 = handlePaddleControl p.update gm.input := ⟨_, rfl⟩
  obtain ⟨b2, hb2⟩ :
      ∃ b2, b2 = (handleBallPaddleCollision realMath (b.update realMath) p1).2 := ⟨_, rfl⟩
  have hp1y : p1.y = 590 := by
    rw [hp1, paddle_control_y]
    exact h.paddle_y p hp
  obtain ⟨u1, u2, u3⟩ := ball_update_frame realMath b
  obtain ⟨c1, c2, c3⟩ := paddle_collision_body realMath (b.update realMath) p1
  rw [← hb2] at c1 c2 c3
  have hb2r : b2.radius = 10 := by rw [c1, u1, hrad]
  have hb2s : 0 < b2.speed := by
    rw [c2, u2]
    exact hspd
  have hCH : CANVAS_HEIGHT ℝ = 640 := rfl
  have hbhi := h.balls_hi
  have hmid : gm.afterSweep realMath
      = Game.checkBlockCollisions realMath { gm with paddle := some p1, ball := some b2 } := by
    rw [hb2, hp1]
    simp only [Game.afterSweep, hb, hp]
  have hpad1 : ∀ q, some p1 = some q → q.y = 590 := by
    intro q hq
    rw [← Option.some.inj hq]
    exact hp1y
  by_cases hl : b2.y - b2.radius > CANVAS_HEIGHT ℝ
  · have hl1 : 650 < b2.y := by
      rw [hb2r, hCH] at hl
      linarith
    have hA : isLevelComplete gm.blocks = false := by
      rcases hAB with hA | hB
      · exact hA
      · exfalso
        obtain ⟨hy, hv⟩ := hB b hb
        have h1 : (b.update realMath).y ≤ 580 := u3 (by rw [hrad]; norm_num) hy hv
        rcases c3 with c3 | c3
        · rw [c3] at hl1
          linarith
        · rw [c3, hp1y, u1, hrad] at hl1
          norm_num at hl1
    have hsw : gm.afterSweep realMath
        = some { gm with paddle := some p1, ball := some b2 } := by
      rw [hmid]
      refine checkBlockCollisions_far realMath _ b2 rfl (by rw [hb2r]; norm_num) ?_
      intro blk hblk
      obtain ⟨k1, k2⟩ := h.blocks_ok blk hblk
      rw [k2, hb2r]
      constructor
      · norm_num
      · linarith
    have hup := update_of_afterSweep realMath gm _ hs hsw
    by_cases hlast : gm.ballsRemaining - 1 ≤ 0
    · obtain ⟨X, hX⟩ : ∃ X : Game ℝ, X
          = { ({ gm with
                  paddle := some p1
                  ball := some b2
                  ballsRemaining := gm.ballsRemaining - 1 } : Game ℝ) with
              state := GameStatus.gameOver } := ⟨_, rfl⟩
      have e : gm.update realMath = some { X with blocks := X.blocks.map Block.update } := by
        rw [hup, hX]
        simp [hl, Game.ballLost, hlast, Game.gameOver, hA]
      have hb0 : 0 ≤ gm.ballsRemaining - 1 := by omega
      have hb1 : gm.ballsRemaining - 1 ≤ MAX_BALLS := by omega
      have hinv : X.Inv := by
        rw [hX]
        refine inv_of_core _ _ h.aim_lo h.aim_hi hb0 hb1 hpad1 ?_ h.blocks_ok (Or.inl rfl)
        intro q hq
        have e1 : b2 = q := Option.some.inj hq
        rw [← e1]
        exact ⟨hb2r, hb2s⟩
      exact ⟨_, e, inv_updateBlocks X hinv⟩
    · obtain ⟨X, hX⟩ : ∃ X : Game ℝ, X
          = { ({ gm with
                  paddle := some p1
                  ball := some (createBall p1)
                  ballsRemaining := gm.ballsRemaining - 1 } : Game ℝ) with
              state := GameStatus.ready } := ⟨_, rfl⟩
      have e : gm.update realMath = some { X with blocks := X.blocks.map Block.update } := by
        rw [hup, hX]
        simp [hl, Game.ballLost, hlast, Game.gameOver, hA]
      have hb0 : 0 ≤ gm.ballsRemaining - 1 := by omega
      have hb1 : gm.ballsRemaining - 1 ≤ MAX_BALLS := by omega
      have hb3 : 1 ≤ gm.ballsRemaining - 1 := by omega
      obtain ⟨k1, k2, k3⟩ := createBall_fields p1 hp1y
      have hinv : X.Inv := by
        rw [hX]
        refine inv_of_core _ _ h.aim_lo h.aim_hi hb0 hb1 hpad1 ?_ h.blocks_ok
          (Or.inr (Or.inr (Or.inr ⟨rfl, hb3, ⟨p1, rfl⟩, createBall p1, rfl, k3⟩)))
        intro q hq
        have e1 : createBall p1 = q := Option.some.inj hq
        rw [← e1]
        exact ⟨k1, k2⟩
      exact ⟨_, e, inv_updateBlocks X hinv⟩
  · obtain ⟨g1, e1, sw, sh, -⟩ := checkBlockCollisions_swept realMath
      { gm with paddle := some p1, ball := some b2 } b2 p1 rfl rfl
    obtain ⟨s1, s2, s3, s4, s5, s6, s7, s8, s9⟩ := sw
    obtain ⟨b3, hb3, -, y3, r3, -, sp3⟩ := s8 b2 rfl
    obtain ⟨p3, hp3, py3, -⟩ := s9 p1 rfl
    have hs1 : g1.state = GameStatus.playing := Eq.trans s1 hs
    have ha : g1.aimAngle = gm.aimAngle := s3
    have hb3a : g1.ball = some b3 := hb3
    have hp3a : g1.paddle = some p3 := hp3
    have hbr1 : gm.ballsRemaining ≤ g1.ballsRemaining := s6
    have hbr2 : g1.ballsRemaining ≤ max gm.ballsRemaining MAX_BALLS := s7
    have hbr3 : g1.ballsRemaining ≤ MAX_BALLS := le_trans hbr2 (max_le h.balls_hi le_rfl)
    have hbr4 : 1 ≤ g1.ballsRemaining := le_trans hbr hbr1
    have hbr5 : 0 ≤ g1.ballsRemaining := by omega
    have hnl : ¬ b3.y - b3.radius > CANVAS_HEIGHT ℝ := by
      rw [y3, r3]
      exact hl
    have hsw : gm.afterSweep realMath = some g1 := by
      rw [hmid]
      exact e1
    have hup := update_of_afterSweep realMath gm g1 hs hsw
    have ha0 : 0 ≤ g1.aimAngle := by
      rw [ha]
      exact h.aim_lo
    have ha1 : g1.aimAngle ≤ realMath.PI := by
      rw [ha]
      exact h.aim_hi
    have hpad : ∀ q, g1.paddle = some q → q.y = 590 := by
      intro q hq
      rw [hp3a] at hq
      rw [← Option.some.inj hq, py3]
      exact hp1y
    have hball : ∀ q, g1.ball = some q → q.radius = 10 ∧ 0 < q.speed := by
      intro q hq
      rw [hb3a] at hq
      rw [← Option.some.inj hq, r3]
      exact ⟨hb2r, sp3 hb2s⟩
    have hblk : ∀ blk ∈ g1.blocks, blk.y ≤ 200 ∧ blk.height = 20 := by
      intro blk hblk
      obtain ⟨q, hq, hsame⟩ := forall₂_mem_right _ _ _ sh blk hblk
      obtain ⟨-, t2, -, t4, -⟩ := hsame
      rw [t2, t4]
      exact h.blocks_ok q hq
    have hg1 : g1 = { g1 with state := GameStatus.playing } := by
      cases g1
      simp only at hs1
      subst hs1
      rfl
    by_cases hc : isLevelComplete g1.blocks = true
    · by_cases hlv : g1.level ≥ MAX_LEVELS
      · have e : gm.update realMath
            = some { ({ g1 with state := GameStatus.gameOver } : Game ℝ) with
                blocks := g1.blocks.map Block.update } := by
          rw [hup]
          simp [hb3a, hnl, hc, Game.completeLevel, hlv, Game.gameOver]
        exact ⟨_, e, inv_updateBlocks { g1 with state := GameStatus.gameOver }
          (inv_of_core g1 _ ha0 ha1 hbr5 hbr3 hpad hball hblk (Or.inl rfl))⟩
      · have e : gm.update realMath
            = some { ({ g1 with state := GameStatus.levelComplete } : Game ℝ) with
                blocks := g1.blocks.map Block.update } := by
          rw [hup]
          simp [hb3a, hnl, hc, Game.completeLevel, hlv, Game.gameOver]
        exact ⟨_, e, inv_updateBlocks { g1 with state := GameStatus.levelComplete }
          (inv_of_core g1 _ ha0 ha1 hbr5 hbr3 hpad hball hblk (Or.inr (Or.inl ⟨rfl, hbr4⟩)))⟩
    · have e : gm.update realMath = some { g1 with blocks := g1.blocks.map Block.update } := by
        rw [hup]
        simp [hb3a, hnl, hc]
      have hcf : isLevelComplete g1.blocks = false := by
        cases hv : isLevelComplete g1.blocks with
        | true => exact absurd hv hc
        | false => rfl
      have hinv : g1.Inv := by
        rw [hg1]
        exact inv_of_core g1 _ ha0 ha1 hbr5 hbr3 hpad hball hblk
          (Or.inr (Or.inr (Or.inl ⟨rfl, hbr4, hcf, ⟨p3, hp3a⟩, ⟨b3, hb3a⟩⟩)))
      exact ⟨_, e, inv_updateBlocks g1 hinv⟩

theorem inv_step (gm : Game ℝ) (h : gm.Inv) (e : Event ℝ) :
    ∃ g1, Game.handle realMath gm e = some g1 ∧ g1.Inv := by
  cases e with
  | keyDown key => exact ⟨_, rfl, inv_onKeyDown gm key h⟩
  | keyUp key => exact ⟨_, rfl, inv_onKeyUp gm key h⟩
  | mouseMove x y => exact ⟨_, rfl, inv_onPointerMove gm x y h⟩
  | mouseDown => exact ⟨_, rfl, inv_onMouseDown gm h⟩
  | mouseUp => exact ⟨_, rfl, inv_onPointerUp gm h⟩
  | touchStart x y => exact ⟨_, rfl, inv_onTouchStart gm x y h⟩
  | touchMove x y => exact ⟨_, rfl, inv_onPointerMove gm x y h⟩
  | touchEnd => exact ⟨_, rfl, inv_onPointerUp gm h⟩
  | restartClick => exact ⟨_, rfl, inv_resetGame gm h⟩
  | frame =>
    show ∃ g1, gm.gameLoop realMath = some g1 ∧ g1.Inv
    unfold Game.gameLoop
    by_cases hp : gm.state = GameStatus.playing
    · rw [if_pos (Or.inl hp)]
      exact inv_update_playing gm h hp
    · by_cases hr : gm.state = GameStatus.ready
      · rw [if_pos (Or.inr hr)]
        exact inv_update_ready gm h hr
      · rw [if_neg (not_or.mpr ⟨hp, hr⟩)]
        exact ⟨gm, rfl, h⟩

theorem reachable_inv (gm : Game ℝ) (hr : Game.Reachable realMath gm) : gm.Inv := by
  induction hr with
  | init g => exact inv_new g
  | step gm g1 e _ he ih =>
    obtain ⟨g2, h2, hinv⟩ := inv_step gm ih e
    rw [he] at h2
    rw [Option.some.inj h2]
    exact hinv

end InvariantTick

section ReachableProperties

theorem loadLevel_eq (gm : Game ℝ) (level : Int) :
    gm.loadLevel level
      = { gm with
          blocks := (generateLevel level gm.rng).1
          paddle := some (generateLevel level gm.rng).2.1
          ball := some (createBall (generateLevel level gm.rng).2.1)
          rng := (generateLevel level gm.rng).2.2 } := rfl

/-- C21: in every reachable game whose state is `MENU`, `level = 1`,
`score = 0` and `ballsRemaining = INITIAL_BALLS`, so that the start command
(a press in `MENU`, which runs `Game.startGame`) loads level 1 and enters
`READY` with these counters; and `Game.resetGame()` run on any game gives
state `MENU`, level 1, score 0, `INITIAL_BALLS` balls, no ball, no paddle and
no blocks, and keeps the aim angle, the input and the random stream. -/
theorem menu_counters (gm : Game ℝ) (hr : Game.Reachable realMath gm) :
    (gm.state = GameStatus.menu →
      (gm.level = 1 ∧ gm.score = 0 ∧ gm.ballsRemaining = INITIAL_BALLS) ∧
      gm.handleMouseDown realMath = gm.startGame ∧
      gm.startGame = Game.loadLevel { gm with state := GameStatus.ready } 1 ∧
      gm.startGame.state = GameStatus.ready ∧ gm.startGame.level = 1 ∧
      gm.startGame.score = 0 ∧ gm.startGame.ballsRemaining = INITIAL_BALLS ∧
      gm.startGame.blocks = (generateLevel 1 gm.rng).1 ∧
      gm.startGame.paddle = some (generateLevel 1 gm.rng).2.1 ∧
      gm.startGame.ball = some (createBall (generateLevel 1 gm.rng).2.1)) ∧
    (∀ g0 : Game ℝ,
      g0.resetGame.state = GameStatus.menu ∧ g0.resetGame.level = 1 ∧
      g0.resetGame.score = 0 ∧ g0.resetGame.ballsRemaining = INITIAL_BALLS ∧
      g0.resetGame.ball = none ∧ g0.resetGame.paddle = none ∧ g0.resetGame.blocks = [] ∧
      g0.resetGame.aimAngle = g0.aimAngle ∧ g0.resetGame.input = g0.input ∧
      g0.resetGame.rng = g0.rng) := by
  refine ⟨?_, fun g0 => ⟨rfl, rfl, rfl, rfl, rfl, rfl, rfl, rfl, rfl, rfl⟩⟩
  intro hs
  obtain ⟨h1, h2, h3⟩ := (reachable_inv gm hr).menu hs
  have e : gm.startGame = Game.loadLevel { gm with state := GameStatus.ready } 1 := by
    simp only [Game.startGame, h1]
  refine ⟨⟨h1, h2, h3⟩, ?_, e, ?_⟩
  · simp only [Game.handleMouseDown, hs]
  · rw [e, loadLevel_eq]
    simp only [true_and, and_true]
    exact ⟨h1, h2, h3⟩

/-- Witness of C21: the game built by the constructor is reachable and in
`MENU`. -/
theorem menu_counters_witness :
    freshGame.level = 1 ∧ freshGame.score = 0 ∧ freshGame.ballsRemaining = INITIAL_BALLS :=
  ((menu_counters freshGame (Game.Reachable.init _)).1 rfl).1

/-- C22: in every game reachable from the constructor's state through the
events of the game (key, pointer and touch events, the restart button, and
animation frames), `0 ≤ ballsRemaining ≤ MAX_BALLS`; and every event on such
a game returns a game, again within these bounds. -/
theorem ballsRemaining_bounds (gm : Game ℝ) (hr : Game.Reachable realMath gm) :
    0 ≤ gm.ballsRemaining ∧ gm.ballsRemaining ≤ MAX_BALLS ∧
    ∀ e : Event ℝ, ∃ g1, Game.handle realMath gm e = some g1 ∧
      0 ≤ g1.ballsRemaining ∧ g1.ballsRemaining ≤ MAX_BALLS := by
  have h := reachable_inv gm hr
  refine ⟨h.balls_lo, h.balls_hi, ?_⟩
  intro e
  obtain ⟨g1, e1, h1⟩ := inv_step gm h e
  exact ⟨g1, e1, h1.balls_lo, h1.balls_hi⟩

/-- Witness of C22: the game `readyGame`, reached by one press. -/
theorem ballsRemaining_bounds_witness :
    0 ≤ readyGame.ballsRemaining ∧ readyGame.ballsRemaining ≤ MAX_BALLS :=
  ⟨(ballsRemaining_bounds readyGame
      (Game.Reachable.step freshGame readyGame Event.mouseDown (Game.Reachable.init _) rfl)).1,
    (ballsRemaining_bounds readyGame
      (Game.Reachable.step freshGame readyGame Event.mouseDown (Game.Reachable.init _) rfl)).2.1⟩

/-- C28: after `Game.updateAimAngle()` on a game with a ball,
`0 ≤ aimAngle ≤ π` whatever the pointer position and whatever `atan2`
returns (for any host whose `PI` is not negative); on a game with no ball the
game is unchanged; the constructor sets `aimAngle = π / 2`; in every
reachable game `0 ≤ aimAngle ≤ π`; and a launch from a reachable game in
`READY` gives the ball `velocityY ≤ 0`. -/
theorem aimAngle_bounds (gm : Game ℝ) (hr : Game.Reachable realMath gm) :
    (∀ (m : JSMath ℝ) (g0 : Game ℝ) (b : Ball ℝ), 0 ≤ m.PI → g0.ball = some b →
      0 ≤ (g0.updateAimAngle m).aimAngle ∧ (g0.updateAimAngle m).aimAngle ≤ m.PI) ∧
    (∀ (m : JSMath ℝ) (g0 : Game ℝ), g0.ball = none → g0.updateAimAngle m = g0) ∧
    (∀ g : Rng ℝ, (Game.new realMath g).aimAngle = realMath.PI / 2) ∧
    0 ≤ gm.aimAngle ∧ gm.aimAngle ≤ realMath.PI ∧
    (∀ b, gm.ball = some b → gm.state = GameStatus.ready →
      (gm.launchBall realMath).ball = some (b.launch realMath gm.aimAngle) ∧
      (gm.launchBall realMath).state = GameStatus.playing ∧
      (b.launch realMath gm.aimAngle).velocityY ≤ 0) := by
  have h := reachable_inv gm hr
  refine ⟨?_, fun m g0 hb => updateAimAngle_none m g0 hb, fun g => rfl, h.aim_lo, h.aim_hi, ?_⟩
  · intro m g0 b hpi hb
    rw [updateAimAngle_some m g0 b hb]
    exact ⟨le_max_left _ _, max_le hpi (min_le_left _ _)⟩
  · intro b hb hs
    refine ⟨?_, ?_, launch_velocityY b gm.aimAngle h.aim_lo h.aim_hi (le_of_lt (h.ball_ok b hb).2)⟩
    · simp [Game.launchBall, hb, hs]
    · simp [Game.launchBall, hb, hs]

/-- Witness of C28: the game `readyGame`, reached by one press. -/
theorem aimAngle_bounds_witness :
    0 ≤ readyGame.aimAngle ∧ readyGame.aimAngle ≤ realMath.PI :=
  ⟨(aimAngle_bounds readyGame
      (Game.Reachable.step freshGame readyGame Event.mouseDown
        (Game.Reachable.init _) rfl)).2.2.2.1,
    (aimAngle_bounds readyGame
      (Game.Reachable.step freshGame readyGame Event.mouseDown
        (Game.Reachable.init _) rfl)).2.2.2.2.1⟩

end ReachableProperties

section DoubleHitProperties

variable {α : Type} [LinearOrderedField α] [FloorRing α]

theorem rebound_velocity (b : Ball α) (d : Direction) :
    (handleBallRebound b d).velocityX
        = (if d.isVertical = true then b.velocityX else -b.velocityX) ∧
      (handleBallRebound b d).velocityY
        = (if d.isVertical = true then -b.velocityY else b.velocityY) := by
  cases d <;> simp [handleBallRebound, Direction.isVertical]

theorem normalizeVelocity_scale (m : JSMath α) (c : Ball α) (hs : 0 < c.speed) :
    ∃ k, 0 < k ∧ (c.normalizeVelocity m).velocityX = k * c.velocityX ∧
      (c.normalizeVelocity m).velocityY = k * c.velocityY := by
  by_cases hcs : m.sqrt (c.velocityX * c.velocityX + c.velocityY * c.velocityY) > 0
  · refine ⟨c.speed / m.sqrt (c.velocityX * c.velocityX + c.velocityY * c.velocityY),
      div_pos hs hcs, ?_, ?_⟩
    · simp only [Ball.normalizeVelocity, hcs, if_true]
      ring
    · simp only [Ball.normalizeVelocity, hcs, if_true]
      ring
  · refine ⟨1, one_pos, ?_, ?_⟩
    · simp only [Ball.normalizeVelocity, hcs, if_false, one_mul]
    · simp only [Ball.normalizeVelocity, hcs, if_false, one_mul]

theorem applyBonus_scale (m : JSMath α) (bt : BonusType) (gm : Game α) (b : Ball α)
    (p : Paddle α) (hb : gm.ball = some b) (hp : gm.paddle = some p) (hs : 0 < b.speed) :
    ∃ g1 b1 k, applyBonus m bt gm = some g1 ∧ g1.ball = some b1 ∧ 0 < k ∧
      b1.velocityX = k * b.velocityX ∧ b1.velocityY = k * b.velocityY := by
  cases bt with
  | extraBall =>
    by_cases hc : gm.ballsRemaining < MAX_BALLS
    · simp only [applyBonus, hc, if_true]
      exact ⟨_, b, 1, rfl, hb, one_pos, (one_mul _).symm, (one_mul _).symm⟩
    · simp only [applyBonus, hc, if_false]
      exact ⟨_, b, 1, rfl, hb, one_pos, (one_mul _).symm, (one_mul _).symm⟩
  | enlargePaddle =>
    simp only [applyBonus, hp, Option.map_some']
    exact ⟨_, b, 1, rfl, hb, one_pos, (one_mul _).symm, (one_mul _).symm⟩
  | shrinkPaddle =>
    simp only [applyBonus, hp, Option.map_some']
    exact ⟨_, b, 1, rfl, hb, one_pos, (one_mul _).symm, (one_mul _).symm⟩
  | speedUp =>
    simp only [applyBonus, hb, Option.map_some']
    obtain ⟨k, hk, h1, h2⟩ := normalizeVelocity_scale m { b with speed := b.speed * 1.2 }
      (mul_pos hs (by norm_num))
    exact ⟨_, _, k, rfl, rfl, hk, h1, h2⟩
  | speedDown =>
    simp only [applyBonus, hb, Option.map_some']
    obtain ⟨k, hk, h1, h2⟩ := normalizeVelocity_scale m { b with speed := b.speed * 0.8 }
      (mul_pos hs (by norm_num))
    exact ⟨_, _, k, rfl, rfl, hk, h1, h2⟩

theorem onBlockHit_scale (m : JSMath α) (gm : Game α) (blk : Block α) (b : Ball α)
    (p : Paddle α) (hb : gm.ball = some b) (hp : gm.paddle = some p) (hs : 0 < b.speed) :
    ∃ g1 b1 k, Game.onBlockHit m gm blk = some g1 ∧ g1.ball = some b1 ∧ 0 < k ∧
      b1.velocityX = k * b.velocityX ∧ b1.velocityY = k * b.velocityY ∧
      (blk.type ≠ BlockType.bonus → k = 1) := by
  unfold Game.onBlockHit
  cases hbt : blk.bonusType with
  | none =>
    exact ⟨_, b, 1, rfl, hb, one_pos, (one_mul _).symm, (one_mul _).symm, fun _ => rfl⟩
  | some bt =>
    by_cases ht : blk.type = BlockType.bonus
    · simp only [ht, if_true]
      obtain ⟨g1, b1, k, e1, hb1, hk, h1, h2⟩ := applyBonus_scale m bt
        ({ gm with score := gm.score + blk.scoreValue } : Game α) b p hb hp hs
      exact ⟨g1, b1, k, e1, hb1, hk, h1, h2, fun hne => absurd rfl hne⟩
    · simp only [ht, if_false]
      exact ⟨_, b, 1, rfl, hb, one_pos, (one_mul _).symm, (one_mul _).symm, fun _ => rfl⟩

theorem blockCollision_hit (b : Ball α) (blk : Block α) (g : Rng α) (d : Direction)
    (hl : b.isLaunched = true) (ha : blk.isActive = true)
    (hd : checkCircleRectCollision b.toCircle blk.toRect = some d) :
    handleBallBlockCollision b blk g
      = { collided := true, ball := handleBallRebound b d, block := (blk.hit g).2.1,
          rng := (blk.hit g).2.2, destroyed := (blk.hit g).1 } := by
  simp [handleBallBlockCollision, hl, ha, hd]

theorem collideBlock_hit (m : JSMath α) (gm : Game α) (blk : Block α) (b : Ball α)
    (p : Paddle α) (d : Direction) (hb : gm.ball = some b) (hp : gm.paddle = some p)
    (hl : b.isLaunched = true) (hs : 0 < b.speed) (ha : blk.isActive = true)
    (hd : checkCircleRectCollision b.toCircle blk.toRect = some d) :
    ∃ g1 b1 p1 k, Game.collideBlock m gm blk = some (g1, (blk.hit gm.rng).2.1) ∧
      g1.ball = some b1 ∧ g1.paddle = some p1 ∧ b1.toCircle = b.toCircle ∧
      b1.isLaunched = true ∧ 0 < b1.speed ∧ 0 < k ∧
      b1.velocityX = k * (handleBallRebound b d).velocityX ∧
      b1.velocityY = k * (handleBallRebound b d).velocityY ∧
      (blk.type ≠ BlockType.bonus → k = 1) := by
  obtain ⟨g2, blk2, e2, sw, -, -⟩ := collideBlock_swept m gm blk b p hb hp
  obtain ⟨-, -, -, -, -, -, -, s8, s9⟩ := sw
  obtain ⟨b2, hb2, x2, y2, r2, l2, sp2⟩ := s8 b hb
  obtain ⟨p2, hp2, -, -⟩ := s9 p hp
  have hc := blockCollision_hit b blk gm.rng d hl ha hd
  have htype : (blk.hit gm.rng).2.1.type = blk.type := (hit_shape blk gm.rng ha).1.2.2.2.2.1
  have key : ∃ g1 b1 k, Game.collideBlock m gm blk = some (g1, (blk.hit gm.rng).2.1) ∧
      g1.ball = some b1 ∧ 0 < k ∧
      b1.velocityX = k * (handleBallRebound b d).velocityX ∧
      b1.velocityY = k * (handleBallRebound b d).velocityY ∧
      (blk.type ≠ BlockType.bonus → k = 1) := by
    unfold Game.collideBlock
    simp only [hb, hc]
    by_cases hdes : (blk.hit gm.rng).1 = true
    · have hs1 : 0 < (handleBallRebound b d).speed := by
        rw [(rebound_position b d).2.2.2.2]
        exact hs
      obtain ⟨g1, b1, k, e1, hb1, hk, h1, h2, h3⟩ := onBlockHit_scale m
        ({ gm with ball := some (handleBallRebound b d), rng := (blk.hit gm.rng).2.2 } : Game α)
        (blk.hit gm.rng).2.1 (handleBallRebound b d) p rfl hp hs1
      simp only [hdes, if_true, e1, Option.map_some']
      exact ⟨g1, b1, k, rfl, hb1, hk, h1, h2, fun hne => h3 (by rw [htype]; exact hne)⟩
    · simp only [hdes, Bool.false_eq_true, if_false]
      exact ⟨_, _, 1, rfl, rfl, one_pos, (one_mul _).symm, (one_mul _).symm, fun _ => rfl⟩
  obtain ⟨g1, b1, k, e1, hb1, hk, h1, h2, h3⟩ := key
  have eg : (g2, blk2) = (g1, (blk.hit gm.rng).2.1) := Option.some.inj (e2.symm.trans e1)
  obtain ⟨rfl, -⟩ := Prod.mk.inj eg
  have eb : b2 = b1 := Option.some.inj (hb2.symm.trans hb1)
  subst eb
  refine ⟨g2, b2, p2, k, e1, hb1, hp2, ?_, ?_, sp2 hs, hk, h1, h2, h3⟩
  · simp only [Ball.toCircle, x2, y2, r2]
  · rw [l2]
    exact hl

theorem collideBlock_miss (m : JSMath α) (gm : Game α) (blk : Block α) (b : Ball α)
    (hb : gm.ball = some b) (hm : hitsBlock b blk = false) :
    Game.collideBlock m gm blk = some (gm, blk) := by
  by_cases ha : blk.isActive = true
  · have hn : checkCircleRectCollision b.toCircle blk.toRect = none := by
      simp only [hitsBlock, ha, Bool.true_and] at hm
      cases hc : checkCircleRectCollision b.toCircle blk.toRect with
      | none => rfl
      | some d => simp [hc] at hm
    have hc : handleBallBlockCollision b blk gm.rng
        = { collided := false, ball := b, block := blk, rng := gm.rng, destroyed := false } := by
      unfold handleBallBlockCollision
      split
      · rfl
      · rw [hn]
    cases gm
    simp only at hb
    subst hb
    simp [Game.collideBlock, hc]
  · have hf : blk.isActive = false := by
      cases h : blk.isActive
      · rfl
      · exact absurd h ha
    exact collideBlock_inactive m gm blk hf

theorem sweepBlocks_cons_some (m : JSMath α) (gm g1 g2 : Game α) (blk blk1 : Block α)
    (rest rest1 : List (Block α)) (h1 : Game.collideBlock m gm blk = some (g1, blk1))
    (h2 : Game.sweepBlocks m g1 rest = some (g2, rest1)) :
    Game.sweepBlocks m gm (blk :: rest) = some (g2, blk1 :: rest1) := by
  simp only [Game.sweepBlocks, h1, h2]

theorem sweepBlocks_miss_append (m : JSMath α) (gm g2 : Game α) (b : Ball α)
    (hb : gm.ball = some b) (l rest rest1 : List (Block α))
    (hm : ∀ blk ∈ l, hitsBlock b blk = false)
    (h2 : Game.sweepBlocks m gm rest = some (g2, rest1)) :
    Game.sweepBlocks m gm (l ++ rest) = some (g2, l ++ rest1) := by
  induction l with
  | nil => exact h2
  | cons blk l ih =>
    exact sweepBlocks_cons_some m gm gm g2 blk blk (l ++ rest) (l ++ rest1)
      (collideBlock_miss m gm blk b hb (hm blk (List.mem_cons_self _ _)))
      (ih (fun q hq => hm q (List.mem_cons_of_mem _ hq)))

theorem hitsBlock_congr (b b1 : Ball α) (blk : Block α) (h : b1.toCircle = b.toCircle) :
    hitsBlock b1 blk = hitsBlock b blk := by
  simp only [hitsBlock, h]

end DoubleHitProperties

section DoubleHitClaim

variable {α : Type} [LinearOrderedField α] [FloorRing α]

/-- C31: in one `Game.checkBlockCollisions` sweep of a game with a paddle and
a launched ball of positive speed, if the ball overlaps exactly two active
blocks of the list (every other block is inactive or does not overlap it) and
both collisions are reported on the same axis, then the component on that
axis is negated twice.  After the iteration on the first of the two blocks
the velocity is a factor `kA > 0` times the old velocity with the component
on the axis negated (`handleBallRebound` negates exactly that component, and
applied for both directions it gives the ball back); the sweep returns a game
in which both blocks have been hit (`Block.hit` has run on each, taking one
hit point), the other blocks are untouched, the ball is where it was, and its
velocity is the old velocity times a factor `k > 0`: each component has the
sign it had before.  The factors are 1 unless the block is a bonus block,
whose speed power-up rescales the velocity. -/
theorem double_hit_same_axis (m : JSMath α) (gm : Game α) (b : Ball α) (p : Paddle α)
    (l0 l1 l2 : List (Block α)) (blkA blkB : Block α) (dA dB : Direction)
    (hb : gm.ball = some b) (hp : gm.paddle = some p) (hl : b.isLaunched = true)
    (hs : 0 < b.speed) (hblocks : gm.blocks = l0 ++ blkA :: (l1 ++ blkB :: l2))
    (hA : blkA.isActive = true) (hB : blkB.isActive = true)
    (hdA : checkCircleRectCollision b.toCircle blkA.toRect = some dA)
    (hdB : checkCircleRectCollision b.toCircle blkB.toRect = some dB)
    (haxis : dA.isVertical = dB.isVertical)
    (hrest : ∀ blk, blk ∈ l0 ∨ blk ∈ l1 ∨ blk ∈ l2 → hitsBlock b blk = false) :
    (Game.checkBlockCollisions m gm).isSome = true ∧
    (∃ gA bA kA, Game.sweepBlocks m gm (l0 ++ [blkA])
        = some (gA, l0 ++ [(blkA.hit gm.rng).2.1]) ∧
      gA.ball = some bA ∧ 0 < kA ∧
      bA.velocityX = kA * (if dA.isVertical = true then b.velocityX else -b.velocityX) ∧
      bA.velocityY = kA * (if dA.isVertical = true then -b.velocityY else b.velocityY) ∧
      (blkA.type ≠ BlockType.bonus → kA = 1)) ∧
    ((handleBallRebound b dA).velocityX
        = (if dA.isVertical = true then b.velocityX else -b.velocityX) ∧
      (handleBallRebound b dA).velocityY
        = (if dA.isVertical = true then -b.velocityY else b.velocityY) ∧
      handleBallRebound (handleBallRebound b dA) dB = b) ∧
    ∀ g1, Game.checkBlockCollisions m gm = some g1 →
      (∃ rA rB : Rng α,
        g1.blocks = l0 ++ (blkA.hit rA).2.1 :: (l1 ++ (blkB.hit rB).2.1 :: l2) ∧
        (blkA.hit rA).2.1.hitPoints = blkA.hitPoints - 1 ∧
        (blkB.hit rB).2.1.hitPoints = blkB.hitPoints - 1) ∧
      ∃ b1 k, g1.ball = some b1 ∧ b1.x = b.x ∧ b1.y = b.y ∧ 0 < k ∧
        b1.velocityX = k * b.velocityX ∧ b1.velocityY = k * b.velocityY ∧
        (blkA.type ≠ BlockType.bonus → blkB.type ≠ BlockType.bonus → k = 1) ∧
        (0 < b1.velocityX ↔ 0 < b.velocityX) ∧ (b1.velocityX < 0 ↔ b.velocityX < 0) ∧
        (0 < b1.velocityY ↔ 0 < b.velocityY) ∧ (b1.velocityY < 0 ↔ b.velocityY < 0) := by
  obtain ⟨gA, bA, pA, kA, eA, hbA, hpA, cA, lA, sA, hkA, vxA, vyA, oneA⟩ :=
    collideBlock_hit m gm blkA b p dA hb hp hl hs hA hdA
  have hdB1 : checkCircleRectCollision bA.toCircle blkB.toRect = some dB := by
    rw [cA]
    exact hdB
  obtain ⟨gB, bB, pB, kB, eB, hbB, hpB, cB, lB, sB, hkB, vxB, vyB, oneB⟩ :=
    collideBlock_hit m gA blkB bA pA dB hbA hpA lA sA hB hdB1
  have h0 : ∀ blk ∈ l0, hitsBlock b blk = false := fun blk h => hrest blk (Or.inl h)
  have h1 : ∀ blk ∈ l1, hitsBlock bA blk = false := by
    intro blk h
    rw [hitsBlock_congr b bA blk cA]
    exact hrest blk (Or.inr (Or.inl h))
  have h2 : ∀ blk ∈ l2, hitsBlock bB blk = false := by
    intro blk h
    rw [hitsBlock_congr bA bB blk cB, hitsBlock_congr b bA blk cA]
    exact hrest blk (Or.inr (Or.inr h))
  have s5 : Game.sweepBlocks m gB l2 = some (gB, l2) := by
    have := sweepBlocks_miss_append m gB gB bB hbB l2 [] [] h2 rfl
    simpa using this
  have s4 := sweepBlocks_cons_some m gA gB gB blkB _ l2 l2 eB s5
  have s3 := sweepBlocks_miss_append m gA gB bA hbA l1 _ _ h1 s4
  have s2 := sweepBlocks_cons_some m gm gA gB blkA _ _ _ eA s3
  have s1 := sweepBlocks_miss_append m gm gB b hb l0 _ _ h0 s2
  have e : Game.checkBlockCollisions m gm
      = some { gB with
          blocks := l0 ++ (blkA.hit gm.rng).2.1 :: (l1 ++ (blkB.hit gA.rng).2.1 :: l2) } := by
    simp only [Game.checkBlockCollisions, hblocks, s1, Option.map_some']
  have hx : bB.x = b.x := by
    have h3 : bB.toCircle.x = b.toCircle.x := by rw [cB, cA]
    exact h3
  have hy : bB.y = b.y := by
    have h3 : bB.toCircle.y = b.toCircle.y := by rw [cB, cA]
    exact h3
  obtain ⟨rxA, ryA⟩ := rebound_velocity b dA
  obtain ⟨rxB, ryB⟩ := rebound_velocity bA dB
  have hvx : bB.velocityX = kB * kA * b.velocityX := by
    rw [vxB, rxB, vxA, rxA, ← haxis]
    split_ifs <;> ring
  have hvy : bB.velocityY = kB * kA * b.velocityY := by
    rw [vyB, ryB, vyA, ryA, ← haxis]
    split_ifs <;> ring
  have hk : 0 < kB * kA := mul_pos hkB hkA
  have hfirst : Game.sweepBlocks m gm (l0 ++ [blkA])
      = some (gA, l0 ++ [(blkA.hit gm.rng).2.1]) :=
    sweepBlocks_miss_append m gm gA b hb l0 _ _ h0
      (sweepBlocks_cons_some m gm gA gA blkA _ [] [] eA rfl)
  have hback : handleBallRebound (handleBallRebound b dA) dB = b := by
    cases dA <;> cases dB <;> simp [Direction.isVertical] at haxis <;>
      simp [handleBallRebound]
  refine ⟨by rw [e]; rfl,
    ⟨gA, bA, kA, hfirst, hbA, hkA, by rw [vxA, rxA], by rw [vyA, ryA], oneA⟩,
    ⟨rxA, ryA, hback⟩, ?_⟩
  intro g1 hg1
  have eg : ({ gB with
      blocks := l0 ++ (blkA.hit gm.rng).2.1 :: (l1 ++ (blkB.hit gA.rng).2.1 :: l2) } : Game α)
      = g1 := Option.some.inj (e.symm.trans hg1)
  subst eg
  refine ⟨⟨gm.rng, gA.rng, rfl, hit_hitPoints blkA gm.rng, hit_hitPoints blkB gA.rng⟩,
    bB, kB * kA, hbB, hx, hy, hk, hvx, hvy, ?_, ?_, ?_, ?_, ?_⟩
  · intro tA tB
    rw [oneA tA, oneB tB, mul_one]
  · rw [hvx]
    exact mul_pos_iff_of_pos_left hk
  · rw [hvx]
    constructor
    · intro h
      by_contra hn
      have := mul_nonneg (le_of_lt hk) (not_lt.mp hn)
      exact absurd h (not_lt.mpr this)
    · intro h
      exact mul_neg_of_pos_of_neg hk h
  · rw [hvy]
    exact mul_pos_iff_of_pos_left hk
  · rw [hvy]
    constructor
    · intro h
      by_contra hn
      have := mul_nonneg (le_of_lt hk) (not_lt.mp hn)
      exact absurd h (not_lt.mpr this)
    · intro h
      exact mul_neg_of_pos_of_neg hk h

end DoubleHitClaim

section DoubleHitExample

theorem twinBall_hits (x : ℝ) (hx : x = 50 ∨ x = 100) :
    checkCircleRectCollision (twinBall ℝ).toCircle (twinBlock ℝ x).toRect
      = some Direction.bottom := by
  rcases hx with rfl | rfl <;>
    norm_num [checkCircleRectCollision, distanceSquared, distanceX, distanceY, closestX,
      closestY, twinBall, twinBlock, Ball.toCircle, Block.toRect, Ball.new]

/-- Witness of C31: the ball `twinBall` under the common corner of the two
blocks of `twinGame`, both met from below. -/
theorem double_hit_same_axis_witness :
    (Game.checkBlockCollisions realMath twinGame).isSome = true :=
  (double_hit_same_axis realMath twinGame (twinBall ℝ) (levelPaddle ℝ) [] [] []
    (twinBlock ℝ 50) (twinBlock ℝ 100) Direction.bottom Direction.bottom rfl rfl rfl
    (by norm_num [twinBall, Ball.new]) rfl rfl rfl (twinBall_hits 50 (Or.inl rfl))
    (twinBall_hits 100 (Or.inr rfl)) rfl (by intro blk h; simp at h)).1

end DoubleHitExample

section RoundingProperties

theorem log_two_eq (q : ℚ) (k : ℤ) (hlo : (2 : ℚ) ^ k ≤ |q|) (hhi : |q| < (2 : ℚ) ^ (k + 1)) :
    Int.log 2 |q| = k := by
  have hpos : 0 < |q| := lt_of_lt_of_le (by positivity) hlo
  have h1 : k ≤ Int.log 2 |q| := by
    rw [← Int.zpow_le_iff_le_log (by norm_num) hpos]
    exact_mod_cast hlo
  have h2 : Int.log 2 |q| < k + 1 := by
    rw [← Int.lt_zpow_iff_log_lt (by norm_num) hpos]
    exact_mod_cast hhi
  omega

theorem roundHalfEven_floor (x : ℚ) (f : ℤ) (hf : (f : ℚ) ≤ x) (hf1 : x < f + 1) :
    roundHalfEven x
      = if x - f < 1 / 2 then f
        else if 1 / 2 < x - f then f + 1
        else if f % 2 = 0 then f else f + 1 := by
  have h : ⌊x⌋ = f := Int.floor_eq_iff.mpr ⟨hf, hf1⟩
  simp only [roundHalfEven, h]

theorem roundDouble_eval (q : ℚ) (e n : ℤ) (hlo : (2 : ℚ) ^ (e + 52) ≤ |q|)
    (hhi : |q| < (2 : ℚ) ^ (e + 52 + 1)) (hn : roundHalfEven (q / 2 ^ e) = n) :
    roundDouble q = n * 2 ^ e := by
  have hpos : 0 < |q| := lt_of_lt_of_le (by positivity) hlo
  have hq : q ≠ 0 := abs_pos.mp hpos
  have hl := log_two_eq q (e + 52) hlo hhi
  have he : Int.log 2 |q| - 52 = e := by omega
  simp only [roundDouble, hq, if_false, he, hn]

theorem roundDouble_pos (q : ℚ) (e n : ℤ) (hlo : (2 : ℚ) ^ (e + 52) ≤ q)
    (hhi : q < (2 : ℚ) ^ (e + 52 + 1)) (hn : roundHalfEven (q / 2 ^ e) = n) :
    roundDouble q = n * 2 ^ e := by
  have hpos : 0 < q := lt_of_lt_of_le (by positivity) hlo
  exact roundDouble_eval q e n (by rw [abs_of_pos hpos]; exact hlo)
    (by rw [abs_of_pos hpos]; exact hhi) hn

theorem roundDouble_zero : roundDouble 0 = 0 := by simp [roundDouble]

theorem roundDouble_one :
    roundDouble 1
      = 1 := by
  have h := roundDouble_pos 1
    (-52) 4503599627370496 (by norm_num) (by norm_num)
    (by
      rw [roundHalfEven_floor _ (4503599627370496) (by norm_num) (by norm_num)]
      norm_num)
  rw [h]
  norm_num

theorem roundDouble_neg_one :
    roundDouble (-1)
      = (-1) := by
  have h := roundDouble_eval (-1) (-52) (-4503599627370496)
    (by rw [abs_of_neg (by norm_num)]; norm_num)
    (by rw [abs_of_neg (by norm_num)]; norm_num)
    (by
      rw [roundHalfEven_floor _ (-4503599627370496) (by norm_num) (by norm_num)]
      norm_num)
  rw [h]
  norm_num

theorem roundDouble_two :
    roundDouble 2
      = 2 := by
  have h := roundDouble_pos 2
    (-51) 4503599627370496 (by norm_num) (by norm_num)
    (by
      rw [roundHalfEven_floor _ (4503599627370496) (by norm_num) (by norm_num)]
      norm_num)
  rw [h]
  norm_num

theorem roundDouble_half :
    roundDouble (1 / 2)
      = (1 / 2) := by
  have h := roundDouble_pos (1 / 2)
    (-53) 4503599627370496 (by norm_num) (by norm_num)
    (by
      rw [roundHalfEven_floor _ (4503599627370496) (by norm_num) (by norm_num)]
      norm_num)
  rw [h]
  norm_num

theorem roundDouble_three_halves :
    roundDouble (3 / 2)
      = (3 / 2) := by
  have h := roundDouble_pos (3 / 2)
    (-52) 6755399441055744 (by norm_num) (by norm_num)
    (by
      rw [roundHalfEven_floor _ (6755399441055744) (by norm_num) (by norm_num)]
      norm_num)
  rw [h]
  norm_num

theorem roundDouble_tenth :
    roundDouble (1 / 10)
      = (3602879701896397 / 36028797018963968) := by
  have h := roundDouble_pos (1 / 10)
    (-56) 7205759403792794 (by norm_num) (by norm_num)
    (by
      rw [roundHalfEven_floor _ (7205759403792793) (by norm_num) (by norm_num)]
      norm_num)
  rw [h]
  norm_num

theorem roundDouble_width :
    roundDouble (3602879701896397 / 36028797018963968)
      = (3602879701896397 / 36028797018963968) := by
  have h := roundDouble_pos (3602879701896397 / 36028797018963968)
    (-56) 7205759403792794 (by norm_num) (by norm_num)
    (by
      rw [roundHalfEven_floor _ (7205759403792794) (by norm_num) (by norm_num)]
      norm_num)
  rw [h]
  norm_num

theorem roundDouble_radius :
    roundDouble (7205759403792793 / 18014398509481984)
      = (7205759403792793 / 18014398509481984) := by
  have h := roundDouble_pos (7205759403792793 / 18014398509481984)
    (-54) 7205759403792793 (by norm_num) (by norm_num)
    (by
      rw [roundHalfEven_floor _ (7205759403792793) (by norm_num) (by norm_num)]
      norm_num)
  rw [h]
  norm_num

theorem roundDouble_offset :
    roundDouble (14411518807585587 / 36028797018963968)
      = (3602879701896397 / 9007199254740992) := by
  have h := roundDouble_pos (14411518807585587 / 36028797018963968)
    (-54) 7205759403792794 (by norm_num) (by norm_num)
    (by
      rw [roundHalfEven_floor _ (7205759403792793) (by norm_num) (by norm_num)]
      norm_num)
  rw [h]
  norm_num

theorem roundDouble_offset_sq :
    roundDouble (12980742146337070512478121581609 / 81129638414606681695789005144064)
      = (1441151880758559 / 9007199254740992) := by
  have h := roundDouble_pos (12980742146337070512478121581609 / 81129638414606681695789005144064)
    (-55) 5764607523034236 (by norm_num) (by norm_num)
    (by
      rw [roundHalfEven_floor _ (5764607523034235) (by norm_num) (by norm_num)]
      norm_num)
  rw [h]
  norm_num

theorem roundDouble_offset_sq_idem :
    roundDouble (1441151880758559 / 9007199254740992)
      = (1441151880758559 / 9007199254740992) := by
  have h := roundDouble_pos (1441151880758559 / 9007199254740992)
    (-55) 5764607523034236 (by norm_num) (by norm_num)
    (by
      rw [roundHalfEven_floor _ (5764607523034236) (by norm_num) (by norm_num)]
      norm_num)
  rw [h]
  norm_num

theorem roundDouble_radius_sq :
    roundDouble (51922968585348267638393678740849 / 324518553658426726783156020576256)
      = (2882303761517117 / 18014398509481984) := by
  have h := roundDouble_pos (51922968585348267638393678740849 / 324518553658426726783156020576256)
    (-55) 5764607523034234 (by norm_num) (by norm_num)
    (by
      rw [roundHalfEven_floor _ (5764607523034233) (by norm_num) (by norm_num)]
      norm_num)
  rw [h]
  norm_num

theorem roundDouble_edge :
    roundDouble (39631676720860365 / 36028797018963968)
      = (2476979795053773 / 2251799813685248) := by
  have h := roundDouble_pos (39631676720860365 / 36028797018963968)
    (-52) 4953959590107546 (by norm_num) (by norm_num)
    (by
      rw [roundHalfEven_floor _ (4953959590107545) (by norm_num) (by norm_num)]
      norm_num)
  rw [h]
  norm_num

theorem roundDouble_moved_offset :
    roundDouble (900719925474099 / 2251799813685248)
      = (900719925474099 / 2251799813685248) := by
  have h := roundDouble_pos (900719925474099 / 2251799813685248)
    (-54) 7205759403792792 (by norm_num) (by norm_num)
    (by
      rw [roundHalfEven_floor _ (7205759403792792) (by norm_num) (by norm_num)]
      norm_num)
  rw [h]
  norm_num

theorem roundDouble_moved_offset_sq :
    roundDouble (811296384146066456669919861801 / 5070602400912917605986812821504)
      = (720575940379279 / 4503599627370496) := by
  have h := roundDouble_pos (811296384146066456669919861801 / 5070602400912917605986812821504)
    (-55) 5764607523034232 (by norm_num) (by norm_num)
    (by
      rw [roundHalfEven_floor _ (5764607523034232) (by norm_num) (by norm_num)]
      norm_num)
  rw [h]
  norm_num

theorem roundDouble_moved_offset_sq_idem :
    roundDouble (720575940379279 / 4503599627370496)
      = (720575940379279 / 4503599627370496) := by
  have h := roundDouble_pos (720575940379279 / 4503599627370496)
    (-55) 5764607523034232 (by norm_num) (by norm_num)
    (by
      rw [roundHalfEven_floor _ (5764607523034232) (by norm_num) (by norm_num)]
      norm_num)
  rw [h]
  norm_num

theorem roundDouble_three :
    roundDouble 3
      = 3 := by
  have h := roundDouble_pos 3
    (-51) 6755399441055744 (by norm_num) (by norm_num)
    (by
      rw [roundHalfEven_floor _ (6755399441055744) (by norm_num) (by norm_num)]
      norm_num)
  rw [h]
  norm_num

theorem roundDouble_four :
    roundDouble 4
      = 4 := by
  have h := roundDouble_pos 4
    (-50) 4503599627370496 (by norm_num) (by norm_num)
    (by
      rw [roundHalfEven_floor _ (4503599627370496) (by norm_num) (by norm_num)]
      norm_num)
  rw [h]
  norm_num

theorem roundDouble_eight :
    roundDouble 8
      = 8 := by
  have h := roundDouble_pos 8
    (-49) 4503599627370496 (by norm_num) (by norm_num)
    (by
      rw [roundHalfEven_floor _ (4503599627370496) (by norm_num) (by norm_num)]
      norm_num)
  rw [h]
  norm_num

theorem roundDouble_nine :
    roundDouble 9
      = 9 := by
  have h := roundDouble_pos 9
    (-49) 5066549580791808 (by norm_num) (by norm_num)
    (by
      rw [roundHalfEven_floor _ (5066549580791808) (by norm_num) (by norm_num)]
      norm_num)
  rw [h]
  norm_num

theorem roundDouble_ten :
    roundDouble 10
      = 10 := by
  have h := roundDouble_pos 10
    (-49) 5629499534213120 (by norm_num) (by norm_num)
    (by
      rw [roundHalfEven_floor _ (5629499534213120) (by norm_num) (by norm_num)]
      norm_num)
  rw [h]
  norm_num

theorem roundDouble_thirteen :
    roundDouble 13
      = 13 := by
  have h := roundDouble_pos 13
    (-49) 7318349394477056 (by norm_num) (by norm_num)
    (by
      rw [roundHalfEven_floor _ (7318349394477056) (by norm_num) (by norm_num)]
      norm_num)
  rw [h]
  norm_num

theorem roundDouble_fourteen :
    roundDouble 14
      = 14 := by
  have h := roundDouble_pos 14
    (-49) 7881299347898368 (by norm_num) (by norm_num)
    (by
      rw [roundHalfEven_floor _ (7881299347898368) (by norm_num) (by norm_num)]
      norm_num)
  rw [h]
  norm_num

theorem collisionFl_id {α : Type} [LinearOrderedField α] (c : Circle α) (r : Rect α) :
    checkCircleRectCollisionFl id c r = checkCircleRectCollision c r := rfl

theorem collisionFl_shift {α : Type} [LinearOrderedField α] (fl : α → α)
    (c : Circle α) (r : Rect α) (tx ty : α)
    (hcx : fl (c.x + tx) = c.x + tx) (hcy : fl (c.y + ty) = c.y + ty)
    (hrx : fl (r.x + tx) = r.x + tx) (hry : fl (r.y + ty) = r.y + ty)
    (hw : fl (r.x + r.width) = r.x + r.width) (hh : fl (r.y + r.height) = r.y + r.height)
    (hw1 : fl (r.x + tx + r.width) = r.x + tx + r.width)
    (hh1 : fl (r.y + ty + r.height) = r.y + ty + r.height) :
    checkCircleRectCollisionFl fl (c.shiftFl fl tx ty) (r.shiftFl fl tx ty)
        = checkCircleRectCollisionFl fl c r := by
  have hx : distanceXFl fl (c.shiftFl fl tx ty) (r.shiftFl fl tx ty) = distanceXFl fl c r := by
    simp only [distanceXFl, closestXFl, Circle.shiftFl, Rect.shiftFl, hcx, hrx, hw, hw1]
    rw [show r.x + tx + r.width = r.x + r.width + tx by ring, min_add_add_right,
      max_add_add_right, add_sub_add_right_eq_sub]
  have hy : distanceYFl fl (c.shiftFl fl tx ty) (r.shiftFl fl tx ty) = distanceYFl fl c r := by
    simp only [distanceYFl, closestYFl, Circle.shiftFl, Rect.shiftFl, hcy, hry, hh, hh1]
    rw [show r.y + ty + r.height = r.y + r.height + ty by ring, min_add_add_right,
      max_add_add_right, add_sub_add_right_eq_sub]
  have hr : (c.shiftFl fl tx ty).radius = c.radius := rfl
  simp only [checkCircleRectCollisionFl, distanceSquaredFl, hx, hy, hr]

/-- C5 as amended: when the result of each arithmetic operation is rounded
by `fl`, moving the circle and the rectangle by the same vector `(tx, ty)`
does not change the result of `checkCircleRectCollision`, neither whether a
collision is reported nor its direction, provided the moved coordinates
`c.x + tx`, `c.y + ty`, `r.x + tx`, `r.y + ty` and the far edges `x + width`,
`y + height` of the rectangle before and after the move are computed without
rounding.  In exact arithmetic (`fl := id`) the result is always unchanged. -/
theorem shift_invariant_when_exact {α : Type} [LinearOrderedField α] (fl : α → α)
    (c : Circle α) (r : Rect α) (tx ty : α)
    (hcx : fl (c.x + tx) = c.x + tx) (hcy : fl (c.y + ty) = c.y + ty)
    (hrx : fl (r.x + tx) = r.x + tx) (hry : fl (r.y + ty) = r.y + ty)
    (hw : fl (r.x + r.width) = r.x + r.width) (hh : fl (r.y + r.height) = r.y + r.height)
    (hw1 : fl (r.x + tx + r.width) = r.x + tx + r.width)
    (hh1 : fl (r.y + ty + r.height) = r.y + ty + r.height) :
    checkCircleRectCollisionFl fl (c.shiftFl fl tx ty) (r.shiftFl fl tx ty)
        = checkCircleRectCollisionFl fl c r ∧
    checkCircleRectCollision (c.shift tx ty) (r.shift tx ty) = checkCircleRectCollision c r ∧
    checkCircleRectCollisionFl id c r = checkCircleRectCollision c r ∧
    c.shiftFl id tx ty = c.shift tx ty ∧ r.shiftFl id tx ty = r.shift tx ty :=
  ⟨collisionFl_shift fl c r tx ty hcx hcy hrx hry hw hh hw1 hh1,
    collisionFl_shift id c r tx ty rfl rfl rfl rfl rfl rfl rfl rfl, rfl, rfl, rfl⟩

/-- Witness of C5 as amended: on doubles, the circle `(5, 5)` of radius 1
and the square of side 10 at the origin, moved by `(3, 4)`; all sums are
small integers. -/
theorem shift_invariant_when_exact_witness :
    checkCircleRectCollisionFl roundDouble (unitCircle.shiftFl roundDouble 3 4)
        (tenSquare.shiftFl roundDouble 3 4)
      = checkCircleRectCollisionFl roundDouble unitCircle tenSquare :=
  (shift_invariant_when_exact roundDouble unitCircle tenSquare 3 4
    (by norm_num [unitCircle, roundDouble_eight]) (by norm_num [unitCircle, roundDouble_nine])
    (by norm_num [tenSquare, roundDouble_three]) (by norm_num [tenSquare, roundDouble_four])
    (by norm_num [tenSquare, roundDouble_ten]) (by norm_num [tenSquare, roundDouble_ten])
    (by norm_num [tenSquare, roundDouble_thirteen])
    (by norm_num [tenSquare, roundDouble_fourteen])).1

theorem nearCircle_unshifted :
    checkCircleRectCollisionFl roundDouble nearCircle thinRect = none := by
  have hcx : closestXFl roundDouble nearCircle thinRect
      = 3602879701896397 / 36028797018963968 := by
    norm_num [closestXFl, nearCircle, thinRect, roundDouble_width]
  have hcy : closestYFl roundDouble nearCircle thinRect = 0 := by
    norm_num [closestYFl, nearCircle, thinRect, roundDouble_one]
  have hdx : distanceXFl roundDouble nearCircle thinRect
      = 3602879701896397 / 9007199254740992 := by
    rw [distanceXFl, hcx]
    norm_num [nearCircle, roundDouble_offset]
  have hdy : distanceYFl roundDouble nearCircle thinRect = 0 := by
    rw [distanceYFl, hcy]
    norm_num [nearCircle, roundDouble_zero]
  have hds : distanceSquaredFl roundDouble nearCircle thinRect
      = 1441151880758559 / 9007199254740992 := by
    rw [distanceSquaredFl, hdx, hdy]
    norm_num [roundDouble_zero, roundDouble_offset_sq, roundDouble_offset_sq_idem]
  have hrr : roundDouble (nearCircle.radius * nearCircle.radius)
      = 2882303761517117 / 18014398509481984 := by
    norm_num [nearCircle, roundDouble_radius_sq]
  rw [checkCircleRectCollisionFl, hds, hrr]
  norm_num

theorem nearCircle_moved :
    nearCircle.shiftFl roundDouble 1 0 = { nearCircle with x := 3 / 2 } ∧
      thinRect.shiftFl roundDouble 1 0 = { thinRect with x := 1 } := by
  constructor
  · norm_num [Circle.shiftFl, nearCircle, roundDouble_three_halves, roundDouble_zero]
  · norm_num [Rect.shiftFl, thinRect, roundDouble_one, roundDouble_neg_one]

theorem nearCircle_shifted :
    checkCircleRectCollisionFl roundDouble (nearCircle.shiftFl roundDouble 1 0)
      (thinRect.shiftFl roundDouble 1 0) = some Direction.right := by
  rw [nearCircle_moved.1, nearCircle_moved.2]
  have hcx : closestXFl roundDouble { nearCircle with x := 3 / 2 } { thinRect with x := 1 }
      = 2476979795053773 / 2251799813685248 := by
    norm_num [closestXFl, nearCircle, thinRect, roundDouble_edge]
  have hcy : closestYFl roundDouble { nearCircle with x := 3 / 2 } { thinRect with x := 1 }
      = 0 := by
    norm_num [closestYFl, nearCircle, thinRect, roundDouble_one]
  have hdx : distanceXFl roundDouble { nearCircle with x := 3 / 2 } { thinRect with x := 1 }
      = 900719925474099 / 2251799813685248 := by
    rw [distanceXFl, hcx]
    norm_num [roundDouble_moved_offset]
  have hdy : distanceYFl roundDouble { nearCircle with x := 3 / 2 } { thinRect with x := 1 }
      = 0 := by
    rw [distanceYFl, hcy]
    norm_num [nearCircle, roundDouble_zero]
  have hds : distanceSquaredFl roundDouble { nearCircle with x := 3 / 2 }
      { thinRect with x := 1 } = 720575940379279 / 4503599627370496 := by
    rw [distanceSquaredFl, hdx, hdy]
    norm_num [roundDouble_zero, roundDouble_moved_offset_sq, roundDouble_moved_offset_sq_idem]
  rw [checkCircleRectCollisionFl, hds, hdx, hdy]
  norm_num [nearCircle, roundDouble_radius_sq]

/-- Counterexample to C5 as stated, on doubles: for the circle `nearCircle`
(centre `(0.5, 0)`, radius `0.39999999999999997`) and the rectangle
`thinRect` (corner `(0, -1)`, width `0.1`, height 2), whose coordinates are
doubles, `checkCircleRectCollision` returns `null`; moved by `(1, 0)`, which
gives the centre `(1.5, 0)` and the corner `(1, -1)` without rounding, it
returns the direction `right`.  The far edge `0 + 0.1` is exact and `1 + 0.1`
is rounded. -/
theorem shift_changes_result_on_doubles :
    checkCircleRectCollisionFl roundDouble nearCircle thinRect = none ∧
    checkCircleRectCollisionFl roundDouble (nearCircle.shiftFl roundDouble 1 0)
      (thinRect.shiftFl roundDouble 1 0) = some Direction.right ∧
    nearCircle.shiftFl roundDouble 1 0 = { nearCircle with x := 3 / 2 } ∧
    thinRect.shiftFl roundDouble 1 0 = { thinRect with x := 1 } ∧
    roundDouble nearCircle.x = nearCircle.x ∧ roundDouble nearCircle.y = nearCircle.y ∧
    roundDouble nearCircle.radius = nearCircle.radius ∧
    roundDouble thinRect.x = thinRect.x ∧ roundDouble thinRect.y = thinRect.y ∧
    roundDouble thinRect.width = thinRect.width ∧
    roundDouble thinRect.height = thinRect.height ∧
    thinRect.width = roundDouble (1 / 10) ∧
    roundDouble (thinRect.x + thinRect.width) = thinRect.x + thinRect.width ∧
    roundDouble (thinRect.x + 1 + thinRect.width) ≠ thinRect.x + 1 + thinRect.width :=
  ⟨nearCircle_unshifted, nearCircle_shifted, nearCircle_moved.1, nearCircle_moved.2,
    roundDouble_half, roundDouble_zero, roundDouble_radius, roundDouble_zero,
    roundDouble_neg_one, roundDouble_width, roundDouble_two, roundDouble_tenth.symm,
    by norm_num [thinRect, roundDouble_width], by norm_num [thinRect, roundDouble_edge]⟩

end RoundingProperties

end GameSquare
